import Mathlib

/-!
# Prescription chaincode: a shallow embedding and its verified properties

The development follows `asset-transfer-basic/chaincode-go/chaincode/smartcontract.go`.

* Go structs become Lean structures with the same field names.
* The world state is an explicit value threaded through every transaction;
  a transaction returns its Go `error` result together with the world state
  it leaves behind.
* `encoding/json`, the ledger stub and the clock are libraries outside the
  contract: the JSON codec is a parameter (`Codec`), the stub is a key-value
  store with optional transport failures, and the clock is one instant per
  transaction.
* The encoding of a record itself (struct tags, `omitempty`) is modelled on
  parsed JSON documents (`Json`, `marshalAssetJson`, `unmarshalAssetJson`).
* The second copy of the contract, under `fabricNetwork/`, differs in its
  structs and in `CreateAsset`; these are embedded as `FabricNetwork.*`.
-/

namespace Chaincode

/-! ## Data model -/

/-- Go struct `Prescription`. -/
structure Prescription where
  PrescriptionId : String
  MedicationName : String
  Dosage : String
  Instructions : String
  Diagnosis : String
  Status : String
  CreatedBy : String
  TxID : String
  Timestamp : String
  ExpiryDate : String
  DispensingPharmacist : String
  DispensingTimestamp : String
deriving DecidableEq, Repr

/-- Go struct `Asset`: a patient's record, the ledger value stored under the patient id. -/
structure Asset where
  DoctorId : String
  PatientName : String
  PatientId : String
  DateOfBirth : String
  Prescriptions : List Prescription
  LastUpdated : String
deriving DecidableEq, Repr

/-- The anonymous struct `dispensation` decoded by `DispensePrescription`. -/
structure Dispensation where
  PatientId : String
  PrescriptionId : String
  PharmacistId : String
  Note : String
deriving DecidableEq, Repr

/-- The anonymous struct `revocation` decoded by `RevokePrescriptionJSON`. -/
structure Revocation where
  PatientId : String
  PrescriptionId : String
  DoctorId : String
deriving DecidableEq, Repr

/-! ## Time (the part of Go's `time` package the contract uses) -/

/-- Go `*time.Location`, by what `(*Location).lookup(sec)` returns for an
instant `sec` (seconds since the Unix epoch): the offset east of UTC in seconds
of the zone in effect at that instant, and the instants `start` and `end`
between which that zone is in effect. The zone name and the daylight-saving
flag, which the contract never uses, are left out. -/
structure Location where
  lookup : Int → Int × Int × Int

/-- Go `time.UTC`: offset zero at every instant, from `alpha` to `omega`. -/
def UTC : Location := ⟨fun _ => (0, -9223372036854775808, 9223372036854775807)⟩

/-- Go `time.Time`: an instant, in nanoseconds since the Unix epoch, with the
location it is displayed in. `time.Now()` gives the instant in `time.Local`,
the zone of the peer the chaincode runs on. -/
structure Time where
  unixNano : Int
  loc : Location

/-- The zone offset of `t`: that of its location at its instant. -/
def Time.offset (t : Time) : Int := (t.loc.lookup (t.unixNano / 1000000000)).1

/-- Days since 1970-01-01 of the proleptic Gregorian date `y-m-d`. The month is
expected in `1..12`; the day may overflow the month, as in Go's `time.Date`. -/
def daysFromCivil (y m d : Int) : Int :=
  let y1 := if m ≤ 2 then y - 1 else y
  let era := y1 / 400
  let yoe := y1 - era * 400
  let mp := if m > 2 then m - 3 else m + 9
  let doy := (153 * mp + 2) / 5 + d - 1
  let doe := yoe * 365 + yoe / 4 - yoe / 100 + doy
  era * 146097 + doe - 719468

/-- The proleptic Gregorian date `(year, month, day)` of a day number. -/
def civilFromDays (z : Int) : Int × Int × Int :=
  let z1 := z + 719468
  let era := z1 / 146097
  let doe := z1 - era * 146097
  let yoe := (doe - doe / 1460 + doe / 36524 - doe / 146096) / 365
  let doy := doe - (365 * yoe + yoe / 4 - yoe / 100)
  let mp := (5 * doy + 2) / 153
  let d := doy - (153 * mp + 2) / 5 + 1
  let m := if mp < 10 then mp + 3 else mp - 9
  let y := yoe + era * 400
  (if m ≤ 2 then y + 1 else y, m, d)

/-- Go `isLeap`. -/
def isLeap (year : Int) : Bool :=
  year % 4 = 0 ∧ (year % 100 ≠ 0 ∨ year % 400 = 0)

/-- Go `daysIn`: the number of days of a month of a year. -/
def daysIn (month year : Int) : Int :=
  if month = 2 then (if isLeap year then 29 else 28)
  else if month = 4 ∨ month = 6 ∨ month = 9 ∨ month = 11 then 30
  else 31

/-- Seconds since the epoch shifted to the zone of `t` (its wall clock). -/
def Time.localSec (t : Time) : Int := t.unixNano / 1000000000 + t.offset

/-- Go `t.Date()`: year, month and day in the zone of `t`. -/
def Time.Date (t : Time) : Int × Int × Int := civilFromDays (t.localSec / 86400)

/-- Go `time.Date(year, month, day, 0, 0, secOfDay, nsec, loc)`: the month
overflows into the year and the day into the following months; the wall clock
time is then taken to UTC with the offset the location has there. As in Go,
the location is first asked at the wall clock time read as UTC and, when the
instant that gives lies outside the zone found, asked again at that instant. -/
def mkDate (year month day secOfDay nsec : Int) (loc : Location) : Time :=
  let m0 := month - 1
  let y := year + m0 / 12
  let m := m0 % 12 + 1
  let unix := (daysFromCivil y m 1 + (day - 1)) * 86400 + secOfDay
  let zone := loc.lookup unix
  let offset :=
    if zone.1 ≠ 0 then
      if unix - zone.1 < zone.2.1 ∨ unix - zone.1 ≥ zone.2.2 then
        (loc.lookup (unix - zone.1)).1
      else zone.1
    else zone.1
  ⟨(unix - offset) * 1000000000 + nsec, loc⟩

/-- Go `t.AddDate(years, months, days)`. -/
def Time.AddDate (t : Time) (years months days : Int) : Time :=
  let (y, m, d) := t.Date
  mkDate (y + years) (m + months) (d + days) (t.localSec % 86400) (t.unixNano % 1000000000) t.loc

/-- Go `t.After(u)`: is the instant `t` strictly later than `u`. -/
def Time.After (t u : Time) : Bool := decide (u.unixNano < t.unixNano)

/-- One decimal digit as a character. -/
def digitChar (n : Nat) : Char := Char.ofNat (48 + n % 10)

/-- The decimal digits of `n`, at least `width` of them (Go `appendInt` on a
non-negative number). -/
def natDigits : Nat → Nat → List Char
  | 0, n => if n = 0 then [] else (Nat.toDigits 10 n)
  | w + 1, n => natDigits w (n / 10) ++ [digitChar n]

/-- Go `appendInt(x, width)`: decimal with a sign for negatives, zero padded. -/
def appendInt (x : Int) (width : Nat) : String :=
  String.mk ((if x < 0 then ['-'] else []) ++ natDigits width x.natAbs)

/-- Go `t.Format("2006-01-02")`. -/
def Time.FormatDate (t : Time) : String :=
  let (y, m, d) := t.Date
  appendInt y 4 ++ "-" ++ appendInt m 2 ++ "-" ++ appendInt d 2

/-- The zone suffix `Z07:00` of RFC 3339. -/
def formatZone (offset : Int) : String :=
  let mins := offset.natAbs / 60
  if mins = 0 then (if offset = 0 then "Z" else "+00:00")
  else (if offset < 0 then "-" else "+") ++ appendInt (mins / 60 : Nat) 2 ++ ":"
    ++ appendInt (mins % 60 : Nat) 2

/-- Go `t.Format(time.RFC3339)`, layout `2006-01-02T15:04:05Z07:00`. -/
def Time.FormatRFC3339 (t : Time) : String :=
  let s := t.localSec % 86400
  t.FormatDate ++ "T" ++ appendInt (s / 3600) 2 ++ ":" ++ appendInt (s % 3600 / 60) 2 ++ ":"
    ++ appendInt (s % 60) 2 ++ formatZone t.offset

/-- Value of an ASCII digit, `none` for every other character (Go `isDigit`). -/
def digitVal (c : Char) : Option Nat :=
  if '0' ≤ c ∧ c ≤ '9' then some (c.toNat - 48) else none

/-- Go `time.Parse("2006-01-02", s)`: four year digits, `-`, two month digits,
`-`, two day digits and nothing else; the month must be in `1..12` and the day
must exist in that month. The result is midnight UTC of that date. -/
def parseDate (s : String) : Option Time :=
  match s.data with
  | [y1, y2, y3, y4, '-', m1, m2, '-', d1, d2] =>
    match digitVal y1, digitVal y2, digitVal y3, digitVal y4,
          digitVal m1, digitVal m2, digitVal d1, digitVal d2 with
    | some a, some b, some c, some d, some e, some f, some g, some h =>
      let year : Int := (a * 1000 + b * 100 + c * 10 + d : Nat)
      let month : Int := (e * 10 + f : Nat)
      let day : Int := (g * 10 + h : Nat)
      if month ≤ 0 ∨ 12 < month then none
      else if day < 1 ∨ day > daysIn month year then none
      else some (mkDate year month day 0 0 UTC)
    | _, _, _, _, _, _, _, _ => none
  | _ => none

/-! ## The ledger stub and the JSON codec -/

/-- The world state: the stored bytes for each key, kept in key order (the
order of a range scan). -/
abbrev World (Bytes : Type) := List (String × Bytes)

/-- The bytes stored under a key, `none` when the key is absent. -/
def getValue {Bytes : Type} : World Bytes → String → Option Bytes
  | [], _ => none
  | (k', v) :: rest, k => if k' = k then some v else getValue rest k

/-- Store bytes under a key: an existing entry is replaced, a new one is
inserted at its place in key order. -/
def putValue {Bytes : Type} : World Bytes → String → Bytes → World Bytes
  | [], k, v => [(k, v)]
  | (k', v') :: rest, k, v =>
    if k' = k then (k, v) :: rest
    else if k < k' then (k, v) :: (k', v') :: rest
    else (k', v') :: putValue rest k v

/-- The transaction context: the transaction id of `ctx.GetStub().GetTxID()`,
the instant every `time.Now()` of this transaction returns (a transaction is
taken to run within one tick of the clock), and the transport failures of the
stub: `getErr k` / `putErr k` is the error `GetState` / `PutState` returns on
key `k`, if any; `rangeErr` is the error `GetStateByRange` returns, if any, and
`nextErr k` the error the iterator's `Next()` returns when it reaches key `k`. -/
structure Ctx where
  txID : String
  now : Time
  getErr : String → Option String
  putErr : String → Option String
  rangeErr : Option String
  nextErr : String → Option String

/-- The stub call `ctx.GetStub().GetState(key)`. -/
def GetState {Bytes : Type} (ctx : Ctx) (w : World Bytes) (key : String) :
    Except String (Option Bytes) :=
  match ctx.getErr key with
  | some e => .error e
  | none => .ok (getValue w key)

/-- The stub call `ctx.GetStub().PutState(key, value)`: the error it returns and
the world state afterwards. -/
def PutState {Bytes : Type} (ctx : Ctx) (w : World Bytes) (key : String) (value : Bytes) :
    Except String Unit × World Bytes :=
  match ctx.putErr key with
  | some e => (.error e, w)
  | none => (.ok (), putValue w key value)

/-- The uses the contract makes of `encoding/json`, over an arbitrary
representation `Bytes` of JSON text. `json.Marshal` cannot fail on a struct of
strings and slices, so `marshalAsset` is total; each `json.Unmarshal` target
type has its decoder, which returns the library's error text on failure.
Decoding an encoded record gives the record back. -/
structure Codec (Bytes : Type) where
  marshalAsset : Asset → Bytes
  unmarshalAsset : Bytes → Except String Asset
  unmarshalPrescription : Bytes → Except String Prescription
  unmarshalDispensation : Bytes → Except String Dispensation
  unmarshalRevocation : Bytes → Except String Revocation
  unmarshalAssets : Bytes → Except String (List Asset)
  unmarshal_marshal : ∀ a : Asset, unmarshalAsset (marshalAsset a) = .ok a

/-- The record a world state holds under a key: the stored bytes, decoded. -/
def storedAsset {Bytes : Type} (J : Codec Bytes) (w : World Bytes) (key : String) :
    Option Asset :=
  match getValue w key with
  | none => none
  | some b =>
    match J.unmarshalAsset b with
    | .ok a => some a
    | .error _ => none

/-! ## The transactions -/

/-- Go `ReadAsset`. -/
def ReadAsset {Bytes : Type} (J : Codec Bytes) (ctx : Ctx) (w : World Bytes)
    (patientId : String) : Except String Asset :=
  match GetState ctx w patientId with
  | .error e => .error ("failed to read from world state: " ++ e)
  | .ok none => .error ("asset " ++ patientId ++ " does not exist")
  | .ok (some assetJSON) => J.unmarshalAsset assetJSON

/-- The metadata both loops of `CreateAsset` write into an incoming
prescription (lines 67-74 and 97-104). -/
def stampPrescription (ctx : Ctx) (doctorId : String) (prescription : Prescription) :
    Prescription :=
  let p := { prescription with
    TxID := ctx.txID, Timestamp := ctx.now.FormatRFC3339, Status := "Active",
    CreatedBy := doctorId }
  if p.ExpiryDate = "" then { p with ExpiryDate := (ctx.now.AddDate 0 1 0).FormatDate } else p

/-- The merge loop of `CreateAsset` (lines 60-78): `existing` is
`existingAsset.Prescriptions` so far, the list is what is left of
`newAsset.Prescriptions`. -/
def mergeLoop (ctx : Ctx) (doctorId : String) :
    List Prescription → List Prescription → Except String (List Prescription)
  | [], existing => .ok existing
  | prescription :: rest, existing =>
    if prescription.Diagnosis = "" then .error "diagnosis is required for all prescriptions"
    else mergeLoop ctx doctorId rest (existing ++ [stampPrescription ctx doctorId prescription])

/-- The in-place loop of `CreateAsset` for a new record (lines 93-105). -/
def createLoop (ctx : Ctx) (doctorId : String) :
    List Prescription → Except String (List Prescription)
  | [] => .ok []
  | prescription :: rest =>
    if prescription.Diagnosis = "" then .error "diagnosis is required for all prescriptions"
    else
      match createLoop ctx doctorId rest with
      | .error e => .error e
      | .ok rest' => .ok (stampPrescription ctx doctorId prescription :: rest')

/-- Go `CreateAsset`. -/
def CreateAsset {Bytes : Type} (J : Codec Bytes) (ctx : Ctx) (w : World Bytes)
    (assetJSON : Bytes) : Except String Unit × World Bytes :=
  match J.unmarshalAsset assetJSON with
  | .error e => (.error ("failed to parse asset JSON: " ++ e), w)
  | .ok newAsset =>
    if newAsset.PatientId = "" ∨ newAsset.DoctorId = "" then
      (.error "patientId and doctorId are required", w)
    else
      match ReadAsset J ctx w newAsset.PatientId with
      | .ok existingAsset =>
        match mergeLoop ctx newAsset.DoctorId newAsset.Prescriptions
            existingAsset.Prescriptions with
        | .error e => (.error e, w)
        | .ok prescriptions =>
          PutState ctx w newAsset.PatientId
            (J.marshalAsset { existingAsset with
              Prescriptions := prescriptions, LastUpdated := ctx.now.FormatRFC3339 })
      | .error _ =>
        match createLoop ctx newAsset.DoctorId newAsset.Prescriptions with
        | .error e => (.error e, w)
        | .ok prescriptions =>
          PutState ctx w newAsset.PatientId
            (J.marshalAsset { newAsset with
              Prescriptions := prescriptions, LastUpdated := ctx.now.FormatRFC3339 })

/-- The search loop of `UpdatePrescription` (lines 153-164); `none` when no
prescription has the id (`found` stays false). -/
def updateLoop (ctx : Ctx) (newPrescription : Prescription) :
    List Prescription → Option (List Prescription)
  | [] => none
  | p :: rest =>
    if p.PrescriptionId = newPrescription.PrescriptionId then
      some ({ newPrescription with
        CreatedBy := p.CreatedBy, TxID := ctx.txID, Timestamp := ctx.now.FormatRFC3339 } :: rest)
    else
      match updateLoop ctx newPrescription rest with
      | none => none
      | some rest' => some (p :: rest')

/-- Go `UpdatePrescription`. -/
def UpdatePrescription {Bytes : Type} (J : Codec Bytes) (ctx : Ctx) (w : World Bytes)
    (patientId : String) (prescriptionJSON : Bytes) : Except String Unit × World Bytes :=
  match ReadAsset J ctx w patientId with
  | .error e => (.error e, w)
  | .ok asset =>
    match J.unmarshalPrescription prescriptionJSON with
    | .error e => (.error ("failed to parse prescription JSON: " ++ e), w)
    | .ok newPrescription =>
      match updateLoop ctx newPrescription asset.Prescriptions with
      | none => (.error ("prescription " ++ newPrescription.PrescriptionId ++ " not found"), w)
      | some prescriptions =>
        PutState ctx w patientId
          (J.marshalAsset { asset with
            Prescriptions := prescriptions, LastUpdated := ctx.now.FormatRFC3339 })

/-- The search loop of `DispensePrescription` (lines 207-228): an error when the
first prescription with the id may not be dispensed, `none` when no
prescription has the id. -/
def dispenseLoop (ctx : Ctx) (prescriptionId pharmacistId : String) :
    List Prescription → Except String (Option (List Prescription))
  | [] => .ok none
  | p :: rest =>
    if p.PrescriptionId = prescriptionId then
      if p.Status = "Revoked" then .error "cannot dispense a revoked prescription"
      else if p.Status ≠ "Active" then .error "can only dispense active prescriptions"
      else
        .ok (some ({ p with
          Status := "Dispensed", TxID := ctx.txID, Timestamp := ctx.now.FormatRFC3339,
          DispensingPharmacist := pharmacistId,
          DispensingTimestamp := ctx.now.FormatRFC3339 } :: rest))
    else
      match dispenseLoop ctx prescriptionId pharmacistId rest with
      | .error e => .error e
      | .ok none => .ok none
      | .ok (some rest') => .ok (some (p :: rest'))

/-- Go `DispensePrescription`. -/
def DispensePrescription {Bytes : Type} (J : Codec Bytes) (ctx : Ctx) (w : World Bytes)
    (dispensationJSON : Bytes) : Except String Unit × World Bytes :=
  match J.unmarshalDispensation dispensationJSON with
  | .error e => (.error ("failed to parse dispensation JSON: " ++ e), w)
  | .ok dispensation =>
    if dispensation.PatientId = "" ∨ dispensation.PrescriptionId = ""
        ∨ dispensation.PharmacistId = "" then
      (.error "patientId, prescriptionId, and pharmacistId are required", w)
    else
      match ReadAsset J ctx w dispensation.PatientId with
      | .error e => (.error e, w)
      | .ok asset =>
        match dispenseLoop ctx dispensation.PrescriptionId dispensation.PharmacistId
            asset.Prescriptions with
        | .error e => (.error e, w)
        | .ok none => (.error "prescription not found", w)
        | .ok (some prescriptions) =>
          PutState ctx w dispensation.PatientId
            (J.marshalAsset { asset with
              Prescriptions := prescriptions, LastUpdated := ctx.now.FormatRFC3339 })

/-- The search loop of `RevokePrescriptionJSON` (lines 345-363). -/
def revokeLoop (ctx : Ctx) (prescriptionId doctorId : String) :
    List Prescription → Except String (Option (List Prescription))
  | [] => .ok none
  | p :: rest =>
    if p.PrescriptionId = prescriptionId then
      if p.CreatedBy ≠ doctorId then
        .error "only the prescribing doctor can revoke this prescription"
      else if p.Status ≠ "Active" then .error "can only revoke active prescriptions"
      else
        .ok (some ({ p with
          Status := "Revoked", TxID := ctx.txID, Timestamp := ctx.now.FormatRFC3339 } :: rest))
    else
      match revokeLoop ctx prescriptionId doctorId rest with
      | .error e => .error e
      | .ok none => .ok none
      | .ok (some rest') => .ok (some (p :: rest'))

/-- Go `RevokePrescriptionJSON`. -/
def RevokePrescriptionJSON {Bytes : Type} (J : Codec Bytes) (ctx : Ctx) (w : World Bytes)
    (revocationJSON : Bytes) : Except String Unit × World Bytes :=
  match J.unmarshalRevocation revocationJSON with
  | .error e => (.error ("failed to parse revocation JSON: " ++ e), w)
  | .ok revocation =>
    if revocation.PatientId = "" ∨ revocation.PrescriptionId = ""
        ∨ revocation.DoctorId = "" then
      (.error "patientId, prescriptionId, and doctorId are required", w)
    else
      match ReadAsset J ctx w revocation.PatientId with
      | .error e => (.error e, w)
      | .ok asset =>
        match revokeLoop ctx revocation.PrescriptionId revocation.DoctorId
            asset.Prescriptions with
        | .error e => (.error e, w)
        | .ok none => (.error "prescription not found", w)
        | .ok (some prescriptions) =>
          PutState ctx w revocation.PatientId
            (J.marshalAsset { asset with
              Prescriptions := prescriptions, LastUpdated := ctx.now.FormatRFC3339 })

/-- The loop of `CheckPrescriptionExpiry` (lines 453-475) up to its `return`:
an error (bad expiry date, or no prescription with the id), `none` for the
plain `return nil` before expiry, or the prescriptions to write back. The text
`time.Parse` appends to the format error is left out. -/
def expiryLoop (ctx : Ctx) (prescriptionId : String) :
    List Prescription → Except String (Option (List Prescription))
  | [] => .error "prescription not found"
  | p :: rest =>
    if p.PrescriptionId = prescriptionId then
      match parseDate p.ExpiryDate with
      | none => .error "invalid expiry date format"
      | some expiryDate =>
        if ctx.now.After expiryDate then
          .ok (some ({ p with
            Status := "Expired", TxID := ctx.txID, Timestamp := ctx.now.FormatRFC3339 } :: rest))
        else .ok none
    else
      match expiryLoop ctx prescriptionId rest with
      | .error e => .error e
      | .ok none => .ok none
      | .ok (some rest') => .ok (some (p :: rest'))

/-- Go `CheckPrescriptionExpiry`. -/
def CheckPrescriptionExpiry {Bytes : Type} (J : Codec Bytes) (ctx : Ctx) (w : World Bytes)
    (patientId prescriptionId : String) : Except String Unit × World Bytes :=
  match ReadAsset J ctx w patientId with
  | .error e => (.error e, w)
  | .ok asset =>
    match expiryLoop ctx prescriptionId asset.Prescriptions with
    | .error e => (.error e, w)
    | .ok none => (.ok (), w)
    | .ok (some prescriptions) =>
      PutState ctx w patientId (J.marshalAsset { asset with Prescriptions := prescriptions })

/-- The mutating transactions of the contract, with their arguments. -/
inductive Mutation (Bytes : Type) where
  | CreateAsset (assetJSON : Bytes)
  | UpdatePrescription (patientId : String) (prescriptionJSON : Bytes)
  | DispensePrescription (dispensationJSON : Bytes)
  | RevokePrescriptionJSON (revocationJSON : Bytes)
  | CheckPrescriptionExpiry (patientId prescriptionId : String)

/-- Run one mutating transaction on a world state. -/
def runMutation {Bytes : Type} (J : Codec Bytes) (ctx : Ctx) (w : World Bytes) :
    Mutation Bytes → Except String Unit × World Bytes
  | .CreateAsset assetJSON => CreateAsset J ctx w assetJSON
  | .UpdatePrescription patientId prescriptionJSON =>
    UpdatePrescription J ctx w patientId prescriptionJSON
  | .DispensePrescription dispensationJSON => DispensePrescription J ctx w dispensationJSON
  | .RevokePrescriptionJSON revocationJSON => RevokePrescriptionJSON J ctx w revocationJSON
  | .CheckPrescriptionExpiry patientId prescriptionId =>
    CheckPrescriptionExpiry J ctx w patientId prescriptionId

/-! ## Range scans and the queries -/

/-- The iterator of a range scan, as the outcomes of its successive `Next()`
calls: a key with its stored bytes, or an error. -/
abbrev Iterator (Bytes : Type) := List (Except String (String × Bytes))

/-- The stub call `ctx.GetStub().GetStateByRange(startKey, endKey)`: the entries
from `startKey` (included) up to `endKey` (excluded) in key order, an empty
bound being no bound. -/
def GetStateByRange {Bytes : Type} (ctx : Ctx) (w : World Bytes) (startKey endKey : String) :
    Except String (Iterator Bytes) :=
  match ctx.rangeErr with
  | some e => .error e
  | none =>
    .ok ((w.filter (fun kv =>
        decide ((startKey = "" ∨ ¬ kv.1 < startKey) ∧ (endKey = "" ∨ kv.1 < endKey)))).map
      (fun kv =>
        match ctx.nextErr kv.1 with
        | some e => .error e
        | none => .ok kv))

/-- The filter loop of `GetPrescriptionsByStatus` (lines 306-311). -/
def statusLoop (status : String) :
    List Prescription → List Prescription → List Prescription
  | [], filtered => filtered
  | prescription :: rest, filtered =>
    if prescription.Status = status then statusLoop status rest (filtered ++ [prescription])
    else statusLoop status rest filtered

/-- Go `GetPrescriptionsByStatus`: its result and the world state, which it
never writes. -/
def GetPrescriptionsByStatus {Bytes : Type} (J : Codec Bytes) (ctx : Ctx) (w : World Bytes)
    (patientId status : String) : Except String (List Prescription) × World Bytes :=
  match ReadAsset J ctx w patientId with
  | .error e => (.error e, w)
  | .ok asset => (.ok (statusLoop status asset.Prescriptions []), w)

/-- The map literal `knownInteractions` of `CheckMedicationInteractions`. -/
def knownInteractions : List (String × List String) :=
  [("Aspirin", ["Warfarin", "Heparin"]),
   ("Ibuprofen", ["Aspirin", "Warfarin"]),
   ("Warfarin", ["Aspirin", "Ibuprofen"])]

/-- The warning text built by `fmt.Sprintf` at line 559. -/
def interactionWarning (newMedication interactor diagnosis : String) : String :=
  "Warning: " ++ newMedication ++ " interacts with active medication " ++ interactor
    ++ " (prescribed for " ++ diagnosis ++ ")"

/-- The inner loop of `CheckMedicationInteractions` over `interactsWith`
(lines 557-561), for one active prescription. -/
def interactorLoop (newMedication : String) (prescription : Prescription) :
    List String → List String → List String
  | [], interactions => interactions
  | interactor :: rest, interactions =>
    if prescription.MedicationName = interactor then
      interactorLoop newMedication prescription rest
        (interactions ++ [interactionWarning newMedication interactor prescription.Diagnosis])
    else interactorLoop newMedication prescription rest interactions

/-- The outer loop of `CheckMedicationInteractions` over the prescriptions
(lines 555-563). -/
def interactionLoop (newMedication : String) (interactsWith : List String) :
    List Prescription → List String → List String
  | [], interactions => interactions
  | prescription :: rest, interactions =>
    if prescription.Status = "Active" then
      interactionLoop newMedication interactsWith rest
        (interactorLoop newMedication prescription interactsWith interactions)
    else interactionLoop newMedication interactsWith rest interactions

/-- Go `CheckMedicationInteractions`: its result and the world state, which it
never writes. -/
def CheckMedicationInteractions {Bytes : Type} (J : Codec Bytes) (ctx : Ctx) (w : World Bytes)
    (patientId newMedication : String) : Except String (List String) × World Bytes :=
  match ReadAsset J ctx w patientId with
  | .error e => (.error e, w)
  | .ok asset =>
    match knownInteractions.lookup newMedication with
    | some interactsWith =>
      (.ok (interactionLoop newMedication interactsWith asset.Prescriptions []), w)
    | none => (.ok [], w)

/-- The map `GetPrescriptionAnalytics` returns, one field per key. The counters
are Go `int`s, which a count of stored prescriptions cannot overflow; the
frequency maps are association lists without repeated keys;
`averageDispenseTime` is the constant `0.0`, which is never updated. -/
structure Analytics where
  totalPrescriptions : Nat
  activeCount : Nat
  dispensedCount : Nat
  expiryCount : Nat
  medicationFrequency : List (String × Nat)
  diagnosisFrequency : List (String × Nat)
  averageDispenseTime : Nat
deriving DecidableEq, Repr

/-- The map update of lines 511-515 and 518-522: add one to the count of a key
that exists, set the count of a new key to one. -/
def freqIncr : List (String × Nat) → String → List (String × Nat)
  | [], key => [(key, 1)]
  | (k, count) :: rest, key =>
    if k = key then (k, count + 1) :: rest else (k, count) :: freqIncr rest key

/-- The body of the loop over the prescriptions of one record in
`GetPrescriptionAnalytics` (lines 508-532). -/
def countPrescription (analytics : Analytics) (prescription : Prescription) : Analytics :=
  let counted := { analytics with
    totalPrescriptions := analytics.totalPrescriptions + 1,
    medicationFrequency := freqIncr analytics.medicationFrequency prescription.MedicationName,
    diagnosisFrequency := freqIncr analytics.diagnosisFrequency prescription.Diagnosis }
  if prescription.Status = "Active" then
    { counted with activeCount := counted.activeCount + 1 }
  else if prescription.Status = "Dispensed" then
    { counted with dispensedCount := counted.dispensedCount + 1 }
  else if prescription.Status = "Expired" then
    { counted with expiryCount := counted.expiryCount + 1 }
  else counted

/-- The scan loop of `GetPrescriptionAnalytics` (lines 496-534): an entry whose
`Next()` fails or whose bytes do not decode is skipped. -/
def analyticsLoop {Bytes : Type} (J : Codec Bytes) :
    Iterator Bytes → Analytics → Analytics
  | [], analytics => analytics
  | .error _ :: rest, analytics => analyticsLoop J rest analytics
  | .ok queryResponse :: rest, analytics =>
    match J.unmarshalAsset queryResponse.2 with
    | .error _ => analyticsLoop J rest analytics
    | .ok asset => analyticsLoop J rest (asset.Prescriptions.foldl countPrescription analytics)

/-- Go `GetPrescriptionAnalytics`: its result and the world state, which it
never writes. `startDate` and `endDate` are not used by the body. -/
def GetPrescriptionAnalytics {Bytes : Type} (J : Codec Bytes) (ctx : Ctx) (w : World Bytes)
    (_startDate _endDate : String) : Except String Analytics × World Bytes :=
  match GetStateByRange ctx w "" "" with
  | .error e => (.error e, w)
  | .ok iterator => (.ok (analyticsLoop J iterator ⟨0, 0, 0, 0, [], [], 0⟩), w)

/-- Go `firstNonEmpty`. -/
def firstNonEmpty : List String → String
  | [] => ""
  | v :: rest => if v ≠ "" then v else firstNonEmpty rest

/-- One entry of the result of `GetPrescriptionsByDoctor` (lines 618-630). -/
structure DoctorPrescription where
  Diagnosis : String
  Dosage : String
  ExpiryDate : String
  Instructions : String
  MedicationName : String
  PatientId : String
  PatientName : String
  PrescriptionId : String
  Status : String
  Timestamp : String
  TxID : String
deriving DecidableEq, Repr

/-- The map literal `prescriptionData` of `GetPrescriptionsByDoctor`. -/
def doctorPrescriptionData (ctx : Ctx) (asset : Asset) (prescription : Prescription) :
    DoctorPrescription :=
  { Diagnosis := firstNonEmpty [prescription.Diagnosis, "Not specified"],
    Dosage := firstNonEmpty [prescription.Dosage, "Not specified"],
    ExpiryDate := prescription.ExpiryDate,
    Instructions := firstNonEmpty [prescription.Instructions, "Not specified"],
    MedicationName := firstNonEmpty [prescription.MedicationName, "Not specified"],
    PatientId := asset.PatientId,
    PatientName := firstNonEmpty [asset.PatientName, "Unknown"],
    PrescriptionId := prescription.PrescriptionId,
    Status := firstNonEmpty [prescription.Status, "Unknown"],
    Timestamp := firstNonEmpty [prescription.Timestamp, ctx.now.FormatRFC3339],
    TxID := firstNonEmpty [prescription.TxID, "Not available"] }

/-- The loop of `GetPrescriptionsByDoctor` over the prescriptions of one record
(lines 611-633). -/
def doctorRecordLoop (ctx : Ctx) (doctorId : String) (asset : Asset) :
    List Prescription → List DoctorPrescription → List DoctorPrescription
  | [], results => results
  | prescription :: rest, results =>
    if prescription.CreatedBy = doctorId then
      if prescription.PrescriptionId = "" then doctorRecordLoop ctx doctorId asset rest results
      else doctorRecordLoop ctx doctorId asset rest
        (results ++ [doctorPrescriptionData ctx asset prescription])
    else doctorRecordLoop ctx doctorId asset rest results

/-- The scan loop of `GetPrescriptionsByDoctor` (lines 600-634): a failing
`Next()` ends the call with an error, bytes that do not decode are skipped. -/
def doctorLoop {Bytes : Type} (J : Codec Bytes) (ctx : Ctx) (doctorId : String) :
    Iterator Bytes → List DoctorPrescription → Except String (List DoctorPrescription)
  | [], results => .ok results
  | .error e :: _, _ => .error ("failed to get next result: " ++ e)
  | .ok queryResponse :: rest, results =>
    match J.unmarshalAsset queryResponse.2 with
    | .error _ => doctorLoop J ctx doctorId rest results
    | .ok asset =>
      doctorLoop J ctx doctorId rest
        (doctorRecordLoop ctx doctorId asset asset.Prescriptions results)

/-- Go `GetPrescriptionsByDoctor`: its result and the world state, which it
never writes. -/
def GetPrescriptionsByDoctor {Bytes : Type} (J : Codec Bytes) (ctx : Ctx) (w : World Bytes)
    (doctorId : String) : Except String (List DoctorPrescription) × World Bytes :=
  match GetStateByRange ctx w "" "" with
  | .error e => (.error ("failed to get state by range: " ++ e), w)
  | .ok iterator =>
    match doctorLoop J ctx doctorId iterator [] with
    | .error e => (.error e, w)
    | .ok results =>
      if results.length = 0 then
        (.error ("no prescriptions found for doctor " ++ doctorId), w)
      else (.ok results, w)

/-- One entry of the result of `GetDispenseHistory` (lines 681-693). -/
structure DispensedPrescription where
  PrescriptionId : String
  PatientId : String
  PatientName : String
  MedicationName : String
  Dosage : String
  Instructions : String
  Diagnosis : String
  Status : String
  CreatedBy : String
  DispensingTimestamp : String
  TxID : String
deriving DecidableEq, Repr

/-- The map literal `prescriptionData` of `GetDispenseHistory`. -/
def dispensedPrescriptionData (asset : Asset) (prescription : Prescription) :
    DispensedPrescription :=
  { PrescriptionId := prescription.PrescriptionId,
    PatientId := asset.PatientId,
    PatientName := asset.PatientName,
    MedicationName := prescription.MedicationName,
    Dosage := prescription.Dosage,
    Instructions := prescription.Instructions,
    Diagnosis := prescription.Diagnosis,
    Status := prescription.Status,
    CreatedBy := prescription.CreatedBy,
    DispensingTimestamp := prescription.DispensingTimestamp,
    TxID := prescription.TxID }

/-- The loop of `GetDispenseHistory` over the prescriptions of one record
(lines 679-697). -/
def dispenseRecordLoop (pharmacistId : String) (asset : Asset) :
    List Prescription → List DispensedPrescription → List DispensedPrescription
  | [], dispensed => dispensed
  | prescription :: rest, dispensed =>
    if prescription.DispensingPharmacist = pharmacistId then
      dispenseRecordLoop pharmacistId asset rest
        (dispensed ++ [dispensedPrescriptionData asset prescription])
    else dispenseRecordLoop pharmacistId asset rest dispensed

/-- The scan loop of `GetDispenseHistory` (lines 668-698): an entry whose
`Next()` fails or whose bytes do not decode is skipped. -/
def dispenseHistoryLoop {Bytes : Type} (J : Codec Bytes) (pharmacistId : String) :
    Iterator Bytes → List DispensedPrescription → List DispensedPrescription
  | [], dispensed => dispensed
  | .error _ :: rest, dispensed => dispenseHistoryLoop J pharmacistId rest dispensed
  | .ok queryResponse :: rest, dispensed =>
    match J.unmarshalAsset queryResponse.2 with
    | .error _ => dispenseHistoryLoop J pharmacistId rest dispensed
    | .ok asset =>
      dispenseHistoryLoop J pharmacistId rest
        (dispenseRecordLoop pharmacistId asset asset.Prescriptions dispensed)

/-- Go `GetDispenseHistory`: its result and the world state, which it never
writes. -/
def GetDispenseHistory {Bytes : Type} (J : Codec Bytes) (ctx : Ctx) (w : World Bytes)
    (pharmacistId : String) : Except String (List DispensedPrescription) × World Bytes :=
  match GetStateByRange ctx w "" "" with
  | .error e => (.error e, w)
  | .ok iterator => (.ok (dispenseHistoryLoop J pharmacistId iterator []), w)

/-- The records a full scan reads: the entries, in scan order, whose `Next()`
does not fail and whose bytes decode. -/
def scannedAssets {Bytes : Type} (J : Codec Bytes) (ctx : Ctx) (w : World Bytes) : List Asset :=
  w.filterMap (fun kv =>
    match ctx.nextErr kv.1 with
    | some _ => none
    | none =>
      match J.unmarshalAsset kv.2 with
      | .ok asset => some asset
      | .error _ => none)

/-- The prescriptions of the records a full scan reads, in scan order. -/
def scannedPrescriptions {Bytes : Type} (J : Codec Bytes) (ctx : Ctx) (w : World Bytes) :
    List Prescription :=
  (scannedAssets J ctx w).flatMap (fun asset => asset.Prescriptions)

/-- The world state without the keys whose stored bytes do not decode to a record. -/
def dropMalformed {Bytes : Type} (J : Codec Bytes) (w : World Bytes) : World Bytes :=
  w.filter (fun kv => (J.unmarshalAsset kv.2).isOk)

/-- The iterator of a scan of the whole key space: every entry in key order,
with the outcome of `Next()` on it. -/
def fullScan {Bytes : Type} (ctx : Ctx) (w : World Bytes) : Iterator Bytes :=
  w.map (fun kv =>
    match ctx.nextErr kv.1 with
    | some e => .error e
    | none => .ok kv)

/-- The Go map index expression `m[key]` on a frequency map: the stored count,
zero for a key that is not in the map. -/
def freqGet (m : List (String × Nat)) (key : String) : Nat :=
  (m.lookup key).getD 0

/-! ## The caller's identity and the role-restricted query -/

/-- The client identity of the transaction context, `ctx.GetClientIdentity()`:
what `GetMSPID()` and `GetID()` return, and what `GetAttributeValue(name)`
returns (the value when the attribute is found, `none` when it is not). -/
structure ClientIdentity where
  GetMSPID : Except String String
  GetID : Except String String
  GetAttributeValue : String → Except String (Option String)

/-- Go `GetUserRole`. -/
def GetUserRole (identity : ClientIdentity) : Except String String :=
  match identity.GetMSPID with
  | .error e => .error ("failed to get MSP ID: " ++ e)
  | .ok mspID =>
    match identity.GetAttributeValue "role" with
    | .error e => .error ("failed to get role attribute: " ++ e)
    | .ok none => .error "role attribute not found in certificate"
    | .ok (some role) =>
      if mspID = "Org1MSP" then
        if role ≠ "doctor" then
          .error ("invalid role '" ++ role ++ "' for organization " ++ mspID)
        else .ok role
      else if mspID = "Org2MSP" then
        if role ≠ "pharmacist" then
          .error ("invalid role '" ++ role ++ "' for organization " ++ mspID)
        else .ok role
      else .error ("unknown MSP ID: " ++ mspID)

/-- The filter loop of `GetPrescriptionsByPatient` (lines 435-440). -/
def callerLoop (callerId : String) :
    List Prescription → List Prescription → List Prescription
  | [], filteredPrescriptions => filteredPrescriptions
  | prescription :: rest, filteredPrescriptions =>
    if prescription.CreatedBy = callerId then
      callerLoop callerId rest (filteredPrescriptions ++ [prescription])
    else callerLoop callerId rest filteredPrescriptions

/-- Go `GetPrescriptionsByPatient`: its result and the world state, which it
never writes. -/
def GetPrescriptionsByPatient {Bytes : Type} (J : Codec Bytes) (ctx : Ctx)
    (identity : ClientIdentity) (w : World Bytes) (patientId : String) :
    Except String Asset × World Bytes :=
  match identity.GetID with
  | .error e => (.error ("failed to get caller identity: " ++ e), w)
  | .ok callerId =>
    match GetUserRole identity with
    | .error e => (.error e, w)
    | .ok role =>
      if role ≠ "doctor" then (.error "only doctors can access patient prescriptions", w)
      else
        match ReadAsset J ctx w patientId with
        | .error e => (.error e, w)
        | .ok asset =>
          (.ok { asset with Prescriptions := callerLoop callerId asset.Prescriptions [] }, w)

/-! ## Batch creation -/

/-- The loop of `BatchCreatePrescriptions` (lines 577-585): each record is
encoded and handed to `CreateAsset`, on the world state the previous calls
left; the first error ends the loop. -/
def batchLoop {Bytes : Type} (J : Codec Bytes) (ctx : Ctx) :
    List Asset → World Bytes → Except String Unit × World Bytes
  | [], w => (.ok (), w)
  | asset :: rest, w =>
    match CreateAsset J ctx w (J.marshalAsset asset) with
    | (.error e, w') => (.error e, w')
    | (.ok (), w') => batchLoop J ctx rest w'

/-- Go `BatchCreatePrescriptions`. -/
def BatchCreatePrescriptions {Bytes : Type} (J : Codec Bytes) (ctx : Ctx) (w : World Bytes)
    (assetsJSON : Bytes) : Except String Unit × World Bytes :=
  match J.unmarshalAssets assetsJSON with
  | .error e => (.error ("failed to parse assets JSON: " ++ e), w)
  | .ok assets => batchLoop J ctx assets w

/-- The world state after `CreateAsset` was applied to each record of a list
in turn. -/
def applyAll {Bytes : Type} (J : Codec Bytes) (ctx : Ctx) : List Asset → World Bytes → World Bytes
  | [], w => w
  | asset :: rest, w => applyAll J ctx rest (CreateAsset J ctx w (J.marshalAsset asset)).2

/-! ## What the per-doctor and per-pharmacist views should hold -/

/-- The entries for a doctor over the records a full scan reads, in scan
order: one for each prescription the doctor created that has an id. -/
def doctorEntries {Bytes : Type} (J : Codec Bytes) (ctx : Ctx) (w : World Bytes)
    (doctorId : String) : List DoctorPrescription :=
  (scannedAssets J ctx w).flatMap (fun asset =>
    (asset.Prescriptions.filter (fun p =>
      decide (p.CreatedBy = doctorId ∧ p.PrescriptionId ≠ ""))).map
      (doctorPrescriptionData ctx asset))

/-- The entries for a pharmacist over the records a full scan reads, in scan
order: one for each prescription whose `DispensingPharmacist` is the pharmacist. -/
def dispenseEntries {Bytes : Type} (J : Codec Bytes) (ctx : Ctx) (w : World Bytes)
    (pharmacistId : String) : List DispensedPrescription :=
  (scannedAssets J ctx w).flatMap (fun asset =>
    (asset.Prescriptions.filter (fun p =>
      decide (p.DispensingPharmacist = pharmacistId))).map
      (dispensedPrescriptionData asset))

/-! ## The records and entries the transactions write -/

/-- The record `CreateAsset` stores when it merges into `existingAsset`. -/
def mergedAsset (ctx : Ctx) (existingAsset newAsset : Asset) : Asset :=
  { existingAsset with
    Prescriptions := existingAsset.Prescriptions
      ++ newAsset.Prescriptions.map (stampPrescription ctx newAsset.DoctorId),
    LastUpdated := ctx.now.FormatRFC3339 }

/-- The record `CreateAsset` stores when it creates the record. -/
def createdAsset (ctx : Ctx) (newAsset : Asset) : Asset :=
  { newAsset with
    Prescriptions := newAsset.Prescriptions.map (stampPrescription ctx newAsset.DoctorId),
    LastUpdated := ctx.now.FormatRFC3339 }

/-- The entry `UpdatePrescription` writes in place of the stored entry `p`. -/
def updatedPrescription (ctx : Ctx) (newPrescription p : Prescription) : Prescription :=
  { newPrescription with
    CreatedBy := p.CreatedBy, TxID := ctx.txID, Timestamp := ctx.now.FormatRFC3339 }

/-- The entry `DispensePrescription` writes in place of the stored entry `p`. -/
def dispensedPrescription (ctx : Ctx) (pharmacistId : String) (p : Prescription) :
    Prescription :=
  { p with
    Status := "Dispensed", TxID := ctx.txID, Timestamp := ctx.now.FormatRFC3339,
    DispensingPharmacist := pharmacistId, DispensingTimestamp := ctx.now.FormatRFC3339 }

/-- The entry `RevokePrescriptionJSON` writes in place of the stored entry `p`. -/
def revokedPrescription (ctx : Ctx) (p : Prescription) : Prescription :=
  { p with Status := "Revoked", TxID := ctx.txID, Timestamp := ctx.now.FormatRFC3339 }

/-- The entry `CheckPrescriptionExpiry` writes in place of the stored entry `p`. -/
def expiredPrescription (ctx : Ctx) (p : Prescription) : Prescription :=
  { p with Status := "Expired", TxID := ctx.txID, Timestamp := ctx.now.FormatRFC3339 }

/-! ## Lifecycle predicates -/

/-- The terminal statuses of the lifecycle. -/
def isTerminal (status : String) : Prop :=
  status = "Dispensed" ∨ status = "Revoked" ∨ status = "Expired"

/-- Every prescription of `a` whose status is terminal has the same status, at
the same index, in `a'`. -/
def KeepsTerminal (a a' : Asset) : Prop :=
  ∀ (i : Nat) (p : Prescription), a.Prescriptions[i]? = some p → isTerminal p.Status →
    ∃ p' : Prescription, a'.Prescriptions[i]? = some p' ∧ p'.Status = p.Status

/-! ## A concrete codec and concrete inputs, for evaluating the model -/

/-- JSON texts, tagged by the struct they decode to; `malformed` is text that
decodes to nothing. -/
inductive Wire where
  | asset (a : Asset)
  | prescription (p : Prescription)
  | dispensation (d : Dispensation)
  | revocation (r : Revocation)
  | assets (batch : List Asset)
  | malformed (text : String)
deriving DecidableEq, Repr

/-- The codec of `Wire`. -/
def wireCodec : Codec Wire where
  marshalAsset := Wire.asset
  unmarshalAsset
    | .asset a => .ok a
    | _ => .error "json: cannot unmarshal into Go value of type chaincode.Asset"
  unmarshalPrescription
    | .prescription p => .ok p
    | _ => .error "json: cannot unmarshal into Go value of type chaincode.Prescription"
  unmarshalDispensation
    | .dispensation d => .ok d
    | _ => .error "json: cannot unmarshal into Go value of type struct"
  unmarshalRevocation
    | .revocation r => .ok r
    | _ => .error "json: cannot unmarshal into Go value of type struct"
  unmarshalAssets
    | .assets batch => .ok batch
    | _ => .error "json: cannot unmarshal into Go value of type []chaincode.Asset"
  unmarshal_marshal := fun _ => rfl

/-- A context whose stub never fails: transaction `tx1` at 2024-03-10T12:00:00Z,
on a peer whose local zone is UTC. -/
def ctx1 : Ctx :=
  ⟨"tx1", ⟨1710072000000000000, UTC⟩, fun _ => none, fun _ => none, none, fun _ => none⟩

/-- A prescription as a caller sends it: only the descriptive fields set. -/
def rx (prescriptionId medicationName diagnosis : String) : Prescription :=
  ⟨prescriptionId, medicationName, "1 tablet", "after meals", diagnosis, "", "", "", "", "", "", ""⟩

/-- A stored prescription `RX1` of doctor `D1`, in a given status and with a
given expiry date. -/
def rxStored (status expiryDate : String) : Prescription :=
  ⟨"RX1", "Ibuprofen", "1 tablet", "after meals", "flu", status, "D1", "tx0",
    "2024-03-01T09:00:00Z", expiryDate, "", ""⟩

/-- A record of patient `P1` holding the given prescriptions. -/
def recordP1 (prescriptions : List Prescription) : Asset :=
  ⟨"D1", "Pat One", "P1", "1990-01-01", prescriptions, "2024-03-01T09:00:00Z"⟩

/-- A world state holding one record, under `P1`. -/
def worldP1 (prescriptions : List Prescription) : World Wire :=
  [("P1", Wire.asset (recordP1 prescriptions))]

/-- A prescription of doctor `D1` in a given status. -/
def rxIn (prescriptionId medicationName diagnosis status : String) : Prescription :=
  ⟨prescriptionId, medicationName, "1 tablet", "after meals", diagnosis, status, "D1", "tx0",
    "2024-03-01T09:00:00Z", "2024-04-01", "", ""⟩

/-- A world state with record `A` (two active prescriptions and a dispensed
one) and record `B` (one expired prescription). -/
def worldAB : World Wire :=
  [("A", Wire.asset ⟨"D1", "Pat A", "A", "",
      [rxIn "RX1" "Aspirin" "pain" "Active", rxIn "RX2" "Warfarin" "clot" "Active",
        rxIn "RX3" "Aspirin" "fever" "Dispensed"], "2024-03-01T09:00:00Z"⟩),
   ("B", Wire.asset ⟨"D1", "Pat B", "B", "",
      [rxIn "RX4" "Ibuprofen" "pain" "Expired"], "2024-03-01T09:00:00Z"⟩)]

/-- The world state `worldAB` with a key `AB` between the two records whose
bytes do not decode. -/
def worldABmalformed : World Wire :=
  [("A", Wire.asset ⟨"D1", "Pat A", "A", "",
      [rxIn "RX1" "Aspirin" "pain" "Active", rxIn "RX2" "Warfarin" "clot" "Active",
        rxIn "RX3" "Aspirin" "fever" "Dispensed"], "2024-03-01T09:00:00Z"⟩),
   ("AB", Wire.malformed "not json"),
   ("B", Wire.asset ⟨"D1", "Pat B", "B", "",
      [rxIn "RX4" "Ibuprofen" "pain" "Expired"], "2024-03-01T09:00:00Z"⟩)]

/-- A doctor of `Org1MSP` with identity string `D1`. -/
def doctorD1 : ClientIdentity :=
  ⟨.ok "Org1MSP", .ok "D1", fun name => if name = "role" then .ok (some "doctor") else .ok none⟩

/-- A pharmacist of `Org2MSP` with identity string `Ph1`. -/
def pharmacistPh1 : ClientIdentity :=
  ⟨.ok "Org2MSP", .ok "Ph1",
    fun name => if name = "role" then .ok (some "pharmacist") else .ok none⟩

/-- A world state whose record `P1` holds two prescriptions of doctor `D1`, the
second of them without a prescription id. -/
def worldNoId : World Wire :=
  worldP1 [rxStored "Active" "2024-04-01",
    { rxStored "Active" "2024-05-01" with PrescriptionId := "" }]

/-- A record for a new patient, with one prescription. -/
def batchRecord (patientId diagnosis : String) : Asset :=
  ⟨"D1", "", patientId, "", [rx "RX1" "Aspirin" diagnosis], ""⟩

/-- The context `ctx1` with a stub whose `GetState` fails on the key `P1`. -/
def ctxGetFails : Ctx :=
  ⟨"tx1", ⟨1710072000000000000, UTC⟩,
    fun key => if key = "P1" then some "connection reset" else none,
    fun _ => none, none, fun _ => none⟩

/-- The location `America/Havana` between November 2022 and November 2023:
UTC-5, and UTC-4 from 2023-03-12T05:00:00Z, when clocks go from midnight to one
o'clock, to 2023-11-05T05:00:00Z. -/
def havana : Location :=
  ⟨fun sec =>
    if sec < 1678597200 then (-18000, 1667710800, 1678597200)
    else if sec < 1699160400 then (-14400, 1678597200, 1699160400)
    else (-18000, 1699160400, 9223372036854775807)⟩

/-- A context of a peer in `America/Havana`: transaction `tx1` at
2023-02-12T00:30:00-05:00. -/
def ctxHavana : Ctx :=
  ⟨"tx1", ⟨1676179800000000000, havana⟩, fun _ => none, fun _ => none, none, fun _ => none⟩

/-- A creation payload for the new patient `P2` whose one prescription carries
the given expiry date. -/
def payloadP2 (expiryDate : String) : Asset :=
  ⟨"D2", "Pat Two", "P2", "",
    [⟨"RX9", "Aspirin", "1 tablet", "after meals", "pain", "", "", "", "", expiryDate, "", ""⟩], ""⟩

/-! ## The JSON encoding of a record

`encoding/json` on parsed documents, for the structs `Asset` and `Prescription`
and their `json` tags (lines 16-39). The text of a document, its escaping and
its parsing are left to the library. Go strings that are not valid UTF-8 have
no counterpart here, and a nil slice and an empty one are both the empty list.
A slice that is decoded a second time, under a repeated key, takes its entries
past the current length to be zero values. -/

/-- A JSON document as `encoding/json` sees it once the text is parsed: the
members of an object in the order of the text, repeated keys included. -/
inductive Json where
  | null
  | bool (b : Bool)
  | num (n : Int)
  | str (s : String)
  | arr (items : List Json)
  | obj (members : List (String × Json))

/-- The name `encoding/json` gives a JSON value in an `UnmarshalTypeError`. -/
def Json.kind : Json → String
  | .null => "null"
  | .bool _ => "bool"
  | .num _ => "number"
  | .str _ => "string"
  | .arr _ => "array"
  | .obj _ => "object"

/-- The keys of a JSON object, in order. -/
def Json.keys : Json → List String
  | .obj members => members.map Prod.fst
  | _ => []

/-- The value under a key of a JSON object (the first one). -/
def Json.member (key : String) : Json → Option Json
  | .obj members => (members.find? (fun kv => kv.1 = key)).map Prod.snd
  | _ => none

/-- Case folding of one character as `encoding/json` matches keys: ASCII
letters without case, and the long s and the Kelvin sign as `s` and `k`. -/
def foldRune (c : Char) : Char :=
  if 65 ≤ c.toNat ∧ c.toNat ≤ 90 then Char.ofNat (c.toNat + 32)
  else if c.toNat = 0x17F then 's'
  else if c.toNat = 0x212A then 'k'
  else c

/-- Go `foldName` of `encoding/json`. -/
def foldName (s : String) : String := ⟨s.data.map foldRune⟩

/-- The struct field a JSON key decodes into: the field with exactly that
name, else the first field whose name matches without case. -/
def findField (names : List String) (key : String) : Option String :=
  match names.find? (fun name => name = key) with
  | some name => some name
  | none => names.find? (fun name => foldName name = foldName key)

/-- The JSON names of the fields of `Prescription` (the `json` struct tags,
lines 27-38). -/
def prescriptionFieldNames : List String :=
  ["PrescriptionId", "MedicationName", "Dosage", "Instructions", "Diagnosis", "Status",
   "CreatedBy", "TxID", "Timestamp", "ExpiryDate", "dispensingPharmacist",
   "dispensingTimestamp"]

/-- The JSON names of the fields of `Asset` (the `json` struct tags, lines 17-22). -/
def assetFieldNames : List String :=
  ["DoctorId", "PatientName", "PatientId", "DateOfBirth", "Prescriptions", "LastUpdated"]

/-- A member of a JSON object for a `string` field; with `omitempty` the member
is left out when the string is empty. -/
def stringMember (name : String) (omitempty : Bool) (value : String) : List (String × Json) :=
  if omitempty ∧ value = "" then [] else [(name, .str value)]

/-- Go `json.Marshal` of a `Prescription`: the fields in the order of the struct,
under the names of their tags. -/
def marshalPrescriptionJson (p : Prescription) : Json :=
  .obj (stringMember "PrescriptionId" false p.PrescriptionId
    ++ stringMember "MedicationName" false p.MedicationName
    ++ stringMember "Dosage" false p.Dosage
    ++ stringMember "Instructions" false p.Instructions
    ++ stringMember "Diagnosis" false p.Diagnosis
    ++ stringMember "Status" false p.Status
    ++ stringMember "CreatedBy" false p.CreatedBy
    ++ stringMember "TxID" false p.TxID
    ++ stringMember "Timestamp" false p.Timestamp
    ++ stringMember "ExpiryDate" true p.ExpiryDate
    ++ stringMember "dispensingPharmacist" true p.DispensingPharmacist
    ++ stringMember "dispensingTimestamp" true p.DispensingTimestamp)

/-- Go `json.Marshal(asset)` (as in lines 81, 108, 173). -/
def marshalAssetJson (a : Asset) : Json :=
  .obj (stringMember "DoctorId" false a.DoctorId
    ++ stringMember "PatientName" false a.PatientName
    ++ stringMember "PatientId" false a.PatientId
    ++ stringMember "DateOfBirth" true a.DateOfBirth
    ++ [("Prescriptions", .arr (a.Prescriptions.map marshalPrescriptionJson))]
    ++ stringMember "LastUpdated" false a.LastUpdated)

/-- Assignment to the field of a `Prescription` with a given JSON name. -/
def setPrescriptionField (p : Prescription) (name value : String) : Prescription :=
  if name = "PrescriptionId" then { p with PrescriptionId := value }
  else if name = "MedicationName" then { p with MedicationName := value }
  else if name = "Dosage" then { p with Dosage := value }
  else if name = "Instructions" then { p with Instructions := value }
  else if name = "Diagnosis" then { p with Diagnosis := value }
  else if name = "Status" then { p with Status := value }
  else if name = "CreatedBy" then { p with CreatedBy := value }
  else if name = "TxID" then { p with TxID := value }
  else if name = "Timestamp" then { p with Timestamp := value }
  else if name = "ExpiryDate" then { p with ExpiryDate := value }
  else if name = "dispensingPharmacist" then { p with DispensingPharmacist := value }
  else if name = "dispensingTimestamp" then { p with DispensingTimestamp := value }
  else p

/-- Assignment to the `string` field of an `Asset` with a given JSON name. -/
def setAssetField (a : Asset) (name value : String) : Asset :=
  if name = "DoctorId" then { a with DoctorId := value }
  else if name = "PatientName" then { a with PatientName := value }
  else if name = "PatientId" then { a with PatientId := value }
  else if name = "DateOfBirth" then { a with DateOfBirth := value }
  else if name = "LastUpdated" then { a with LastUpdated := value }
  else a

/-- The zero value of `Prescription`. -/
def zeroPrescription : Prescription := ⟨"", "", "", "", "", "", "", "", "", "", "", ""⟩

/-- The zero value of `Asset` (`var asset Asset`). -/
def zeroAsset : Asset := ⟨"", "", "", "", [], ""⟩

/-- Decoding the members of a JSON object into a `Prescription`, in order: a
key that names no field is skipped, a string is assigned, `null` leaves the
field as it is, and any other value is an `UnmarshalTypeError`. The decoder
reads on after such an error and returns the first one. -/
def unmarshalPrescriptionMembers (path : String) (p : Prescription) :
    List (String × Json) → Except String Prescription
  | [] => .ok p
  | (key, value) :: rest =>
    match findField prescriptionFieldNames key with
    | none => unmarshalPrescriptionMembers path p rest
    | some name =>
      match value with
      | .str s => unmarshalPrescriptionMembers path (setPrescriptionField p name s) rest
      | .null => unmarshalPrescriptionMembers path p rest
      | other => .error ("json: cannot unmarshal " ++ other.kind ++ " into Go struct field "
          ++ path ++ "." ++ name ++ " of type string")

/-- Decoding one JSON value into a `Prescription` that holds `p`. -/
def unmarshalPrescriptionInto (path : String) (p : Prescription) : Json →
    Except String Prescription
  | .obj members => unmarshalPrescriptionMembers path p members
  | .null => .ok p
  | other => .error ("json: cannot unmarshal " ++ other.kind ++ " into Go struct field "
      ++ path ++ " of type chaincode.Prescription")

/-- Decoding a JSON array into a `[]Prescription` that holds `current`: the
entry at each index is decoded into the entry the slice has there, or into a
zero value past its length, and the slice ends with the array. -/
def unmarshalPrescriptionArray (path : String) :
    List Prescription → List Json → Except String (List Prescription)
  | _, [] => .ok []
  | current, item :: rest =>
    match unmarshalPrescriptionInto path (current.head?.getD zeroPrescription) item with
    | .error e => .error e
    | .ok p =>
      match unmarshalPrescriptionArray path current.tail rest with
      | .error e => .error e
      | .ok ps => .ok (p :: ps)

/-- Decoding the members of a JSON object into an `Asset`, in order. -/
def unmarshalAssetMembers (a : Asset) : List (String × Json) → Except String Asset
  | [] => .ok a
  | (key, value) :: rest =>
    match findField assetFieldNames key with
    | none => unmarshalAssetMembers a rest
    | some name =>
      if name = "Prescriptions" then
        match value with
        | .arr items =>
          match unmarshalPrescriptionArray "Asset.Prescriptions" a.Prescriptions items with
          | .error e => .error e
          | .ok prescriptions => unmarshalAssetMembers { a with Prescriptions := prescriptions } rest
        | .null => unmarshalAssetMembers { a with Prescriptions := [] } rest
        | other => .error ("json: cannot unmarshal " ++ other.kind
            ++ " into Go struct field Asset.Prescriptions of type []chaincode.Prescription")
      else
        match value with
        | .str s => unmarshalAssetMembers (setAssetField a name s) rest
        | .null => unmarshalAssetMembers a rest
        | other => .error ("json: cannot unmarshal " ++ other.kind ++ " into Go struct field Asset."
            ++ name ++ " of type string")

/-- Go `json.Unmarshal(assetJSON, &asset)` with `var asset Asset` (as in
`ReadAsset`, lines 128-129), on a document that parses. -/
def unmarshalAssetJson : Json → Except String Asset
  | .obj members => unmarshalAssetMembers zeroAsset members
  | .null => .ok zeroAsset
  | other => .error ("json: cannot unmarshal " ++ other.kind
      ++ " into Go value of type chaincode.Asset")

/-! ## The copy of the contract under `fabricNetwork/`

`fabricNetwork/asset-transfer-basic/chaincode-go/chaincode/smartcontract.go`:
its structs and its `CreateAsset`, over the same ledger stub and clock. -/

/-- Go struct `Prescription` of the copy under `fabricNetwork/`: the struct of
the first copy without `Diagnosis`. -/
structure FabricNetwork.Prescription where
  PrescriptionId : String
  MedicationName : String
  Dosage : String
  Instructions : String
  Status : String
  CreatedBy : String
  TxID : String
  Timestamp : String
  ExpiryDate : String
  DispensingPharmacist : String
  DispensingTimestamp : String
deriving DecidableEq, Repr

/-- Go struct `Asset` of the copy under `fabricNetwork/`. -/
structure FabricNetwork.Asset where
  DoctorId : String
  PatientName : String
  PatientId : String
  DateOfBirth : String
  Prescriptions : List FabricNetwork.Prescription
  LastUpdated : String
deriving DecidableEq, Repr

/-- The uses `CreateAsset` and `ReadAsset` of the copy make of `encoding/json`. -/
structure FabricNetwork.Codec (Bytes : Type) where
  marshalAsset : FabricNetwork.Asset → Bytes
  unmarshalAsset : Bytes → Except String FabricNetwork.Asset
  unmarshal_marshal : ∀ a : FabricNetwork.Asset, unmarshalAsset (marshalAsset a) = .ok a

/-- The record a world state holds under a key, decoded as the copy decodes it. -/
def FabricNetwork.storedAsset {Bytes : Type} (J : FabricNetwork.Codec Bytes) (w : World Bytes)
    (key : String) : Option FabricNetwork.Asset :=
  match getValue w key with
  | none => none
  | some b =>
    match J.unmarshalAsset b with
    | .ok a => some a
    | .error _ => none

/-- The body of the metadata loop of the copy's `CreateAsset` (lines 57-64):
`lastUpdated` is `asset.LastUpdated`, set just before the loop. -/
def FabricNetwork.stampPrescription (ctx : Ctx) (doctorId lastUpdated : String)
    (prescription : FabricNetwork.Prescription) : FabricNetwork.Prescription :=
  let p := { prescription with
    TxID := ctx.txID, Timestamp := lastUpdated, Status := "Active", CreatedBy := doctorId }
  if p.ExpiryDate = "" then { p with ExpiryDate := (ctx.now.AddDate 0 1 0).FormatDate } else p

/-- The metadata loop of the copy's `CreateAsset` (lines 56-65), which writes
into the prescriptions of the payload in place. -/
def FabricNetwork.metadataLoop (ctx : Ctx) (doctorId lastUpdated : String) :
    List FabricNetwork.Prescription → List FabricNetwork.Prescription
  | [] => []
  | prescription :: rest =>
    FabricNetwork.stampPrescription ctx doctorId lastUpdated prescription
      :: FabricNetwork.metadataLoop ctx doctorId lastUpdated rest

/-- Go `CreateAsset` of the copy under `fabricNetwork/` (lines 41-73). -/
def FabricNetwork.CreateAsset {Bytes : Type} (J : FabricNetwork.Codec Bytes) (ctx : Ctx)
    (w : World Bytes) (assetJSON : Bytes) : Except String Unit × World Bytes :=
  match J.unmarshalAsset assetJSON with
  | .error e => (.error ("failed to parse asset JSON: " ++ e), w)
  | .ok asset =>
    if asset.PatientId = "" ∨ asset.DoctorId = "" then
      (.error "patientId and doctorId are required", w)
    else
      PutState ctx w asset.PatientId
        (J.marshalAsset { asset with
          LastUpdated := ctx.now.FormatRFC3339,
          Prescriptions := FabricNetwork.metadataLoop ctx asset.DoctorId
            ctx.now.FormatRFC3339 asset.Prescriptions })

/-- JSON texts of the copy: a record, or `none` for text that does not decode. -/
def FabricNetwork.wireCodec : FabricNetwork.Codec (Option FabricNetwork.Asset) where
  marshalAsset := some
  unmarshalAsset
    | some a => .ok a
    | none => .error "json: cannot unmarshal into Go value of type chaincode.Asset"
  unmarshal_marshal := fun _ => rfl

/-- A prescription of the copy as stored, in a given status. -/
def FabricNetwork.rxStored (prescriptionId status : String) : FabricNetwork.Prescription :=
  ⟨prescriptionId, "Ibuprofen", "1 tablet", "after meals", status, "D1", "tx0",
    "2024-03-01T09:00:00Z", "2024-04-01", "", ""⟩

/-! ## The key-value store -/

variable {Bytes : Type}

theorem getValue_putValue_same (w : World Bytes) (k : String) (v : Bytes) :
    getValue (putValue w k v) k = some v := by
  induction w with
  | nil => simp [putValue, getValue]
  | cons e rest ih =>
    obtain ⟨k', v'⟩ := e
    unfold putValue
    by_cases h1 : k' = k
    · simp [h1, getValue]
    · by_cases h2 : k < k'
      · simp [h1, h2, getValue]
      · simp [h1, h2, getValue, ih]

theorem getValue_putValue_other (w : World Bytes) (k key : String) (v : Bytes)
    (hne : key ≠ k) : getValue (putValue w k v) key = getValue w key := by
  induction w with
  | nil => simp [putValue, getValue, Ne.symm hne]
  | cons e rest ih =>
    obtain ⟨k', v'⟩ := e
    unfold putValue
    by_cases h1 : k' = k
    · subst h1
      simp [getValue, Ne.symm hne]
    · by_cases h2 : k < k'
      · simp [h1, h2, getValue, Ne.symm hne]
      · simp only [h1, h2, if_false, getValue, ih]

theorem storedAsset_putValue_same (J : Codec Bytes) (w : World Bytes) (k : String) (a : Asset) :
    storedAsset J (putValue w k (J.marshalAsset a)) k = some a := by
  simp [storedAsset, getValue_putValue_same, J.unmarshal_marshal]

theorem storedAsset_putValue_other (J : Codec Bytes) (w : World Bytes) (k key : String)
    (v : Bytes) (hne : key ≠ k) : storedAsset J (putValue w k v) key = storedAsset J w key := by
  simp [storedAsset, getValue_putValue_other w k key v hne]

theorem ReadAsset_putValue_same (J : Codec Bytes) (ctx : Ctx) (w : World Bytes) (k : String)
    (a : Asset) (hget : ctx.getErr k = none) :
    ReadAsset J ctx (putValue w k (J.marshalAsset a)) k = .ok a := by
  simp [ReadAsset, GetState, hget, getValue_putValue_same, J.unmarshal_marshal]

theorem ReadAsset_putValue_other (J : Codec Bytes) (ctx : Ctx) (w : World Bytes)
    (k key : String) (v : Bytes) (hne : key ≠ k) :
    ReadAsset J ctx (putValue w k v) key = ReadAsset J ctx w key := by
  simp [ReadAsset, GetState, getValue_putValue_other w k key v hne]

/-- A record that `ReadAsset` returns is the record stored under the key, and
the stub did not fail on that key. -/
theorem ReadAsset_ok_iff (J : Codec Bytes) (ctx : Ctx) (w : World Bytes) (k : String)
    (a : Asset) :
    ReadAsset J ctx w k = .ok a ↔ ctx.getErr k = none ∧ storedAsset J w k = some a := by
  unfold ReadAsset GetState storedAsset
  cases hg : ctx.getErr k with
  | some e => simp
  | none =>
    cases hv : getValue w k with
    | none => simp
    | some b =>
      cases hu : J.unmarshalAsset b with
      | error e => simp [hu]
      | ok a' => simp [hu]

/-! ## The loops -/

theorem mergeLoop_ok (ctx : Ctx) (doctorId : String) (incoming existing : List Prescription)
    (hd : ∀ p ∈ incoming, p.Diagnosis ≠ "") :
    mergeLoop ctx doctorId incoming existing
      = .ok (existing ++ incoming.map (stampPrescription ctx doctorId)) := by
  induction incoming generalizing existing with
  | nil => simp [mergeLoop]
  | cons p rest ih =>
    have hp : p.Diagnosis ≠ "" := hd p (List.mem_cons_self _ _)
    have hrest : ∀ q ∈ rest, q.Diagnosis ≠ "" := fun q hq => hd q (List.mem_cons_of_mem _ hq)
    simp [mergeLoop, hp, ih _ hrest]

theorem mergeLoop_error (ctx : Ctx) (doctorId : String) (incoming existing : List Prescription)
    (hd : ∃ p ∈ incoming, p.Diagnosis = "") :
    mergeLoop ctx doctorId incoming existing
      = .error "diagnosis is required for all prescriptions" := by
  induction incoming generalizing existing with
  | nil => simp at hd
  | cons p rest ih =>
    by_cases hp : p.Diagnosis = ""
    · simp [mergeLoop, hp]
    · have hrest : ∃ q ∈ rest, q.Diagnosis = "" := by
        obtain ⟨q, hq, hq'⟩ := hd
        rcases List.mem_cons.mp hq with h | h
        · exact absurd (h ▸ hq') hp
        · exact ⟨q, h, hq'⟩
      simp [mergeLoop, hp, ih _ hrest]

theorem createLoop_ok (ctx : Ctx) (doctorId : String) (incoming : List Prescription)
    (hd : ∀ p ∈ incoming, p.Diagnosis ≠ "") :
    createLoop ctx doctorId incoming = .ok (incoming.map (stampPrescription ctx doctorId)) := by
  induction incoming with
  | nil => simp [createLoop]
  | cons p rest ih =>
    have hp : p.Diagnosis ≠ "" := hd p (List.mem_cons_self _ _)
    have hrest : ∀ q ∈ rest, q.Diagnosis ≠ "" := fun q hq => hd q (List.mem_cons_of_mem _ hq)
    simp [createLoop, hp, ih hrest]

theorem createLoop_error (ctx : Ctx) (doctorId : String) (incoming : List Prescription)
    (hd : ∃ p ∈ incoming, p.Diagnosis = "") :
    createLoop ctx doctorId incoming = .error "diagnosis is required for all prescriptions" := by
  induction incoming with
  | nil => simp at hd
  | cons p rest ih =>
    by_cases hp : p.Diagnosis = ""
    · simp [createLoop, hp]
    · have hrest : ∃ q ∈ rest, q.Diagnosis = "" := by
        obtain ⟨q, hq, hq'⟩ := hd
        rcases List.mem_cons.mp hq with h | h
        · exact absurd (h ▸ hq') hp
        · exact ⟨q, h, hq'⟩
      simp [createLoop, hp, ih hrest]

/-- Either every incoming diagnosis is non-empty or one is empty. -/
theorem diagnosis_cases (incoming : List Prescription) :
    (∀ p ∈ incoming, p.Diagnosis ≠ "") ∨ (∃ p ∈ incoming, p.Diagnosis = "") := by
  by_cases h : ∃ p ∈ incoming, p.Diagnosis = ""
  · exact Or.inr h
  · left
    intro p hp hd
    exact h ⟨p, hp, hd⟩

/-- A list either has no prescription with the id, or splits at the first one. -/
theorem firstMatch_cases (prescriptionId : String) (ps : List Prescription) :
    (∀ q ∈ ps, q.PrescriptionId ≠ prescriptionId) ∨
    ∃ pre p post, ps = pre ++ p :: post ∧ (∀ q ∈ pre, q.PrescriptionId ≠ prescriptionId)
      ∧ p.PrescriptionId = prescriptionId := by
  induction ps with
  | nil => left; simp
  | cons x rest ih =>
    by_cases hx : x.PrescriptionId = prescriptionId
    · right
      exact ⟨[], x, rest, rfl, by simp, hx⟩
    · rcases ih with h | ⟨pre, p, post, h1, h2, h3⟩
      · left
        intro q hq
        rcases List.mem_cons.mp hq with h' | h'
        · exact h' ▸ hx
        · exact h q h'
      · right
        refine ⟨x :: pre, p, post, by simp [h1], ?_, h3⟩
        intro q hq
        rcases List.mem_cons.mp hq with h' | h'
        · exact h' ▸ hx
        · exact h2 q h'

/-- The result of `updateLoop` when the first prescription with the id is `p`. -/
theorem updateLoop_at (ctx : Ctx) (newPrescription : Prescription)
    (pre : List Prescription) (p : Prescription) (post : List Prescription)
    (hpre : ∀ q ∈ pre, q.PrescriptionId ≠ newPrescription.PrescriptionId)
    (hp : p.PrescriptionId = newPrescription.PrescriptionId) :
    updateLoop ctx newPrescription (pre ++ p :: post)
      = some (pre ++ { newPrescription with
          CreatedBy := p.CreatedBy, TxID := ctx.txID,
          Timestamp := ctx.now.FormatRFC3339 } :: post) := by
  induction pre with
  | nil => simp [updateLoop, hp]
  | cons x rest ih =>
    have hx : x.PrescriptionId ≠ newPrescription.PrescriptionId :=
      hpre x (List.mem_cons_self _ _)
    have hrest := ih (fun q hq => hpre q (List.mem_cons_of_mem _ hq))
    simp [updateLoop, hx, hrest]

theorem updateLoop_none (ctx : Ctx) (newPrescription : Prescription) (ps : List Prescription)
    (hps : ∀ q ∈ ps, q.PrescriptionId ≠ newPrescription.PrescriptionId) :
    updateLoop ctx newPrescription ps = none := by
  induction ps with
  | nil => simp [updateLoop]
  | cons x rest ih =>
    have hx : x.PrescriptionId ≠ newPrescription.PrescriptionId :=
      hps x (List.mem_cons_self _ _)
    have hrest := ih (fun q hq => hps q (List.mem_cons_of_mem _ hq))
    simp [updateLoop, hx, hrest]

/-- The result of `dispenseLoop` when the first prescription with the id is `p`. -/
theorem dispenseLoop_at (ctx : Ctx) (prescriptionId pharmacistId : String)
    (pre : List Prescription) (p : Prescription) (post : List Prescription)
    (hpre : ∀ q ∈ pre, q.PrescriptionId ≠ prescriptionId)
    (hp : p.PrescriptionId = prescriptionId) :
    dispenseLoop ctx prescriptionId pharmacistId (pre ++ p :: post)
      = if p.Status = "Revoked" then .error "cannot dispense a revoked prescription"
        else if p.Status ≠ "Active" then .error "can only dispense active prescriptions"
        else .ok (some (pre ++ { p with
          Status := "Dispensed", TxID := ctx.txID, Timestamp := ctx.now.FormatRFC3339,
          DispensingPharmacist := pharmacistId,
          DispensingTimestamp := ctx.now.FormatRFC3339 } :: post)) := by
  induction pre with
  | nil => simp [dispenseLoop, hp]
  | cons x rest ih =>
    have hx : x.PrescriptionId ≠ prescriptionId := hpre x (List.mem_cons_self _ _)
    have hrest := ih (fun q hq => hpre q (List.mem_cons_of_mem _ hq))
    show dispenseLoop ctx prescriptionId pharmacistId (x :: (rest ++ p :: post)) = _
    rw [dispenseLoop, if_neg hx, hrest]
    split_ifs <;> rfl

theorem dispenseLoop_none (ctx : Ctx) (prescriptionId pharmacistId : String)
    (ps : List Prescription) (hps : ∀ q ∈ ps, q.PrescriptionId ≠ prescriptionId) :
    dispenseLoop ctx prescriptionId pharmacistId ps = .ok none := by
  induction ps with
  | nil => simp [dispenseLoop]
  | cons x rest ih =>
    have hx : x.PrescriptionId ≠ prescriptionId := hps x (List.mem_cons_self _ _)
    have hrest := ih (fun q hq => hps q (List.mem_cons_of_mem _ hq))
    simp [dispenseLoop, hx, hrest]

/-- The result of `revokeLoop` when the first prescription with the id is `p`. -/
theorem revokeLoop_at (ctx : Ctx) (prescriptionId doctorId : String)
    (pre : List Prescription) (p : Prescription) (post : List Prescription)
    (hpre : ∀ q ∈ pre, q.PrescriptionId ≠ prescriptionId)
    (hp : p.PrescriptionId = prescriptionId) :
    revokeLoop ctx prescriptionId doctorId (pre ++ p :: post)
      = if p.CreatedBy ≠ doctorId then
          .error "only the prescribing doctor can revoke this prescription"
        else if p.Status ≠ "Active" then .error "can only revoke active prescriptions"
        else .ok (some (pre ++ { p with
          Status := "Revoked", TxID := ctx.txID,
          Timestamp := ctx.now.FormatRFC3339 } :: post)) := by
  induction pre with
  | nil => simp [revokeLoop, hp]
  | cons x rest ih =>
    have hx : x.PrescriptionId ≠ prescriptionId := hpre x (List.mem_cons_self _ _)
    have hrest := ih (fun q hq => hpre q (List.mem_cons_of_mem _ hq))
    show revokeLoop ctx prescriptionId doctorId (x :: (rest ++ p :: post)) = _
    rw [revokeLoop, if_neg hx, hrest]
    split_ifs <;> rfl

theorem revokeLoop_none (ctx : Ctx) (prescriptionId doctorId : String)
    (ps : List Prescription) (hps : ∀ q ∈ ps, q.PrescriptionId ≠ prescriptionId) :
    revokeLoop ctx prescriptionId doctorId ps = .ok none := by
  induction ps with
  | nil => simp [revokeLoop]
  | cons x rest ih =>
    have hx : x.PrescriptionId ≠ prescriptionId := hps x (List.mem_cons_self _ _)
    have hrest := ih (fun q hq => hps q (List.mem_cons_of_mem _ hq))
    simp [revokeLoop, hx, hrest]

/-- The result of `expiryLoop` when the first prescription with the id is `p`. -/
theorem expiryLoop_at (ctx : Ctx) (prescriptionId : String)
    (pre : List Prescription) (p : Prescription) (post : List Prescription)
    (hpre : ∀ q ∈ pre, q.PrescriptionId ≠ prescriptionId)
    (hp : p.PrescriptionId = prescriptionId) :
    expiryLoop ctx prescriptionId (pre ++ p :: post)
      = match parseDate p.ExpiryDate with
        | none => .error "invalid expiry date format"
        | some expiryDate =>
          if ctx.now.After expiryDate then
            .ok (some (pre ++ { p with
              Status := "Expired", TxID := ctx.txID,
              Timestamp := ctx.now.FormatRFC3339 } :: post))
          else .ok none := by
  induction pre with
  | nil => simp [expiryLoop, hp]
  | cons x rest ih =>
    have hx : x.PrescriptionId ≠ prescriptionId := hpre x (List.mem_cons_self _ _)
    have hrest := ih (fun q hq => hpre q (List.mem_cons_of_mem _ hq))
    show expiryLoop ctx prescriptionId (x :: (rest ++ p :: post)) = _
    rw [expiryLoop, if_neg hx, hrest]
    cases parseDate p.ExpiryDate with
    | none => rfl
    | some e => by_cases h : ctx.now.After e = true <;> simp [h]

theorem expiryLoop_none (ctx : Ctx) (prescriptionId : String)
    (ps : List Prescription) (hps : ∀ q ∈ ps, q.PrescriptionId ≠ prescriptionId) :
    expiryLoop ctx prescriptionId ps = .error "prescription not found" := by
  induction ps with
  | nil => simp [expiryLoop]
  | cons x rest ih =>
    have hx : x.PrescriptionId ≠ prescriptionId := hps x (List.mem_cons_self _ _)
    have hrest := ih (fun q hq => hps q (List.mem_cons_of_mem _ hq))
    simp [expiryLoop, hx, hrest]

/-! ## Unfolding the transactions once their payload is decoded -/

theorem PutState_ok (ctx : Ctx) (w : World Bytes) (k : String) (v : Bytes)
    (hput : ctx.putErr k = none) : PutState ctx w k v = (.ok (), putValue w k v) := by
  simp [PutState, hput]

/-- `CreateAsset` on a payload that passes the field check, when the record exists. -/
theorem CreateAsset_merge_eq (J : Codec Bytes) (ctx : Ctx) (w : World Bytes)
    (assetJSON : Bytes) (newAsset existingAsset : Asset)
    (hparse : J.unmarshalAsset assetJSON = .ok newAsset)
    (hpid : newAsset.PatientId ≠ "") (hdoc : newAsset.DoctorId ≠ "")
    (hread : ReadAsset J ctx w newAsset.PatientId = .ok existingAsset) :
    CreateAsset J ctx w assetJSON =
      match mergeLoop ctx newAsset.DoctorId newAsset.Prescriptions
          existingAsset.Prescriptions with
      | .error e => (.error e, w)
      | .ok prescriptions =>
        PutState ctx w newAsset.PatientId
          (J.marshalAsset { existingAsset with
            Prescriptions := prescriptions, LastUpdated := ctx.now.FormatRFC3339 }) := by
  simp [CreateAsset, hparse, hpid, hdoc, hread]

/-- `CreateAsset` on a payload that passes the field check, when loading the
record fails. -/
theorem CreateAsset_new_eq (J : Codec Bytes) (ctx : Ctx) (w : World Bytes)
    (assetJSON : Bytes) (newAsset : Asset) (e : String)
    (hparse : J.unmarshalAsset assetJSON = .ok newAsset)
    (hpid : newAsset.PatientId ≠ "") (hdoc : newAsset.DoctorId ≠ "")
    (hread : ReadAsset J ctx w newAsset.PatientId = .error e) :
    CreateAsset J ctx w assetJSON =
      match createLoop ctx newAsset.DoctorId newAsset.Prescriptions with
      | .error e => (.error e, w)
      | .ok prescriptions =>
        PutState ctx w newAsset.PatientId
          (J.marshalAsset { newAsset with
            Prescriptions := prescriptions, LastUpdated := ctx.now.FormatRFC3339 }) := by
  simp [CreateAsset, hparse, hpid, hdoc, hread]

/-- A payload whose patient id or doctor id is empty is rejected. -/
theorem CreateAsset_missing_id (J : Codec Bytes) (ctx : Ctx) (w : World Bytes)
    (assetJSON : Bytes) (newAsset : Asset)
    (hparse : J.unmarshalAsset assetJSON = .ok newAsset)
    (hid : newAsset.PatientId = "" ∨ newAsset.DoctorId = "") :
    CreateAsset J ctx w assetJSON = (.error "patientId and doctorId are required", w) := by
  simp [CreateAsset, hparse, hid]

/-! ## C1: a merge appends -/

/-- C1: when the ledger already holds a record for the payload's patient id and
the payload has non-empty `PatientId` and `DoctorId` and only non-empty
diagnoses, `CreateAsset` succeeds and the stored record then has the previously
stored prescriptions, unchanged and in the same order, followed by the incoming
prescriptions (stamped) in payload order; so the stored sequence is longer by
the number of incoming prescriptions. -/
theorem CreateAsset_merge_appends (J : Codec Bytes) (ctx : Ctx) (w : World Bytes)
    (assetJSON : Bytes) (newAsset existingAsset : Asset)
    (hparse : J.unmarshalAsset assetJSON = .ok newAsset)
    (hpid : newAsset.PatientId ≠ "") (hdoc : newAsset.DoctorId ≠ "")
    (hdiag : ∀ p ∈ newAsset.Prescriptions, p.Diagnosis ≠ "")
    (hread : ReadAsset J ctx w newAsset.PatientId = .ok existingAsset)
    (hput : ctx.putErr newAsset.PatientId = none) :
    (CreateAsset J ctx w assetJSON).1 = .ok () ∧
    ∃ after, ReadAsset J ctx (CreateAsset J ctx w assetJSON).2 newAsset.PatientId = .ok after ∧
      after.Prescriptions = existingAsset.Prescriptions
        ++ newAsset.Prescriptions.map (stampPrescription ctx newAsset.DoctorId) ∧
      after.Prescriptions.take existingAsset.Prescriptions.length
        = existingAsset.Prescriptions ∧
      (after.Prescriptions.drop existingAsset.Prescriptions.length).map
          (fun p => (p.PrescriptionId, p.MedicationName, p.Dosage, p.Instructions, p.Diagnosis))
        = newAsset.Prescriptions.map
          (fun p => (p.PrescriptionId, p.MedicationName, p.Dosage, p.Instructions, p.Diagnosis)) ∧
      after.Prescriptions.length
        = existingAsset.Prescriptions.length + newAsset.Prescriptions.length := by
  have hget : ctx.getErr newAsset.PatientId = none :=
    ((ReadAsset_ok_iff J ctx w _ _).mp hread).1
  rw [CreateAsset_merge_eq J ctx w assetJSON newAsset existingAsset hparse hpid hdoc hread,
    mergeLoop_ok ctx _ _ _ hdiag]
  simp only [PutState_ok ctx w _ _ hput, true_and]
  refine ⟨_, ReadAsset_putValue_same J ctx w _ _ hget, rfl, ?_, ?_, ?_⟩
  · simp
  · simp only [List.drop_left, List.map_map]
    apply List.map_congr_left
    intro p _
    simp only [Function.comp, stampPrescription]
    split_ifs <;> rfl
  · simp

/-- C1 at a concrete input: a second prescription is merged into the record of `P1`. -/
theorem CreateAsset_merge_appends_witness :
    (CreateAsset wireCodec ctx1 (worldP1 [rxStored "Dispensed" "2024-04-01"])
      (Wire.asset ⟨"D2", "", "P1", "", [rx "RX2" "Aspirin" "cold"], ""⟩)).1 = .ok () ∧
    ∃ after, ReadAsset wireCodec ctx1
        (CreateAsset wireCodec ctx1 (worldP1 [rxStored "Dispensed" "2024-04-01"])
          (Wire.asset ⟨"D2", "", "P1", "", [rx "RX2" "Aspirin" "cold"], ""⟩)).2 "P1"
        = .ok after ∧
      after.Prescriptions = [rxStored "Dispensed" "2024-04-01"]
        ++ [rx "RX2" "Aspirin" "cold"].map (stampPrescription ctx1 "D2") ∧
      after.Prescriptions.take 1 = [rxStored "Dispensed" "2024-04-01"] ∧
      (after.Prescriptions.drop 1).map
          (fun p => (p.PrescriptionId, p.MedicationName, p.Dosage, p.Instructions, p.Diagnosis))
        = [rx "RX2" "Aspirin" "cold"].map
          (fun p => (p.PrescriptionId, p.MedicationName, p.Dosage, p.Instructions, p.Diagnosis)) ∧
      after.Prescriptions.length = 1 + 1 :=
  CreateAsset_merge_appends wireCodec ctx1 (worldP1 [rxStored "Dispensed" "2024-04-01"])
    (Wire.asset ⟨"D2", "", "P1", "", [rx "RX2" "Aspirin" "cold"], ""⟩)
    ⟨"D2", "", "P1", "", [rx "RX2" "Aspirin" "cold"], ""⟩
    (recordP1 [rxStored "Dispensed" "2024-04-01"]) rfl (by decide) (by decide) (by decide)
    rfl rfl

/-! ## Every outcome of each transaction -/

/-- `CreateAsset` fails and leaves the world state alone, or merges into the
record it loaded, or (when loading failed) stores the payload as a new record. -/
theorem CreateAsset_outcome (J : Codec Bytes) (ctx : Ctx) (w : World Bytes) (assetJSON : Bytes) :
    (∃ e, CreateAsset J ctx w assetJSON = (.error e, w)) ∨
    (∃ newAsset existingAsset, J.unmarshalAsset assetJSON = .ok newAsset
      ∧ newAsset.PatientId ≠ "" ∧ newAsset.DoctorId ≠ ""
      ∧ (∀ p ∈ newAsset.Prescriptions, p.Diagnosis ≠ "")
      ∧ ReadAsset J ctx w newAsset.PatientId = .ok existingAsset
      ∧ CreateAsset J ctx w assetJSON = (.ok (), putValue w newAsset.PatientId
          (J.marshalAsset (mergedAsset ctx existingAsset newAsset)))) ∨
    (∃ newAsset e, J.unmarshalAsset assetJSON = .ok newAsset
      ∧ newAsset.PatientId ≠ "" ∧ newAsset.DoctorId ≠ ""
      ∧ (∀ p ∈ newAsset.Prescriptions, p.Diagnosis ≠ "")
      ∧ ReadAsset J ctx w newAsset.PatientId = .error e
      ∧ CreateAsset J ctx w assetJSON = (.ok (), putValue w newAsset.PatientId
          (J.marshalAsset (createdAsset ctx newAsset)))) := by
  cases hparse : J.unmarshalAsset assetJSON with
  | error e => left; exact ⟨_, by rw [CreateAsset, hparse]⟩
  | ok newAsset =>
    by_cases hid : newAsset.PatientId = "" ∨ newAsset.DoctorId = ""
    · left; exact ⟨_, CreateAsset_missing_id J ctx w assetJSON newAsset hparse hid⟩
    · have hpid : newAsset.PatientId ≠ "" := fun h => hid (Or.inl h)
      have hdoc : newAsset.DoctorId ≠ "" := fun h => hid (Or.inr h)
      cases hput : ctx.putErr newAsset.PatientId with
      | some e' =>
        left
        cases hread : ReadAsset J ctx w newAsset.PatientId with
        | ok existingAsset =>
          rw [CreateAsset_merge_eq J ctx w assetJSON newAsset existingAsset hparse hpid hdoc hread]
          cases mergeLoop ctx newAsset.DoctorId newAsset.Prescriptions
              existingAsset.Prescriptions with
          | error e => exact ⟨_, rfl⟩
          | ok ps => exact ⟨e', by simp [PutState, hput]⟩
        | error e =>
          rw [CreateAsset_new_eq J ctx w assetJSON newAsset e hparse hpid hdoc hread]
          cases createLoop ctx newAsset.DoctorId newAsset.Prescriptions with
          | error e => exact ⟨_, rfl⟩
          | ok ps => exact ⟨e', by simp [PutState, hput]⟩
      | none =>
        rcases diagnosis_cases newAsset.Prescriptions with hdiag | hdiag
        · right
          cases hread : ReadAsset J ctx w newAsset.PatientId with
          | ok existingAsset =>
            left
            refine ⟨newAsset, existingAsset, rfl, hpid, hdoc, hdiag, hread, ?_⟩
            rw [CreateAsset_merge_eq J ctx w assetJSON newAsset existingAsset hparse hpid hdoc
              hread, mergeLoop_ok ctx _ _ _ hdiag]
            exact PutState_ok ctx w _ _ hput
          | error e =>
            right
            refine ⟨newAsset, e, rfl, hpid, hdoc, hdiag, hread, ?_⟩
            rw [CreateAsset_new_eq J ctx w assetJSON newAsset e hparse hpid hdoc hread,
              createLoop_ok ctx _ _ hdiag]
            exact PutState_ok ctx w _ _ hput
        · left
          cases hread : ReadAsset J ctx w newAsset.PatientId with
          | ok existingAsset =>
            rw [CreateAsset_merge_eq J ctx w assetJSON newAsset existingAsset hparse hpid hdoc
              hread, mergeLoop_error ctx _ _ _ hdiag]
            exact ⟨_, rfl⟩
          | error e =>
            rw [CreateAsset_new_eq J ctx w assetJSON newAsset e hparse hpid hdoc hread,
              createLoop_error ctx _ _ hdiag]
            exact ⟨_, rfl⟩

/-- `UpdatePrescription` once the record is loaded, the payload is decoded and
the first prescription with the payload's id is `p`. -/
theorem UpdatePrescription_at (J : Codec Bytes) (ctx : Ctx) (w : World Bytes)
    (patientId : String) (prescriptionJSON : Bytes) (asset : Asset)
    (newPrescription : Prescription) (pre : List Prescription) (p : Prescription)
    (post : List Prescription)
    (hread : ReadAsset J ctx w patientId = .ok asset)
    (hparse : J.unmarshalPrescription prescriptionJSON = .ok newPrescription)
    (hsplit : asset.Prescriptions = pre ++ p :: post)
    (hpre : ∀ q ∈ pre, q.PrescriptionId ≠ newPrescription.PrescriptionId)
    (hp : p.PrescriptionId = newPrescription.PrescriptionId) :
    UpdatePrescription J ctx w patientId prescriptionJSON =
      PutState ctx w patientId (J.marshalAsset { asset with
        Prescriptions := pre ++ updatedPrescription ctx newPrescription p :: post,
        LastUpdated := ctx.now.FormatRFC3339 }) := by
  simp only [UpdatePrescription, hread, hparse, hsplit,
    updateLoop_at ctx newPrescription pre p post hpre hp, updatedPrescription]

/-- `UpdatePrescription` fails and leaves the world state alone, or replaces
the first prescription with the payload's id. -/
theorem UpdatePrescription_outcome (J : Codec Bytes) (ctx : Ctx) (w : World Bytes)
    (patientId : String) (prescriptionJSON : Bytes) :
    (∃ e, UpdatePrescription J ctx w patientId prescriptionJSON = (.error e, w)) ∨
    (∃ asset newPrescription pre p post, ReadAsset J ctx w patientId = .ok asset
      ∧ J.unmarshalPrescription prescriptionJSON = .ok newPrescription
      ∧ asset.Prescriptions = pre ++ p :: post
      ∧ (∀ q ∈ pre, q.PrescriptionId ≠ newPrescription.PrescriptionId)
      ∧ p.PrescriptionId = newPrescription.PrescriptionId
      ∧ UpdatePrescription J ctx w patientId prescriptionJSON = (.ok (), putValue w patientId
          (J.marshalAsset { asset with
            Prescriptions := pre ++ updatedPrescription ctx newPrescription p :: post,
            LastUpdated := ctx.now.FormatRFC3339 }))) := by
  cases hread : ReadAsset J ctx w patientId with
  | error e => left; exact ⟨_, by rw [UpdatePrescription, hread]⟩
  | ok asset =>
    cases hparse : J.unmarshalPrescription prescriptionJSON with
    | error e => left; exact ⟨_, by rw [UpdatePrescription, hread]; simp only [hparse]; rfl⟩
    | ok newPrescription =>
      rcases firstMatch_cases newPrescription.PrescriptionId asset.Prescriptions with
        hnone | ⟨pre, p, post, hsplit, hpre, hp⟩
      · left
        exact ⟨_, by
          rw [UpdatePrescription, hread]
          simp only [hparse, updateLoop_none ctx _ _ hnone]
          rfl⟩
      · have heq := UpdatePrescription_at J ctx w patientId prescriptionJSON asset
          newPrescription pre p post hread hparse hsplit hpre hp
        cases hput : ctx.putErr patientId with
        | some e' => left; exact ⟨e', by rw [heq]; simp [PutState, hput]⟩
        | none =>
          right
          exact ⟨asset, newPrescription, pre, p, post, rfl, rfl, hsplit, hpre, hp,
            by rw [heq]; exact PutState_ok ctx w _ _ hput⟩

/-- `DispensePrescription` once the request is decoded and passes the field
check, the record is loaded and the first prescription with the id is `p`. -/
theorem DispensePrescription_at (J : Codec Bytes) (ctx : Ctx) (w : World Bytes)
    (dispensationJSON : Bytes) (d : Dispensation) (asset : Asset)
    (pre : List Prescription) (p : Prescription) (post : List Prescription)
    (hparse : J.unmarshalDispensation dispensationJSON = .ok d)
    (hpat : d.PatientId ≠ "") (hrx : d.PrescriptionId ≠ "") (hph : d.PharmacistId ≠ "")
    (hread : ReadAsset J ctx w d.PatientId = .ok asset)
    (hsplit : asset.Prescriptions = pre ++ p :: post)
    (hpre : ∀ q ∈ pre, q.PrescriptionId ≠ d.PrescriptionId)
    (hp : p.PrescriptionId = d.PrescriptionId) :
    DispensePrescription J ctx w dispensationJSON =
      if p.Status = "Revoked" then (.error "cannot dispense a revoked prescription", w)
      else if p.Status ≠ "Active" then (.error "can only dispense active prescriptions", w)
      else PutState ctx w d.PatientId (J.marshalAsset { asset with
        Prescriptions := pre ++ dispensedPrescription ctx d.PharmacistId p :: post,
        LastUpdated := ctx.now.FormatRFC3339 }) := by
  simp only [DispensePrescription, hparse, hpat, hrx, hph, or_self, if_false, hread, hsplit,
    dispenseLoop_at ctx d.PrescriptionId d.PharmacistId pre p post hpre hp,
    dispensedPrescription]
  split_ifs <;> rfl

/-- `DispensePrescription` fails and leaves the world state alone, or marks the
first prescription with the id, which was `Active`, as dispensed. -/
theorem DispensePrescription_outcome (J : Codec Bytes) (ctx : Ctx) (w : World Bytes)
    (dispensationJSON : Bytes) :
    (∃ e, DispensePrescription J ctx w dispensationJSON = (.error e, w)) ∨
    (∃ d asset pre p post, J.unmarshalDispensation dispensationJSON = .ok d
      ∧ ReadAsset J ctx w d.PatientId = .ok asset
      ∧ asset.Prescriptions = pre ++ p :: post
      ∧ (∀ q ∈ pre, q.PrescriptionId ≠ d.PrescriptionId)
      ∧ p.PrescriptionId = d.PrescriptionId
      ∧ p.Status = "Active"
      ∧ DispensePrescription J ctx w dispensationJSON = (.ok (), putValue w d.PatientId
          (J.marshalAsset { asset with
            Prescriptions := pre ++ dispensedPrescription ctx d.PharmacistId p :: post,
            LastUpdated := ctx.now.FormatRFC3339 }))) := by
  cases hparse : J.unmarshalDispensation dispensationJSON with
  | error e => left; exact ⟨_, by rw [DispensePrescription, hparse]⟩
  | ok d =>
    by_cases hid : d.PatientId = "" ∨ d.PrescriptionId = "" ∨ d.PharmacistId = ""
    · left; exact ⟨_, by rw [DispensePrescription, hparse]; simp only [hid, if_true]; rfl⟩
    · have hpat : d.PatientId ≠ "" := fun h => hid (Or.inl h)
      have hrx : d.PrescriptionId ≠ "" := fun h => hid (Or.inr (Or.inl h))
      have hph : d.PharmacistId ≠ "" := fun h => hid (Or.inr (Or.inr h))
      cases hread : ReadAsset J ctx w d.PatientId with
      | error e =>
        left
        exact ⟨e, by rw [DispensePrescription, hparse]; simp only [hid, if_false, hread]⟩
      | ok asset =>
        rcases firstMatch_cases d.PrescriptionId asset.Prescriptions with
          hnone | ⟨pre, p, post, hsplit, hpre, hp⟩
        · left
          exact ⟨_, by
            rw [DispensePrescription, hparse]
            simp only [hid, if_false, hread, dispenseLoop_none ctx _ _ _ hnone]
            rfl⟩
        · have heq := DispensePrescription_at J ctx w dispensationJSON d asset pre p post
            hparse hpat hrx hph hread hsplit hpre hp
          by_cases h1 : p.Status = "Revoked"
          · left; exact ⟨_, by rw [heq, if_pos h1]⟩
          · by_cases h2 : p.Status = "Active"
            · rw [if_neg h1, if_neg (not_not.mpr h2)] at heq
              cases hput : ctx.putErr d.PatientId with
              | some e' => left; exact ⟨e', by rw [heq]; simp [PutState, hput]⟩
              | none =>
                right
                exact ⟨d, asset, pre, p, post, rfl, hread, hsplit, hpre, hp, h2,
                  by rw [heq]; exact PutState_ok ctx w _ _ hput⟩
            · left; exact ⟨_, by rw [heq, if_neg h1, if_pos h2]⟩

/-- `RevokePrescriptionJSON` once the request is decoded and passes the field
check, the record is loaded and the first prescription with the id is `p`. -/
theorem RevokePrescriptionJSON_at (J : Codec Bytes) (ctx : Ctx) (w : World Bytes)
    (revocationJSON : Bytes) (r : Revocation) (asset : Asset)
    (pre : List Prescription) (p : Prescription) (post : List Prescription)
    (hparse : J.unmarshalRevocation revocationJSON = .ok r)
    (hpat : r.PatientId ≠ "") (hrx : r.PrescriptionId ≠ "") (hdoc : r.DoctorId ≠ "")
    (hread : ReadAsset J ctx w r.PatientId = .ok asset)
    (hsplit : asset.Prescriptions = pre ++ p :: post)
    (hpre : ∀ q ∈ pre, q.PrescriptionId ≠ r.PrescriptionId)
    (hp : p.PrescriptionId = r.PrescriptionId) :
    RevokePrescriptionJSON J ctx w revocationJSON =
      if p.CreatedBy ≠ r.DoctorId then
        (.error "only the prescribing doctor can revoke this prescription", w)
      else if p.Status ≠ "Active" then (.error "can only revoke active prescriptions", w)
      else PutState ctx w r.PatientId (J.marshalAsset { asset with
        Prescriptions := pre ++ revokedPrescription ctx p :: post,
        LastUpdated := ctx.now.FormatRFC3339 }) := by
  simp only [RevokePrescriptionJSON, hparse, hpat, hrx, hdoc, or_self, if_false, hread, hsplit,
    revokeLoop_at ctx r.PrescriptionId r.DoctorId pre p post hpre hp, revokedPrescription]
  split_ifs <;> rfl

/-- `RevokePrescriptionJSON` fails and leaves the world state alone, or marks
the first prescription with the id, which was `Active` and created by the
requesting doctor, as revoked. -/
theorem RevokePrescriptionJSON_outcome (J : Codec Bytes) (ctx : Ctx) (w : World Bytes)
    (revocationJSON : Bytes) :
    (∃ e, RevokePrescriptionJSON J ctx w revocationJSON = (.error e, w)) ∨
    (∃ r asset pre p post, J.unmarshalRevocation revocationJSON = .ok r
      ∧ ReadAsset J ctx w r.PatientId = .ok asset
      ∧ asset.Prescriptions = pre ++ p :: post
      ∧ (∀ q ∈ pre, q.PrescriptionId ≠ r.PrescriptionId)
      ∧ p.PrescriptionId = r.PrescriptionId
      ∧ p.CreatedBy = r.DoctorId ∧ p.Status = "Active"
      ∧ RevokePrescriptionJSON J ctx w revocationJSON = (.ok (), putValue w r.PatientId
          (J.marshalAsset { asset with
            Prescriptions := pre ++ revokedPrescription ctx p :: post,
            LastUpdated := ctx.now.FormatRFC3339 }))) := by
  cases hparse : J.unmarshalRevocation revocationJSON with
  | error e => left; exact ⟨_, by rw [RevokePrescriptionJSON, hparse]⟩
  | ok r =>
    by_cases hid : r.PatientId = "" ∨ r.PrescriptionId = "" ∨ r.DoctorId = ""
    · left; exact ⟨_, by rw [RevokePrescriptionJSON, hparse]; simp only [hid, if_true]; rfl⟩
    · have hpat : r.PatientId ≠ "" := fun h => hid (Or.inl h)
      have hrx : r.PrescriptionId ≠ "" := fun h => hid (Or.inr (Or.inl h))
      have hdoc : r.DoctorId ≠ "" := fun h => hid (Or.inr (Or.inr h))
      cases hread : ReadAsset J ctx w r.PatientId with
      | error e =>
        left
        exact ⟨e, by rw [RevokePrescriptionJSON, hparse]; simp only [hid, if_false, hread]⟩
      | ok asset =>
        rcases firstMatch_cases r.PrescriptionId asset.Prescriptions with
          hnone | ⟨pre, p, post, hsplit, hpre, hp⟩
        · left
          exact ⟨_, by
            rw [RevokePrescriptionJSON, hparse]
            simp only [hid, if_false, hread, revokeLoop_none ctx _ _ _ hnone]
            rfl⟩
        · have heq := RevokePrescriptionJSON_at J ctx w revocationJSON r asset pre p post
            hparse hpat hrx hdoc hread hsplit hpre hp
          by_cases h1 : p.CreatedBy = r.DoctorId
          · by_cases h2 : p.Status = "Active"
            · rw [if_neg (not_not.mpr h1), if_neg (not_not.mpr h2)] at heq
              cases hput : ctx.putErr r.PatientId with
              | some e' => left; exact ⟨e', by rw [heq]; simp [PutState, hput]⟩
              | none =>
                right
                exact ⟨r, asset, pre, p, post, rfl, hread, hsplit, hpre, hp, h1, h2,
                  by rw [heq]; exact PutState_ok ctx w _ _ hput⟩
            · left; exact ⟨_, by rw [heq, if_neg (not_not.mpr h1), if_pos h2]⟩
          · left; exact ⟨_, by rw [heq, if_pos h1]⟩

/-- `CheckPrescriptionExpiry` once the record is loaded and the first
prescription with the id is `p`. -/
theorem CheckPrescriptionExpiry_at (J : Codec Bytes) (ctx : Ctx) (w : World Bytes)
    (patientId prescriptionId : String) (asset : Asset)
    (pre : List Prescription) (p : Prescription) (post : List Prescription)
    (hread : ReadAsset J ctx w patientId = .ok asset)
    (hsplit : asset.Prescriptions = pre ++ p :: post)
    (hpre : ∀ q ∈ pre, q.PrescriptionId ≠ prescriptionId)
    (hp : p.PrescriptionId = prescriptionId) :
    CheckPrescriptionExpiry J ctx w patientId prescriptionId =
      match parseDate p.ExpiryDate with
      | none => (.error "invalid expiry date format", w)
      | some expiryDate =>
        if ctx.now.After expiryDate then
          PutState ctx w patientId (J.marshalAsset { asset with
            Prescriptions := pre ++ expiredPrescription ctx p :: post })
        else (.ok (), w) := by
  simp only [CheckPrescriptionExpiry, hread, hsplit,
    expiryLoop_at ctx prescriptionId pre p post hpre hp, expiredPrescription]
  cases parseDate p.ExpiryDate with
  | none => rfl
  | some e => by_cases h : ctx.now.After e = true <;> simp [h]

/-- `CheckPrescriptionExpiry` fails or succeeds without a write, or marks the
first prescription with the id, whose expiry date has passed, as expired. -/
theorem CheckPrescriptionExpiry_outcome (J : Codec Bytes) (ctx : Ctx) (w : World Bytes)
    (patientId prescriptionId : String) :
    (CheckPrescriptionExpiry J ctx w patientId prescriptionId).2 = w ∨
    (∃ asset pre p post expiryDate, ReadAsset J ctx w patientId = .ok asset
      ∧ asset.Prescriptions = pre ++ p :: post
      ∧ (∀ q ∈ pre, q.PrescriptionId ≠ prescriptionId)
      ∧ p.PrescriptionId = prescriptionId
      ∧ parseDate p.ExpiryDate = some expiryDate ∧ ctx.now.After expiryDate = true
      ∧ CheckPrescriptionExpiry J ctx w patientId prescriptionId = (.ok (), putValue w patientId
          (J.marshalAsset { asset with
            Prescriptions := pre ++ expiredPrescription ctx p :: post }))) := by
  cases hread : ReadAsset J ctx w patientId with
  | error e => left; rw [CheckPrescriptionExpiry, hread]
  | ok asset =>
    rcases firstMatch_cases prescriptionId asset.Prescriptions with
      hnone | ⟨pre, p, post, hsplit, hpre, hp⟩
    · left
      rw [CheckPrescriptionExpiry, hread]
      simp only [expiryLoop_none ctx _ _ hnone]
    · have heq := CheckPrescriptionExpiry_at J ctx w patientId prescriptionId asset pre p post
        hread hsplit hpre hp
      cases hparse : parseDate p.ExpiryDate with
      | none => left; rw [heq, hparse]
      | some expiryDate =>
        rw [hparse] at heq
        by_cases hafter : ctx.now.After expiryDate = true
        · simp only [hafter, if_true] at heq
          cases hput : ctx.putErr patientId with
          | some e' => left; rw [heq]; simp [PutState, hput]
          | none =>
            right
            exact ⟨asset, pre, p, post, expiryDate, rfl, hsplit, hpre, hp, hparse, hafter,
              by rw [heq]; exact PutState_ok ctx w _ _ hput⟩
        · left; rw [heq]; simp [hafter]

/-! ## C3, C4: dispensing -/

/-- C3: when the first stored prescription with the requested id is `Revoked`,
`DispensePrescription` fails with "cannot dispense a revoked prescription"; when
it has any other status than `Active` it fails with the different error "can
only dispense active prescriptions"; both failures leave the world state as it
was; and the call succeeds only if that status is exactly `Active`. -/
theorem DispensePrescription_status_guard (J : Codec Bytes) (ctx : Ctx) (w : World Bytes)
    (dispensationJSON : Bytes) (d : Dispensation) (asset : Asset)
    (pre : List Prescription) (p : Prescription) (post : List Prescription)
    (hparse : J.unmarshalDispensation dispensationJSON = .ok d)
    (hpat : d.PatientId ≠ "") (hrx : d.PrescriptionId ≠ "") (hph : d.PharmacistId ≠ "")
    (hread : ReadAsset J ctx w d.PatientId = .ok asset)
    (hsplit : asset.Prescriptions = pre ++ p :: post)
    (hpre : ∀ q ∈ pre, q.PrescriptionId ≠ d.PrescriptionId)
    (hp : p.PrescriptionId = d.PrescriptionId) :
    (p.Status = "Revoked" → DispensePrescription J ctx w dispensationJSON
      = (.error "cannot dispense a revoked prescription", w)) ∧
    (p.Status ≠ "Revoked" → p.Status ≠ "Active" → DispensePrescription J ctx w dispensationJSON
      = (.error "can only dispense active prescriptions", w)) ∧
    ((DispensePrescription J ctx w dispensationJSON).1 = .ok () → p.Status = "Active") ∧
    "cannot dispense a revoked prescription" ≠ "can only dispense active prescriptions" := by
  have heq := DispensePrescription_at J ctx w dispensationJSON d asset pre p post
    hparse hpat hrx hph hread hsplit hpre hp
  refine ⟨fun h => by rw [heq, if_pos h], fun h1 h2 => by rw [heq, if_neg h1, if_pos h2],
    fun hok => ?_, by decide⟩
  by_contra hne
  rw [heq] at hok
  by_cases h1 : p.Status = "Revoked"
  · rw [if_pos h1] at hok
    exact absurd hok (by simp)
  · rw [if_neg h1, if_pos hne] at hok
    exact absurd hok (by simp)

/-- C3 at a concrete input: dispensing the revoked prescription `RX1` of `P1`. -/
theorem DispensePrescription_status_guard_witness :
    DispensePrescription wireCodec ctx1 (worldP1 [rxStored "Revoked" "2024-04-01"])
        (Wire.dispensation ⟨"P1", "RX1", "Ph1", ""⟩)
      = (.error "cannot dispense a revoked prescription",
          worldP1 [rxStored "Revoked" "2024-04-01"]) :=
  (DispensePrescription_status_guard wireCodec ctx1 (worldP1 [rxStored "Revoked" "2024-04-01"])
    (Wire.dispensation ⟨"P1", "RX1", "Ph1", ""⟩) ⟨"P1", "RX1", "Ph1", ""⟩
    (recordP1 [rxStored "Revoked" "2024-04-01"]) [] (rxStored "Revoked" "2024-04-01") []
    rfl (by decide) (by decide) (by decide) rfl rfl (by decide) rfl).1 rfl

/-- C4: when the first stored prescription with the requested id is `Active`
and the pharmacist id is non-empty, `DispensePrescription` succeeds, and the
record stored afterwards is the loaded record with `LastUpdated` set to now and
that one prescription changed in exactly five fields: `Status` is `Dispensed`,
`DispensingPharmacist` is the pharmacist id, `DispensingTimestamp` and
`Timestamp` are now, `TxID` is the current transaction id. -/
theorem DispensePrescription_effect (J : Codec Bytes) (ctx : Ctx) (w : World Bytes)
    (dispensationJSON : Bytes) (d : Dispensation) (asset : Asset)
    (pre : List Prescription) (p : Prescription) (post : List Prescription)
    (hparse : J.unmarshalDispensation dispensationJSON = .ok d)
    (hpat : d.PatientId ≠ "") (hrx : d.PrescriptionId ≠ "") (hph : d.PharmacistId ≠ "")
    (hread : ReadAsset J ctx w d.PatientId = .ok asset)
    (hsplit : asset.Prescriptions = pre ++ p :: post)
    (hpre : ∀ q ∈ pre, q.PrescriptionId ≠ d.PrescriptionId)
    (hp : p.PrescriptionId = d.PrescriptionId)
    (hactive : p.Status = "Active")
    (hput : ctx.putErr d.PatientId = none) :
    (DispensePrescription J ctx w dispensationJSON).1 = .ok () ∧
    ReadAsset J ctx (DispensePrescription J ctx w dispensationJSON).2 d.PatientId
      = .ok { DoctorId := asset.DoctorId, PatientName := asset.PatientName,
              PatientId := asset.PatientId, DateOfBirth := asset.DateOfBirth,
              LastUpdated := ctx.now.FormatRFC3339,
              Prescriptions := pre ++
                { PrescriptionId := p.PrescriptionId, MedicationName := p.MedicationName,
                  Dosage := p.Dosage, Instructions := p.Instructions,
                  Diagnosis := p.Diagnosis, CreatedBy := p.CreatedBy,
                  ExpiryDate := p.ExpiryDate,
                  Status := "Dispensed", DispensingPharmacist := d.PharmacistId,
                  DispensingTimestamp := ctx.now.FormatRFC3339,
                  Timestamp := ctx.now.FormatRFC3339, TxID := ctx.txID } :: post } := by
  have hget : ctx.getErr d.PatientId = none := ((ReadAsset_ok_iff J ctx w _ _).mp hread).1
  have hne : p.Status ≠ "Revoked" := by rw [hactive]; decide
  rw [DispensePrescription_at J ctx w dispensationJSON d asset pre p post
    hparse hpat hrx hph hread hsplit hpre hp, if_neg hne, if_neg (not_not.mpr hactive),
    PutState_ok ctx w _ _ hput]
  exact ⟨rfl, ReadAsset_putValue_same J ctx w _ _ hget⟩

/-- C4 at a concrete input: pharmacist `Ph1` dispenses `RX1`, the second of
three prescriptions of `P1`. -/
theorem DispensePrescription_effect_witness :
    (DispensePrescription wireCodec ctx1
      (worldP1 [rx "RX0" "Aspirin" "cold", rxStored "Active" "2024-04-01",
        rxStored "Active" "2024-05-01"])
      (Wire.dispensation ⟨"P1", "RX1", "Ph1", ""⟩)).1 = .ok () ∧
    ReadAsset wireCodec ctx1 (DispensePrescription wireCodec ctx1
      (worldP1 [rx "RX0" "Aspirin" "cold", rxStored "Active" "2024-04-01",
        rxStored "Active" "2024-05-01"])
      (Wire.dispensation ⟨"P1", "RX1", "Ph1", ""⟩)).2 "P1"
      = .ok ⟨"D1", "Pat One", "P1", "1990-01-01",
          [rx "RX0" "Aspirin" "cold",
            ⟨"RX1", "Ibuprofen", "1 tablet", "after meals", "flu", "Dispensed", "D1", "tx1",
              ctx1.now.FormatRFC3339, "2024-04-01", "Ph1", ctx1.now.FormatRFC3339⟩,
            rxStored "Active" "2024-05-01"],
          ctx1.now.FormatRFC3339⟩ :=
  DispensePrescription_effect wireCodec ctx1
    (worldP1 [rx "RX0" "Aspirin" "cold", rxStored "Active" "2024-04-01",
      rxStored "Active" "2024-05-01"])
    (Wire.dispensation ⟨"P1", "RX1", "Ph1", ""⟩) ⟨"P1", "RX1", "Ph1", ""⟩
    (recordP1 [rx "RX0" "Aspirin" "cold", rxStored "Active" "2024-04-01",
      rxStored "Active" "2024-05-01"])
    [rx "RX0" "Aspirin" "cold"] (rxStored "Active" "2024-04-01")
    [rxStored "Active" "2024-05-01"]
    rfl (by decide) (by decide) (by decide) rfl rfl (by decide) rfl rfl rfl

/-! ## C5, C6: revoking -/

/-- C5: when the first stored prescription with the requested id was not
created by the requesting doctor, `RevokePrescriptionJSON` fails with "only the
prescribing doctor can revoke this prescription", whatever the prescription's
status; when the doctor matches but the status is not `Active`, it fails with
"can only revoke active prescriptions"; both failures leave the world state as
it was. -/
theorem RevokePrescriptionJSON_guards (J : Codec Bytes) (ctx : Ctx) (w : World Bytes)
    (revocationJSON : Bytes) (r : Revocation) (asset : Asset)
    (pre : List Prescription) (p : Prescription) (post : List Prescription)
    (hparse : J.unmarshalRevocation revocationJSON = .ok r)
    (hpat : r.PatientId ≠ "") (hrx : r.PrescriptionId ≠ "") (hdoc : r.DoctorId ≠ "")
    (hread : ReadAsset J ctx w r.PatientId = .ok asset)
    (hsplit : asset.Prescriptions = pre ++ p :: post)
    (hpre : ∀ q ∈ pre, q.PrescriptionId ≠ r.PrescriptionId)
    (hp : p.PrescriptionId = r.PrescriptionId) :
    (p.CreatedBy ≠ r.DoctorId → RevokePrescriptionJSON J ctx w revocationJSON
      = (.error "only the prescribing doctor can revoke this prescription", w)) ∧
    (p.CreatedBy = r.DoctorId → p.Status ≠ "Active" → RevokePrescriptionJSON J ctx w revocationJSON
      = (.error "can only revoke active prescriptions", w)) := by
  have heq := RevokePrescriptionJSON_at J ctx w revocationJSON r asset pre p post
    hparse hpat hrx hdoc hread hsplit hpre hp
  exact ⟨fun h => by rw [heq, if_pos h],
    fun h1 h2 => by rw [heq, if_neg (not_not.mpr h1), if_pos h2]⟩

/-- C5 at a concrete input: doctor `D2` tries to revoke the already dispensed
prescription `RX1` that doctor `D1` created. -/
theorem RevokePrescriptionJSON_guards_witness :
    RevokePrescriptionJSON wireCodec ctx1 (worldP1 [rxStored "Dispensed" "2024-04-01"])
        (Wire.revocation ⟨"P1", "RX1", "D2"⟩)
      = (.error "only the prescribing doctor can revoke this prescription",
          worldP1 [rxStored "Dispensed" "2024-04-01"]) :=
  (RevokePrescriptionJSON_guards wireCodec ctx1 (worldP1 [rxStored "Dispensed" "2024-04-01"])
    (Wire.revocation ⟨"P1", "RX1", "D2"⟩) ⟨"P1", "RX1", "D2"⟩
    (recordP1 [rxStored "Dispensed" "2024-04-01"]) [] (rxStored "Dispensed" "2024-04-01") []
    rfl (by decide) (by decide) (by decide) rfl rfl (by decide) rfl).1 (by decide)

/-- C6: when the first stored prescription with the requested id is `Active`
and was created by the requesting doctor, `RevokePrescriptionJSON` succeeds, and
the record stored afterwards holds the same prescriptions except that this one
has `Status` `Revoked`, `TxID` the current transaction id and `Timestamp` now;
its other fields are unchanged. -/
theorem RevokePrescriptionJSON_effect (J : Codec Bytes) (ctx : Ctx) (w : World Bytes)
    (revocationJSON : Bytes) (r : Revocation) (asset : Asset)
    (pre : List Prescription) (p : Prescription) (post : List Prescription)
    (hparse : J.unmarshalRevocation revocationJSON = .ok r)
    (hpat : r.PatientId ≠ "") (hrx : r.PrescriptionId ≠ "") (hdoc : r.DoctorId ≠ "")
    (hread : ReadAsset J ctx w r.PatientId = .ok asset)
    (hsplit : asset.Prescriptions = pre ++ p :: post)
    (hpre : ∀ q ∈ pre, q.PrescriptionId ≠ r.PrescriptionId)
    (hp : p.PrescriptionId = r.PrescriptionId)
    (hby : p.CreatedBy = r.DoctorId) (hactive : p.Status = "Active")
    (hput : ctx.putErr r.PatientId = none) :
    (RevokePrescriptionJSON J ctx w revocationJSON).1 = .ok () ∧
    ReadAsset J ctx (RevokePrescriptionJSON J ctx w revocationJSON).2 r.PatientId
      = .ok { DoctorId := asset.DoctorId, PatientName := asset.PatientName,
              PatientId := asset.PatientId, DateOfBirth := asset.DateOfBirth,
              LastUpdated := ctx.now.FormatRFC3339,
              Prescriptions := pre ++
                { PrescriptionId := p.PrescriptionId, MedicationName := p.MedicationName,
                  Dosage := p.Dosage, Instructions := p.Instructions,
                  Diagnosis := p.Diagnosis, CreatedBy := p.CreatedBy,
                  ExpiryDate := p.ExpiryDate,
                  DispensingPharmacist := p.DispensingPharmacist,
                  DispensingTimestamp := p.DispensingTimestamp,
                  Status := "Revoked", Timestamp := ctx.now.FormatRFC3339,
                  TxID := ctx.txID } :: post } := by
  have hget : ctx.getErr r.PatientId = none := ((ReadAsset_ok_iff J ctx w _ _).mp hread).1
  rw [RevokePrescriptionJSON_at J ctx w revocationJSON r asset pre p post
    hparse hpat hrx hdoc hread hsplit hpre hp, if_neg (not_not.mpr hby),
    if_neg (not_not.mpr hactive), PutState_ok ctx w _ _ hput]
  exact ⟨rfl, ReadAsset_putValue_same J ctx w _ _ hget⟩

/-- C6 at a concrete input: doctor `D1` revokes the active prescription `RX1`. -/
theorem RevokePrescriptionJSON_effect_witness :
    (RevokePrescriptionJSON wireCodec ctx1
      (worldP1 [rx "RX0" "Aspirin" "cold", rxStored "Active" "2024-04-01"])
      (Wire.revocation ⟨"P1", "RX1", "D1"⟩)).1 = .ok () ∧
    ReadAsset wireCodec ctx1 (RevokePrescriptionJSON wireCodec ctx1
      (worldP1 [rx "RX0" "Aspirin" "cold", rxStored "Active" "2024-04-01"])
      (Wire.revocation ⟨"P1", "RX1", "D1"⟩)).2 "P1"
      = .ok ⟨"D1", "Pat One", "P1", "1990-01-01",
          [rx "RX0" "Aspirin" "cold",
            ⟨"RX1", "Ibuprofen", "1 tablet", "after meals", "flu", "Revoked", "D1", "tx1",
              ctx1.now.FormatRFC3339, "2024-04-01", "", ""⟩],
          ctx1.now.FormatRFC3339⟩ :=
  RevokePrescriptionJSON_effect wireCodec ctx1
    (worldP1 [rx "RX0" "Aspirin" "cold", rxStored "Active" "2024-04-01"])
    (Wire.revocation ⟨"P1", "RX1", "D1"⟩) ⟨"P1", "RX1", "D1"⟩
    (recordP1 [rx "RX0" "Aspirin" "cold", rxStored "Active" "2024-04-01"])
    [rx "RX0" "Aspirin" "cold"] (rxStored "Active" "2024-04-01") []
    rfl (by decide) (by decide) (by decide) rfl rfl (by decide) rfl rfl rfl rfl

/-! ## C7, C8: stamping and validation in `CreateAsset` -/

/-- What `stampPrescription` writes and what it keeps. -/
theorem stampPrescription_fields (ctx : Ctx) (doctorId : String) (p : Prescription) :
    (stampPrescription ctx doctorId p).Status = "Active" ∧
    (stampPrescription ctx doctorId p).TxID = ctx.txID ∧
    (stampPrescription ctx doctorId p).Timestamp = ctx.now.FormatRFC3339 ∧
    (stampPrescription ctx doctorId p).CreatedBy = doctorId ∧
    (stampPrescription ctx doctorId p).ExpiryDate
      = (if p.ExpiryDate = "" then (ctx.now.AddDate 0 1 0).FormatDate else p.ExpiryDate) ∧
    (stampPrescription ctx doctorId p).PrescriptionId = p.PrescriptionId ∧
    (stampPrescription ctx doctorId p).MedicationName = p.MedicationName ∧
    (stampPrescription ctx doctorId p).Dosage = p.Dosage ∧
    (stampPrescription ctx doctorId p).Instructions = p.Instructions ∧
    (stampPrescription ctx doctorId p).Diagnosis = p.Diagnosis := by
  unfold stampPrescription
  by_cases h : p.ExpiryDate = "" <;> simp [h]

/-- The entry at position `base.length + j` of `base ++ l.map f`. -/
theorem getElem?_append_map {α β : Type} (base : List β) (l : List α) (f : α → β) (j : Nat)
    (x : α) (hx : l[j]? = some x) : (base ++ l.map f)[base.length + j]? = some (f x) := by
  rw [List.getElem?_append_right (Nat.le_add_right _ _)]
  simp [hx]

/-- C7: after a successful `CreateAsset` (new record or merge) the stored record
ends with the incoming prescriptions, each stored with `Status` `Active`, `TxID`
the current transaction id, `Timestamp` now and `CreatedBy` the payload's
`DoctorId`, whatever the payload carried in those fields; `ExpiryDate` is the
payload's value when non-empty and otherwise the date one month after now. -/
theorem CreateAsset_stamps (J : Codec Bytes) (ctx : Ctx) (w : World Bytes)
    (assetJSON : Bytes) (newAsset : Asset)
    (hparse : J.unmarshalAsset assetJSON = .ok newAsset)
    (hok : (CreateAsset J ctx w assetJSON).1 = .ok ()) :
    ∃ after n, storedAsset J (CreateAsset J ctx w assetJSON).2 newAsset.PatientId = some after ∧
      after.Prescriptions.length = n + newAsset.Prescriptions.length ∧
      ∀ j p, newAsset.Prescriptions[j]? = some p →
        ∃ s, after.Prescriptions[n + j]? = some s ∧
          s.Status = "Active" ∧ s.TxID = ctx.txID ∧ s.Timestamp = ctx.now.FormatRFC3339 ∧
          s.CreatedBy = newAsset.DoctorId ∧
          s.ExpiryDate
            = (if p.ExpiryDate = "" then (ctx.now.AddDate 0 1 0).FormatDate else p.ExpiryDate) ∧
          s.PrescriptionId = p.PrescriptionId ∧ s.MedicationName = p.MedicationName ∧
          s.Dosage = p.Dosage ∧ s.Instructions = p.Instructions ∧
          s.Diagnosis = p.Diagnosis := by
  rcases CreateAsset_outcome J ctx w assetJSON with
    ⟨e, he⟩ | ⟨na, existingAsset, hna, _, _, _, _, heq⟩ | ⟨na, e, hna, _, _, _, _, heq⟩
  · rw [he] at hok
    exact absurd hok (by simp)
  · obtain rfl : na = newAsset := by
      have := hna.symm.trans hparse
      exact Except.ok.inj this
    rw [heq]
    refine ⟨mergedAsset ctx existingAsset na, existingAsset.Prescriptions.length,
      storedAsset_putValue_same J w _ _, by simp [mergedAsset], ?_⟩
    intro j p hj
    exact ⟨stampPrescription ctx na.DoctorId p,
      getElem?_append_map _ _ _ j p hj, stampPrescription_fields ctx na.DoctorId p⟩
  · obtain rfl : na = newAsset := by
      have := hna.symm.trans hparse
      exact Except.ok.inj this
    rw [heq]
    refine ⟨createdAsset ctx na, 0, storedAsset_putValue_same J w _ _,
      by simp [createdAsset], ?_⟩
    intro j p hj
    refine ⟨stampPrescription ctx na.DoctorId p, ?_, stampPrescription_fields ctx na.DoctorId p⟩
    simp [createdAsset, hj]

/-- C7 at concrete inputs: a new record for `P2` whose payload tries to set the
stamped fields itself and gives no expiry date. Created in an empty world state
at 2024-03-10T12:00:00Z on a peer in UTC, the prescription is stored with the
expiry date 2024-04-10; created at 2023-02-12T00:30:00-05:00 on a peer in
`America/Havana`, with the expiry date 2023-03-11, because 00:30 on 2023-03-12
does not exist there and `time.Date` resolves it to 23:30 the day before. -/
theorem CreateAsset_stamps_witness :
    (∃ after n, storedAsset wireCodec
        (CreateAsset wireCodec ctx1 (worldP1 [])
          (Wire.asset ⟨"D2", "Pat Two", "P2", "", [rxStored "Dispensed" ""], ""⟩)).2 "P2"
        = some after ∧
      after.Prescriptions.length = n + [rxStored "Dispensed" ""].length ∧
      ∀ j p, [rxStored "Dispensed" ""][j]? = some p →
        ∃ s, after.Prescriptions[n + j]? = some s ∧
          s.Status = "Active" ∧ s.TxID = ctx1.txID ∧ s.Timestamp = ctx1.now.FormatRFC3339 ∧
          s.CreatedBy = "D2" ∧
          s.ExpiryDate
            = (if p.ExpiryDate = "" then (ctx1.now.AddDate 0 1 0).FormatDate else p.ExpiryDate) ∧
          s.PrescriptionId = p.PrescriptionId ∧ s.MedicationName = p.MedicationName ∧
          s.Dosage = p.Dosage ∧ s.Instructions = p.Instructions ∧
          s.Diagnosis = p.Diagnosis) ∧
    (storedAsset wireCodec
      (CreateAsset wireCodec ctx1 []
        (Wire.asset ⟨"D2", "Pat Two", "P2", "", [rxStored "Dispensed" ""], ""⟩)).2 "P2").map
      (fun a => a.Prescriptions.map
        (fun s => (s.Status, s.TxID, s.Timestamp, s.CreatedBy, s.ExpiryDate)))
      = some [("Active", "tx1", "2024-03-10T12:00:00Z", "D2", "2024-04-10")] ∧
    (storedAsset wireCodec
      (CreateAsset wireCodec ctxHavana []
        (Wire.asset ⟨"D2", "Pat Two", "P2", "", [rxStored "Dispensed" ""], ""⟩)).2 "P2").map
      (fun a => a.Prescriptions.map
        (fun s => (s.Status, s.TxID, s.Timestamp, s.CreatedBy, s.ExpiryDate)))
      = some [("Active", "tx1", "2023-02-12T00:30:00-05:00", "D2", "2023-03-11")] :=
  ⟨CreateAsset_stamps wireCodec ctx1 (worldP1 [])
    (Wire.asset ⟨"D2", "Pat Two", "P2", "", [rxStored "Dispensed" ""], ""⟩)
    ⟨"D2", "Pat Two", "P2", "", [rxStored "Dispensed" ""], ""⟩ rfl rfl,
   by decide, by decide⟩

/-- C8: when the payload's `PatientId` or `DoctorId` is empty, or any incoming
prescription, at any position, has an empty diagnosis, `CreateAsset` fails and
the world state is exactly the one before the call, whether or not a record
for the patient exists. -/
theorem CreateAsset_validation_atomic (J : Codec Bytes) (ctx : Ctx) (w : World Bytes)
    (assetJSON : Bytes) (newAsset : Asset)
    (hparse : J.unmarshalAsset assetJSON = .ok newAsset)
    (hbad : newAsset.PatientId = "" ∨ newAsset.DoctorId = ""
      ∨ ∃ p ∈ newAsset.Prescriptions, p.Diagnosis = "") :
    CreateAsset J ctx w assetJSON
      = (.error (if newAsset.PatientId = "" ∨ newAsset.DoctorId = ""
          then "patientId and doctorId are required"
          else "diagnosis is required for all prescriptions"), w) := by
  by_cases hid : newAsset.PatientId = "" ∨ newAsset.DoctorId = ""
  · rw [if_pos hid]
    exact CreateAsset_missing_id J ctx w assetJSON newAsset hparse hid
  · rw [if_neg hid]
    have hpid : newAsset.PatientId ≠ "" := fun h => hid (Or.inl h)
    have hdoc : newAsset.DoctorId ≠ "" := fun h => hid (Or.inr h)
    have hdiag : ∃ p ∈ newAsset.Prescriptions, p.Diagnosis = "" := by
      rcases hbad with h | h | h
      · exact absurd h hpid
      · exact absurd h hdoc
      · exact h
    cases hread : ReadAsset J ctx w newAsset.PatientId with
    | ok existingAsset =>
      rw [CreateAsset_merge_eq J ctx w assetJSON newAsset existingAsset hparse hpid hdoc hread,
        mergeLoop_error ctx _ _ _ hdiag]
    | error e =>
      rw [CreateAsset_new_eq J ctx w assetJSON newAsset e hparse hpid hdoc hread,
        createLoop_error ctx _ _ hdiag]

/-- C8 at a concrete input: the second incoming prescription for the existing
record of `P1` has no diagnosis. -/
theorem CreateAsset_validation_atomic_witness :
    CreateAsset wireCodec ctx1 (worldP1 [rxStored "Active" "2024-04-01"])
        (Wire.asset ⟨"D2", "", "P1", "", [rx "RX2" "Aspirin" "cold", rx "RX3" "Warfarin" ""], ""⟩)
      = (.error "diagnosis is required for all prescriptions",
          worldP1 [rxStored "Active" "2024-04-01"]) :=
  CreateAsset_validation_atomic wireCodec ctx1 (worldP1 [rxStored "Active" "2024-04-01"])
    (Wire.asset ⟨"D2", "", "P1", "", [rx "RX2" "Aspirin" "cold", rx "RX3" "Warfarin" ""], ""⟩)
    ⟨"D2", "", "P1", "", [rx "RX2" "Aspirin" "cold", rx "RX3" "Warfarin" ""], ""⟩ rfl
    (Or.inr (Or.inr ⟨rx "RX3" "Warfarin" "", by decide, rfl⟩))

/-! ## C10: the expiry check -/

/-- C10: let the first stored prescription with the requested id be `Active`
with an `ExpiryDate` that parses, to the instant `expiryDate` (midnight UTC of
that date). Called at an instant before `expiryDate`, `CheckPrescriptionExpiry`
succeeds and the world state is the one before the call (no status change, no
new `TxID`). Called at an instant after it, the call succeeds and the stored
record holds that prescription with `Status` `Expired` and `TxID` the current
transaction id. -/
theorem CheckPrescriptionExpiry_before_after (J : Codec Bytes) (ctx : Ctx) (w : World Bytes)
    (patientId prescriptionId : String) (asset : Asset)
    (pre : List Prescription) (p : Prescription) (post : List Prescription)
    (expiryDate : Time)
    (hread : ReadAsset J ctx w patientId = .ok asset)
    (hsplit : asset.Prescriptions = pre ++ p :: post)
    (hpre : ∀ q ∈ pre, q.PrescriptionId ≠ prescriptionId)
    (hp : p.PrescriptionId = prescriptionId)
    (_hactive : p.Status = "Active")
    (hdate : parseDate p.ExpiryDate = some expiryDate) :
    (ctx.now.unixNano < expiryDate.unixNano →
      CheckPrescriptionExpiry J ctx w patientId prescriptionId = (.ok (), w)) ∧
    (expiryDate.unixNano < ctx.now.unixNano → ctx.putErr patientId = none →
      (CheckPrescriptionExpiry J ctx w patientId prescriptionId).1 = .ok () ∧
      ReadAsset J ctx (CheckPrescriptionExpiry J ctx w patientId prescriptionId).2 patientId
        = .ok { asset with
            Prescriptions := pre ++ { p with
              Status := "Expired", TxID := ctx.txID,
              Timestamp := ctx.now.FormatRFC3339 } :: post }) := by
  have hget : ctx.getErr patientId = none := ((ReadAsset_ok_iff J ctx w _ _).mp hread).1
  have heq := CheckPrescriptionExpiry_at J ctx w patientId prescriptionId asset pre p post
    hread hsplit hpre hp
  rw [hdate] at heq
  constructor
  · intro hlt
    have hafter : ctx.now.After expiryDate = false := by
      simp only [Time.After, decide_eq_false_iff_not]
      omega
    rw [heq]
    simp [hafter]
  · intro hlt hput
    have hafter : ctx.now.After expiryDate = true := by
      simp only [Time.After, decide_eq_true_eq]
      exact hlt
    simp only [hafter, if_true] at heq
    rw [heq, PutState_ok ctx w _ _ hput]
    exact ⟨rfl, ReadAsset_putValue_same J ctx w _ _ hget⟩

/-- C10 at concrete inputs: on 2024-03-10 the prescription `RX1` is left alone
when its expiry date is 2024-04-01, and is stored as expired when its expiry
date is 2024-03-01. -/
theorem CheckPrescriptionExpiry_before_after_witness :
    CheckPrescriptionExpiry wireCodec ctx1 (worldP1 [rxStored "Active" "2024-04-01"]) "P1" "RX1"
      = (.ok (), worldP1 [rxStored "Active" "2024-04-01"]) ∧
    ReadAsset wireCodec ctx1
      (CheckPrescriptionExpiry wireCodec ctx1 (worldP1 [rxStored "Active" "2024-03-01"])
        "P1" "RX1").2 "P1"
      = .ok (recordP1 [⟨"RX1", "Ibuprofen", "1 tablet", "after meals", "flu", "Expired", "D1",
          "tx1", ctx1.now.FormatRFC3339, "2024-03-01", "", ""⟩]) :=
  ⟨(CheckPrescriptionExpiry_before_after wireCodec ctx1
      (worldP1 [rxStored "Active" "2024-04-01"]) "P1" "RX1"
      (recordP1 [rxStored "Active" "2024-04-01"]) [] (rxStored "Active" "2024-04-01") []
      ⟨1711929600000000000, UTC⟩ rfl rfl (by decide) rfl rfl rfl).1 (by decide),
   ((CheckPrescriptionExpiry_before_after wireCodec ctx1
      (worldP1 [rxStored "Active" "2024-03-01"]) "P1" "RX1"
      (recordP1 [rxStored "Active" "2024-03-01"]) [] (rxStored "Active" "2024-03-01") []
      ⟨1709251200000000000, UTC⟩ rfl rfl (by decide) rfl rfl rfl).2
      (by decide) rfl).2⟩

/-! ## C9, C2: what every mutating transaction keeps -/

/-- Replacing one entry of a list leaves every other position as it was. -/
theorem getElem?_replace {α : Type} (pre : List α) (x y : α) (post : List α) (i : Nat) (q : α)
    (h : (pre ++ x :: post)[i]? = some q) :
    (pre ++ y :: post)[i]? = some q ∨ (q = x ∧ (pre ++ y :: post)[i]? = some y) := by
  induction pre generalizing i with
  | nil =>
    cases i with
    | zero =>
      right
      simp only [List.nil_append, List.getElem?_cons_zero, Option.some.injEq] at h
      exact ⟨h.symm, by simp⟩
    | succ j =>
      left
      simpa using h
  | cons z rest ih =>
    cases i with
    | zero =>
      left
      simpa using h
    | succ j =>
      have h' : (rest ++ x :: post)[j]? = some q := by simpa using h
      rcases ih j h' with h1 | ⟨h1, h2⟩
      · left; simpa using h1
      · right; exact ⟨h1, by simpa using h2⟩

/-- Reading a key after a record was stored under `k`: a relation that holds
between the old and the new record under `k`, and between a record and itself,
holds between what was read before and what is read after. -/
theorem ReadAsset_after_put (J : Codec Bytes) (ctx : Ctx) (w : World Bytes) (k key : String)
    (a asset' : Asset) (R : Asset → Asset → Prop) (hrefl : R a a)
    (hread : ReadAsset J ctx w key = .ok a) (hnew : key = k → R a asset') :
    ∃ a', ReadAsset J ctx (putValue w k (J.marshalAsset asset')) key = .ok a' ∧ R a a' := by
  by_cases hk : key = k
  · subst hk
    have hget : ctx.getErr key = none := ((ReadAsset_ok_iff J ctx w _ _).mp hread).1
    exact ⟨asset', ReadAsset_putValue_same J ctx w _ _ hget, hnew rfl⟩
  · exact ⟨a, by rw [ReadAsset_putValue_other J ctx w k key _ hk]; exact hread, hrefl⟩

/-- C9: every successful mutating transaction (`CreateAsset`,
`UpdatePrescription`, `DispensePrescription`, `RevokePrescriptionJSON`,
`CheckPrescriptionExpiry`, on any arguments) leaves, in every record that could
be read before it, a prescription at each previously occupied index with the
same `CreatedBy` as before; for `UpdatePrescription` whatever `CreatedBy` the
payload carries. -/
theorem CreatedBy_immutable (J : Codec Bytes) (ctx : Ctx) (w : World Bytes)
    (m : Mutation Bytes) (key : String) (a : Asset)
    (hread : ReadAsset J ctx w key = .ok a)
    (hok : (runMutation J ctx w m).1 = .ok ()) :
    ∃ a', ReadAsset J ctx (runMutation J ctx w m).2 key = .ok a' ∧
      ∀ (i : Nat) (p : Prescription), a.Prescriptions[i]? = some p →
        ∃ p' : Prescription, a'.Prescriptions[i]? = some p' ∧ p'.CreatedBy = p.CreatedBy := by
  have hrefl : ∀ (i : Nat) (p : Prescription), a.Prescriptions[i]? = some p →
      ∃ p' : Prescription, a.Prescriptions[i]? = some p' ∧ p'.CreatedBy = p.CreatedBy :=
    fun i p h => ⟨p, h, rfl⟩
  have hrepl : ∀ (asset : Asset) (pre : List Prescription) (p p' : Prescription)
      (post : List Prescription), asset = a → asset.Prescriptions = pre ++ p :: post →
      p'.CreatedBy = p.CreatedBy → ∀ (i : Nat) (q : Prescription),
        a.Prescriptions[i]? = some q →
        ∃ q' : Prescription, (pre ++ p' :: post)[i]? = some q'
          ∧ q'.CreatedBy = q.CreatedBy := by
    intro asset pre p p' post ha hsplit hby i q hq
    subst ha
    rw [hsplit] at hq
    rcases getElem?_replace pre p p' post i q hq with h | ⟨h1, h2⟩
    · exact ⟨q, h, rfl⟩
    · exact ⟨p', h2, by rw [hby, h1]⟩
  cases m with
  | CreateAsset assetJSON =>
    simp only [runMutation] at hok ⊢
    rcases CreateAsset_outcome J ctx w assetJSON with
      ⟨e, he⟩ | ⟨na, ex, _, _, _, _, hrd, heq⟩ | ⟨na, e, _, _, _, _, hrd, heq⟩
    · rw [he] at hok
      exact absurd hok (by simp)
    · rw [heq]
      refine ReadAsset_after_put J ctx w _ key a _
        (fun x y => ∀ (i : Nat) (p : Prescription), x.Prescriptions[i]? = some p →
          ∃ p' : Prescription, y.Prescriptions[i]? = some p' ∧ p'.CreatedBy = p.CreatedBy)
        hrefl hread ?_
      intro hk i p hp
      subst hk
      have hex : ex = a := Except.ok.inj (hrd.symm.trans hread)
      have hlt : i < a.Prescriptions.length := (List.getElem?_eq_some.mp hp).1
      refine ⟨p, ?_, rfl⟩
      simp only [mergedAsset, hex]
      rw [List.getElem?_append_left hlt]
      exact hp
    · rw [heq]
      refine ReadAsset_after_put J ctx w _ key a _
        (fun x y => ∀ (i : Nat) (p : Prescription), x.Prescriptions[i]? = some p →
          ∃ p' : Prescription, y.Prescriptions[i]? = some p' ∧ p'.CreatedBy = p.CreatedBy)
        hrefl hread ?_
      intro hk
      subst hk
      rw [hread] at hrd
      exact absurd hrd (by simp)
  | UpdatePrescription patientId prescriptionJSON =>
    simp only [runMutation] at hok ⊢
    rcases UpdatePrescription_outcome J ctx w patientId prescriptionJSON with
      ⟨e, he⟩ | ⟨asset, np, pre, p, post, hrd, _, hsplit, _, _, heq⟩
    · rw [he] at hok
      exact absurd hok (by simp)
    · rw [heq]
      refine ReadAsset_after_put J ctx w _ key a _
        (fun x y => ∀ (i : Nat) (p : Prescription), x.Prescriptions[i]? = some p →
          ∃ p' : Prescription, y.Prescriptions[i]? = some p' ∧ p'.CreatedBy = p.CreatedBy)
        hrefl hread ?_
      intro hk
      subst hk
      exact hrepl asset pre p _ post (Except.ok.inj (hrd.symm.trans hread)) hsplit rfl
  | DispensePrescription dispensationJSON =>
    simp only [runMutation] at hok ⊢
    rcases DispensePrescription_outcome J ctx w dispensationJSON with
      ⟨e, he⟩ | ⟨d, asset, pre, p, post, _, hrd, hsplit, _, _, _, heq⟩
    · rw [he] at hok
      exact absurd hok (by simp)
    · rw [heq]
      refine ReadAsset_after_put J ctx w _ key a _
        (fun x y => ∀ (i : Nat) (p : Prescription), x.Prescriptions[i]? = some p →
          ∃ p' : Prescription, y.Prescriptions[i]? = some p' ∧ p'.CreatedBy = p.CreatedBy)
        hrefl hread ?_
      intro hk
      subst hk
      exact hrepl asset pre p _ post (Except.ok.inj (hrd.symm.trans hread)) hsplit rfl
  | RevokePrescriptionJSON revocationJSON =>
    simp only [runMutation] at hok ⊢
    rcases RevokePrescriptionJSON_outcome J ctx w revocationJSON with
      ⟨e, he⟩ | ⟨r, asset, pre, p, post, _, hrd, hsplit, _, _, _, _, heq⟩
    · rw [he] at hok
      exact absurd hok (by simp)
    · rw [heq]
      refine ReadAsset_after_put J ctx w _ key a _
        (fun x y => ∀ (i : Nat) (p : Prescription), x.Prescriptions[i]? = some p →
          ∃ p' : Prescription, y.Prescriptions[i]? = some p' ∧ p'.CreatedBy = p.CreatedBy)
        hrefl hread ?_
      intro hk
      subst hk
      exact hrepl asset pre p _ post (Except.ok.inj (hrd.symm.trans hread)) hsplit rfl
  | CheckPrescriptionExpiry patientId prescriptionId =>
    simp only [runMutation] at hok ⊢
    rcases CheckPrescriptionExpiry_outcome J ctx w patientId prescriptionId with
      hw | ⟨asset, pre, p, post, e, hrd, hsplit, _, _, _, _, heq⟩
    · rw [hw]
      exact ⟨a, hread, hrefl⟩
    · rw [heq]
      refine ReadAsset_after_put J ctx w _ key a _
        (fun x y => ∀ (i : Nat) (p : Prescription), x.Prescriptions[i]? = some p →
          ∃ p' : Prescription, y.Prescriptions[i]? = some p' ∧ p'.CreatedBy = p.CreatedBy)
        hrefl hread ?_
      intro hk
      subst hk
      exact hrepl asset pre p _ post (Except.ok.inj (hrd.symm.trans hread)) hsplit rfl

/-- C9 at a concrete input: an update whose payload names another doctor as
`CreatedBy`. -/
theorem CreatedBy_immutable_witness :
    ∃ a', ReadAsset wireCodec ctx1
        (runMutation wireCodec ctx1 (worldP1 [rxStored "Active" "2024-04-01"])
          (Mutation.UpdatePrescription "P1"
            (Wire.prescription { rx "RX1" "Aspirin" "cold" with CreatedBy := "D9" }))).2 "P1"
        = .ok a' ∧
      ∀ (i : Nat) (p : Prescription),
        (recordP1 [rxStored "Active" "2024-04-01"]).Prescriptions[i]? = some p →
        ∃ p' : Prescription, a'.Prescriptions[i]? = some p' ∧ p'.CreatedBy = p.CreatedBy :=
  CreatedBy_immutable wireCodec ctx1 (worldP1 [rxStored "Active" "2024-04-01"])
    (Mutation.UpdatePrescription "P1"
      (Wire.prescription { rx "RX1" "Aspirin" "cold" with CreatedBy := "D9" }))
    "P1" (recordP1 [rxStored "Active" "2024-04-01"]) rfl rfl

theorem KeepsTerminal_refl (a : Asset) : KeepsTerminal a a :=
  fun _ p h _ => ⟨p, h, rfl⟩

/-- Replacing a prescription that is `Active` keeps every terminal status. -/
theorem KeepsTerminal_replace_active (a : Asset) (pre : List Prescription)
    (p p' : Prescription) (post : List Prescription) (a' : Asset)
    (hsplit : a.Prescriptions = pre ++ p :: post) (hactive : p.Status = "Active")
    (ha' : a'.Prescriptions = pre ++ p' :: post) : KeepsTerminal a a' := by
  intro i q hq hterm
  rw [hsplit] at hq
  rw [ha']
  rcases getElem?_replace pre p p' post i q hq with h | ⟨h1, _⟩
  · exact ⟨q, h, rfl⟩
  · exfalso
    rw [h1, hactive] at hterm
    revert hterm
    unfold isTerminal
    decide

/-- C2 fails for `UpdatePrescription`: the stored prescription `RX1` is
`Dispensed`, an update whose payload says `Active` succeeds, and the stored
status is `Active` afterwards. -/
theorem UpdatePrescription_reopens_terminal :
    (storedAsset wireCodec (worldP1 [rxStored "Dispensed" "2024-04-01"]) "P1").map
        (fun a => a.Prescriptions.map (fun p => p.Status)) = some ["Dispensed"] ∧
    (UpdatePrescription wireCodec ctx1 (worldP1 [rxStored "Dispensed" "2024-04-01"]) "P1"
      (Wire.prescription { rx "RX1" "Ibuprofen" "flu" with Status := "Active" })).1 = .ok () ∧
    (storedAsset wireCodec
      (UpdatePrescription wireCodec ctx1 (worldP1 [rxStored "Dispensed" "2024-04-01"]) "P1"
        (Wire.prescription { rx "RX1" "Ibuprofen" "flu" with Status := "Active" })).2 "P1").map
        (fun a => a.Prescriptions.map (fun p => p.Status)) = some ["Active"] :=
  ⟨by decide, rfl, by decide⟩

/-- C2, amended: `CreateAsset`, `DispensePrescription` and
`RevokePrescriptionJSON`, on any arguments and whether they succeed or fail,
leave every stored prescription whose status is `Dispensed`, `Revoked` or
`Expired` with that status. A successful `UpdatePrescription` replaces, in the
record of its patient, the first prescription with the payload's id by an entry
with the payload's `Status`, whatever the stored status was, and leaves every
other prescription of the record as it was, those with the same id included;
a failing one, and any one on the record of another patient, changes no
prescription. -/
theorem terminal_status_kept (J : Codec Bytes) (ctx : Ctx) (w : World Bytes)
    (key : String) (a : Asset) (hread : ReadAsset J ctx w key = .ok a) :
    (∀ assetJSON, ∃ a', ReadAsset J ctx (CreateAsset J ctx w assetJSON).2 key = .ok a'
      ∧ KeepsTerminal a a') ∧
    (∀ dispensationJSON, ∃ a',
      ReadAsset J ctx (DispensePrescription J ctx w dispensationJSON).2 key = .ok a'
      ∧ KeepsTerminal a a') ∧
    (∀ revocationJSON, ∃ a',
      ReadAsset J ctx (RevokePrescriptionJSON J ctx w revocationJSON).2 key = .ok a'
      ∧ KeepsTerminal a a') ∧
    (∀ patientId prescriptionJSON, ∃ a',
      ReadAsset J ctx (UpdatePrescription J ctx w patientId prescriptionJSON).2 key = .ok a' ∧
      (((UpdatePrescription J ctx w patientId prescriptionJSON).1 = .ok () ∧ key = patientId) →
        ∃ (np : Prescription) (pre : List Prescription) (p p' : Prescription)
            (post : List Prescription),
          J.unmarshalPrescription prescriptionJSON = .ok np ∧
          a.Prescriptions = pre ++ p :: post ∧
          (∀ q ∈ pre, q.PrescriptionId ≠ np.PrescriptionId) ∧
          p.PrescriptionId = np.PrescriptionId ∧
          a'.Prescriptions = pre ++ p' :: post ∧ p'.Status = np.Status) ∧
      (¬ ((UpdatePrescription J ctx w patientId prescriptionJSON).1 = .ok ()
          ∧ key = patientId) →
        a'.Prescriptions = a.Prescriptions)) := by
  refine ⟨fun assetJSON => ?_, fun dispensationJSON => ?_, fun revocationJSON => ?_,
    fun patientId prescriptionJSON => ?_⟩
  · rcases CreateAsset_outcome J ctx w assetJSON with
      ⟨e, he⟩ | ⟨na, ex, _, _, _, _, hrd, heq⟩ | ⟨na, e, _, _, _, _, hrd, heq⟩
    · rw [he]
      exact ⟨a, hread, KeepsTerminal_refl a⟩
    · rw [heq]
      refine ReadAsset_after_put J ctx w _ key a _ KeepsTerminal (KeepsTerminal_refl a) hread ?_
      intro hk i p hp _
      subst hk
      have hex : ex = a := Except.ok.inj (hrd.symm.trans hread)
      have hlt : i < a.Prescriptions.length := (List.getElem?_eq_some.mp hp).1
      refine ⟨p, ?_, rfl⟩
      simp only [mergedAsset, hex]
      rw [List.getElem?_append_left hlt]
      exact hp
    · rw [heq]
      refine ReadAsset_after_put J ctx w _ key a _ KeepsTerminal (KeepsTerminal_refl a) hread ?_
      intro hk
      subst hk
      rw [hread] at hrd
      exact absurd hrd (by simp)
  · rcases DispensePrescription_outcome J ctx w dispensationJSON with
      ⟨e, he⟩ | ⟨d, asset, pre, p, post, _, hrd, hsplit, _, _, hactive, heq⟩
    · rw [he]
      exact ⟨a, hread, KeepsTerminal_refl a⟩
    · rw [heq]
      refine ReadAsset_after_put J ctx w _ key a _ KeepsTerminal (KeepsTerminal_refl a) hread ?_
      intro hk
      subst hk
      have hex : asset = a := Except.ok.inj (hrd.symm.trans hread)
      exact KeepsTerminal_replace_active a pre p _ post _ (hex ▸ hsplit) hactive rfl
  · rcases RevokePrescriptionJSON_outcome J ctx w revocationJSON with
      ⟨e, he⟩ | ⟨r, asset, pre, p, post, _, hrd, hsplit, _, _, _, hactive, heq⟩
    · rw [he]
      exact ⟨a, hread, KeepsTerminal_refl a⟩
    · rw [heq]
      refine ReadAsset_after_put J ctx w _ key a _ KeepsTerminal (KeepsTerminal_refl a) hread ?_
      intro hk
      subst hk
      have hex : asset = a := Except.ok.inj (hrd.symm.trans hread)
      exact KeepsTerminal_replace_active a pre p _ post _ (hex ▸ hsplit) hactive rfl
  · rcases UpdatePrescription_outcome J ctx w patientId prescriptionJSON with
      ⟨e, he⟩ | ⟨asset, np, pre, p, post, hrd, hnp, hsplit, hpre, hp, heq⟩
    · rw [he]
      exact ⟨a, hread, fun h => absurd h.1 (by simp), fun _ => rfl⟩
    · rw [heq]
      by_cases hk : key = patientId
      · subst hk
        have hex : asset = a := Except.ok.inj (hrd.symm.trans hread)
        have hget : ctx.getErr key = none := ((ReadAsset_ok_iff J ctx w _ _).mp hread).1
        refine ⟨_, ReadAsset_putValue_same J ctx w _ _ hget, fun _ => ?_,
          fun h => absurd ⟨rfl, rfl⟩ h⟩
        exact ⟨np, pre, p, updatedPrescription ctx np p, post, hnp, hex ▸ hsplit, hpre, hp,
          rfl, rfl⟩
      · refine ⟨a, by rw [ReadAsset_putValue_other J ctx w _ key _ hk]; exact hread,
          fun h => absurd h.2 hk, fun _ => rfl⟩

/-- C2, amended, at concrete inputs. In the record of `P1` with a dispensed and
an active prescription, dispensing `RX1` keeps the terminal status. In the
record of `P1` that holds `RX1` twice, dispensed and revoked, an update of
`RX1` with the status `Active` leaves the statuses `Active` and `Revoked`. -/
theorem terminal_status_kept_witness :
    (∃ a', ReadAsset wireCodec ctx1
        (DispensePrescription wireCodec ctx1
          (worldP1 [rxStored "Dispensed" "2024-04-01", rx "RX2" "Aspirin" "cold"])
          (Wire.dispensation ⟨"P1", "RX1", "Ph1", ""⟩)).2 "P1" = .ok a'
      ∧ KeepsTerminal
          (recordP1 [rxStored "Dispensed" "2024-04-01", rx "RX2" "Aspirin" "cold"]) a') ∧
    (∃ a', ReadAsset wireCodec ctx1
        (UpdatePrescription wireCodec ctx1
          (worldP1 [rxStored "Dispensed" "2024-04-01", rxStored "Revoked" "2024-04-01"]) "P1"
          (Wire.prescription { rx "RX1" "Ibuprofen" "flu" with Status := "Active" })).2
        "P1" = .ok a' ∧
      (((UpdatePrescription wireCodec ctx1
          (worldP1 [rxStored "Dispensed" "2024-04-01", rxStored "Revoked" "2024-04-01"]) "P1"
          (Wire.prescription { rx "RX1" "Ibuprofen" "flu" with Status := "Active" })).1
            = .ok () ∧ "P1" = "P1") →
        ∃ (np : Prescription) (pre : List Prescription) (p p' : Prescription)
            (post : List Prescription),
          wireCodec.unmarshalPrescription
              (Wire.prescription { rx "RX1" "Ibuprofen" "flu" with Status := "Active" })
            = .ok np ∧
          (recordP1 [rxStored "Dispensed" "2024-04-01",
              rxStored "Revoked" "2024-04-01"]).Prescriptions = pre ++ p :: post ∧
          (∀ q ∈ pre, q.PrescriptionId ≠ np.PrescriptionId) ∧
          p.PrescriptionId = np.PrescriptionId ∧
          a'.Prescriptions = pre ++ p' :: post ∧ p'.Status = np.Status) ∧
      (¬ ((UpdatePrescription wireCodec ctx1
          (worldP1 [rxStored "Dispensed" "2024-04-01", rxStored "Revoked" "2024-04-01"]) "P1"
          (Wire.prescription { rx "RX1" "Ibuprofen" "flu" with Status := "Active" })).1
            = .ok () ∧ "P1" = "P1") →
        a'.Prescriptions
          = (recordP1 [rxStored "Dispensed" "2024-04-01",
              rxStored "Revoked" "2024-04-01"]).Prescriptions)) ∧
    (ReadAsset wireCodec ctx1
        (UpdatePrescription wireCodec ctx1
          (worldP1 [rxStored "Dispensed" "2024-04-01", rxStored "Revoked" "2024-04-01"]) "P1"
          (Wire.prescription { rx "RX1" "Ibuprofen" "flu" with Status := "Active" })).2
        "P1").toOption.map (fun a => a.Prescriptions.map (fun p => p.Status))
      = some ["Active", "Revoked"] :=
  ⟨(terminal_status_kept wireCodec ctx1
    (worldP1 [rxStored "Dispensed" "2024-04-01", rx "RX2" "Aspirin" "cold"]) "P1"
    (recordP1 [rxStored "Dispensed" "2024-04-01", rx "RX2" "Aspirin" "cold"]) rfl).2.1
    (Wire.dispensation ⟨"P1", "RX1", "Ph1", ""⟩),
   (terminal_status_kept wireCodec ctx1
    (worldP1 [rxStored "Dispensed" "2024-04-01", rxStored "Revoked" "2024-04-01"]) "P1"
    (recordP1 [rxStored "Dispensed" "2024-04-01", rxStored "Revoked" "2024-04-01"]) rfl).2.2.2
    "P1" (Wire.prescription { rx "RX1" "Ibuprofen" "flu" with Status := "Active" }),
   by decide⟩

/-! ## C11: the expiry comparison is on instants -/

/-- A date that `parseDate` accepts is parsed to a midnight in UTC: a whole
number of days after the epoch, with zone offset zero. -/
theorem parseDate_midnight (s : String) (expiryDate : Time)
    (h : parseDate s = some expiryDate) :
    expiryDate.offset = 0 ∧ expiryDate.unixNano % 86400000000000 = 0 := by
  unfold parseDate at h
  split at h
  · split at h
    · simp only [] at h
      split_ifs at h
      simp only [mkDate, Option.some.injEq] at h
      subst h
      constructor
      · rfl
      · simp only [UTC, ne_eq, not_true_eq_false, if_false]
        omega
    · exact absurd h (by simp)
  · exact absurd h (by simp)

/-- C11 fails on the expiry day itself: at 2024-03-10T12:00:00Z, the same
calendar day as the `ExpiryDate` 2024-03-10 of the active prescription `RX1`,
`CheckPrescriptionExpiry` succeeds and stores the prescription as `Expired`. -/
theorem CheckPrescriptionExpiry_same_day_expires :
    ctx1.now.FormatDate = "2024-03-10" ∧
    (rxStored "Active" "2024-03-10").ExpiryDate = "2024-03-10" ∧
    (CheckPrescriptionExpiry wireCodec ctx1 (worldP1 [rxStored "Active" "2024-03-10"])
      "P1" "RX1").1 = .ok () ∧
    (storedAsset wireCodec
      (CheckPrescriptionExpiry wireCodec ctx1 (worldP1 [rxStored "Active" "2024-03-10"])
        "P1" "RX1").2 "P1").map (fun a => a.Prescriptions.map (fun p => p.Status))
      = some ["Expired"] :=
  ⟨by decide, rfl, rfl, by decide⟩

/-- C11, amended: the expiry comparison is on instants and strict. The
`ExpiryDate` of the first prescription with the requested id, an `Active` one,
parses to a midnight in UTC. When the current instant is that midnight or
earlier, `CheckPrescriptionExpiry` succeeds and leaves the world state as it
was; when the current instant is later, on the expiry day itself or after it,
the prescription is stored as `Expired`. -/
theorem CheckPrescriptionExpiry_instant_strict (J : Codec Bytes) (ctx : Ctx) (w : World Bytes)
    (patientId prescriptionId : String) (asset : Asset)
    (pre : List Prescription) (p : Prescription) (post : List Prescription)
    (expiryDate : Time)
    (hread : ReadAsset J ctx w patientId = .ok asset)
    (hsplit : asset.Prescriptions = pre ++ p :: post)
    (hpre : ∀ q ∈ pre, q.PrescriptionId ≠ prescriptionId)
    (hp : p.PrescriptionId = prescriptionId)
    (_hactive : p.Status = "Active")
    (hdate : parseDate p.ExpiryDate = some expiryDate) :
    expiryDate.offset = 0 ∧ expiryDate.unixNano % 86400000000000 = 0 ∧
    (ctx.now.unixNano ≤ expiryDate.unixNano →
      CheckPrescriptionExpiry J ctx w patientId prescriptionId = (.ok (), w)) ∧
    (expiryDate.unixNano < ctx.now.unixNano → ctx.putErr patientId = none →
      (CheckPrescriptionExpiry J ctx w patientId prescriptionId).1 = .ok () ∧
      ∃ after, ReadAsset J ctx
          (CheckPrescriptionExpiry J ctx w patientId prescriptionId).2 patientId = .ok after ∧
        after.Prescriptions = pre ++ expiredPrescription ctx p :: post ∧
        (expiredPrescription ctx p).Status = "Expired") := by
  have hget : ctx.getErr patientId = none := ((ReadAsset_ok_iff J ctx w _ _).mp hread).1
  have heq := CheckPrescriptionExpiry_at J ctx w patientId prescriptionId asset pre p post
    hread hsplit hpre hp
  rw [hdate] at heq
  refine ⟨(parseDate_midnight _ _ hdate).1, (parseDate_midnight _ _ hdate).2, ?_, ?_⟩
  · intro hle
    have hafter : ctx.now.After expiryDate = false := by
      simp only [Time.After, decide_eq_false_iff_not]
      omega
    rw [heq]
    simp [hafter]
  · intro hlt hput
    have hafter : ctx.now.After expiryDate = true := by
      simp only [Time.After, decide_eq_true_eq]
      exact hlt
    simp only [hafter, if_true] at heq
    rw [heq, PutState_ok ctx w _ _ hput]
    exact ⟨rfl, _, ReadAsset_putValue_same J ctx w _ _ hget, rfl, rfl⟩

/-- C11, amended, at concrete inputs: exactly at midnight UTC of the expiry
date 2024-03-10 the check leaves the world state as it was. -/
theorem CheckPrescriptionExpiry_instant_strict_witness :
    CheckPrescriptionExpiry wireCodec
        ⟨"tx2", ⟨1710028800000000000, UTC⟩, fun _ => none, fun _ => none, none, fun _ => none⟩
        (worldP1 [rxStored "Active" "2024-03-10"]) "P1" "RX1"
      = (.ok (), worldP1 [rxStored "Active" "2024-03-10"]) :=
  (CheckPrescriptionExpiry_instant_strict wireCodec
    ⟨"tx2", ⟨1710028800000000000, UTC⟩, fun _ => none, fun _ => none, none, fun _ => none⟩
    (worldP1 [rxStored "Active" "2024-03-10"]) "P1" "RX1"
    (recordP1 [rxStored "Active" "2024-03-10"]) [] (rxStored "Active" "2024-03-10") []
    ⟨1710028800000000000, UTC⟩ rfl rfl (by decide) rfl rfl rfl).2.2.1 (by decide)

/-! ## C12: what a mutation refreshes -/

/-- C12 at the failing input: at 2024-03-10T12:00:00Z the prescription `RX1`
of `P1`, expired since 2024-03-01, is stored as `Expired` with the current
transaction id and timestamp, but the record keeps its old `LastUpdated`
2024-03-01T09:00:00Z; `DispensePrescription` on the same record does set
`LastUpdated` to now. -/
theorem CheckPrescriptionExpiry_keeps_LastUpdated :
    ctx1.now.FormatRFC3339 = "2024-03-10T12:00:00Z" ∧
    ReadAsset wireCodec ctx1
        (CheckPrescriptionExpiry wireCodec ctx1 (worldP1 [rxStored "Active" "2024-03-01"])
          "P1" "RX1").2 "P1"
      = .ok ⟨"D1", "Pat One", "P1", "1990-01-01",
          [⟨"RX1", "Ibuprofen", "1 tablet", "after meals", "flu", "Expired", "D1", "tx1",
            "2024-03-10T12:00:00Z", "2024-03-01", "", ""⟩],
          "2024-03-01T09:00:00Z"⟩ ∧
    (ReadAsset wireCodec ctx1
        (DispensePrescription wireCodec ctx1 (worldP1 [rxStored "Active" "2024-03-01"])
          (Wire.dispensation ⟨"P1", "RX1", "Ph1", ""⟩)).2 "P1").map (fun a => a.LastUpdated)
      = .ok "2024-03-10T12:00:00Z" := by
  refine ⟨by decide, ?_, ?_⟩
  · have h : ctx1.now.FormatRFC3339 = "2024-03-10T12:00:00Z" := by decide
    rw [← h]
    rfl
  · have h : ctx1.now.FormatRFC3339 = "2024-03-10T12:00:00Z" := by decide
    rw [← h]
    rfl

/-! ## C13: not found -/

/-- `ReadAsset` on a key that holds nothing fails. -/
theorem ReadAsset_absent (J : Codec Bytes) (ctx : Ctx) (w : World Bytes) (patientId : String)
    (habsent : getValue w patientId = none) :
    ∃ e, ReadAsset J ctx w patientId = .error e ∧
      (ctx.getErr patientId = none → e = "asset " ++ patientId ++ " does not exist") := by
  unfold ReadAsset GetState
  cases hg : ctx.getErr patientId with
  | some e' => exact ⟨_, rfl, fun h => absurd h (by simp)⟩
  | none => exact ⟨_, by simp only [habsent], fun _ => rfl⟩

/-- C13: take a patient id and a prescription id. When the record of the
patient exists and none of its prescriptions has the prescription id,
`DispensePrescription`, `RevokePrescriptionJSON` (on requests that pass the
field check), `CheckPrescriptionExpiry` and `UpdatePrescription` fail with a
not-found error and leave the world state as it was. When nothing is stored
under the patient id, each of them fails and leaves the world state as it was,
with the error "asset ... does not exist" of `ReadAsset` when the request
passes the field check and the stub does not fail. -/
theorem prescription_not_found (J : Codec Bytes) (ctx : Ctx) (w : World Bytes)
    (patientId prescriptionId : String) :
    (∀ asset, ReadAsset J ctx w patientId = .ok asset →
      (∀ q ∈ asset.Prescriptions, q.PrescriptionId ≠ prescriptionId) →
      (∀ dispensationJSON d, J.unmarshalDispensation dispensationJSON = .ok d →
        d.PatientId = patientId → d.PrescriptionId = prescriptionId →
        d.PatientId ≠ "" → d.PrescriptionId ≠ "" → d.PharmacistId ≠ "" →
        DispensePrescription J ctx w dispensationJSON = (.error "prescription not found", w)) ∧
      (∀ revocationJSON r, J.unmarshalRevocation revocationJSON = .ok r →
        r.PatientId = patientId → r.PrescriptionId = prescriptionId →
        r.PatientId ≠ "" → r.PrescriptionId ≠ "" → r.DoctorId ≠ "" →
        RevokePrescriptionJSON J ctx w revocationJSON = (.error "prescription not found", w)) ∧
      CheckPrescriptionExpiry J ctx w patientId prescriptionId
        = (.error "prescription not found", w) ∧
      (∀ prescriptionJSON np, J.unmarshalPrescription prescriptionJSON = .ok np →
        np.PrescriptionId = prescriptionId →
        UpdatePrescription J ctx w patientId prescriptionJSON
          = (.error ("prescription " ++ prescriptionId ++ " not found"), w))) ∧
    (getValue w patientId = none →
      (∀ dispensationJSON d, J.unmarshalDispensation dispensationJSON = .ok d →
        d.PatientId = patientId →
        ∃ e, DispensePrescription J ctx w dispensationJSON = (.error e, w) ∧
          (d.PatientId ≠ "" → d.PrescriptionId ≠ "" → d.PharmacistId ≠ "" →
            ctx.getErr patientId = none → e = "asset " ++ patientId ++ " does not exist")) ∧
      (∀ revocationJSON r, J.unmarshalRevocation revocationJSON = .ok r →
        r.PatientId = patientId →
        ∃ e, RevokePrescriptionJSON J ctx w revocationJSON = (.error e, w) ∧
          (r.PatientId ≠ "" → r.PrescriptionId ≠ "" → r.DoctorId ≠ "" →
            ctx.getErr patientId = none → e = "asset " ++ patientId ++ " does not exist")) ∧
      (∃ e, CheckPrescriptionExpiry J ctx w patientId prescriptionId = (.error e, w) ∧
        (ctx.getErr patientId = none → e = "asset " ++ patientId ++ " does not exist")) ∧
      (∀ prescriptionJSON, ∃ e,
        UpdatePrescription J ctx w patientId prescriptionJSON = (.error e, w) ∧
        (ctx.getErr patientId = none → e = "asset " ++ patientId ++ " does not exist"))) := by
  constructor
  · intro asset hread hnone
    refine ⟨?_, ?_, ?_, ?_⟩
    · intro dispensationJSON d hparse hpat hrx h1 h2 h3
      subst hpat hrx
      rw [DispensePrescription, hparse]
      simp only [h1, h2, h3, or_self, if_false, hread, dispenseLoop_none ctx _ _ _ hnone]
    · intro revocationJSON r hparse hpat hrx h1 h2 h3
      subst hpat hrx
      rw [RevokePrescriptionJSON, hparse]
      simp only [h1, h2, h3, or_self, if_false, hread, revokeLoop_none ctx _ _ _ hnone]
    · rw [CheckPrescriptionExpiry, hread]
      simp only [expiryLoop_none ctx _ _ hnone]
    · intro prescriptionJSON np hparse hid
      subst hid
      rw [UpdatePrescription, hread]
      simp only [hparse, updateLoop_none ctx _ _ hnone]
  · intro habsent
    obtain ⟨e, he, hmsg⟩ := ReadAsset_absent J ctx w patientId habsent
    refine ⟨?_, ?_, ?_, ?_⟩
    · intro dispensationJSON d hparse hpat
      subst hpat
      by_cases hid : d.PatientId = "" ∨ d.PrescriptionId = "" ∨ d.PharmacistId = ""
      · refine ⟨_, by rw [DispensePrescription, hparse]; simp only [hid, if_true]; rfl, ?_⟩
        intro h1 h2 h3
        rcases hid with h | h | h
        · exact absurd h h1
        · exact absurd h h2
        · exact absurd h h3
      · exact ⟨e, by rw [DispensePrescription, hparse]; simp only [hid, if_false, he],
          fun _ _ _ hg => hmsg hg⟩
    · intro revocationJSON r hparse hpat
      subst hpat
      by_cases hid : r.PatientId = "" ∨ r.PrescriptionId = "" ∨ r.DoctorId = ""
      · refine ⟨_, by rw [RevokePrescriptionJSON, hparse]; simp only [hid, if_true]; rfl, ?_⟩
        intro h1 h2 h3
        rcases hid with h | h | h
        · exact absurd h h1
        · exact absurd h h2
        · exact absurd h h3
      · exact ⟨e, by rw [RevokePrescriptionJSON, hparse]; simp only [hid, if_false, he],
          fun _ _ _ hg => hmsg hg⟩
    · exact ⟨e, by rw [CheckPrescriptionExpiry, he], hmsg⟩
    · intro prescriptionJSON
      exact ⟨e, by rw [UpdatePrescription, he], hmsg⟩

/-- C13 at a concrete input: the record of `P1` holds `RX1` only and `RX9` is
asked for. -/
theorem prescription_not_found_witness :
    CheckPrescriptionExpiry wireCodec ctx1 (worldP1 [rxStored "Active" "2024-04-01"]) "P1" "RX9"
      = (.error "prescription not found", worldP1 [rxStored "Active" "2024-04-01"]) ∧
    DispensePrescription wireCodec ctx1 (worldP1 [rxStored "Active" "2024-04-01"])
        (Wire.dispensation ⟨"P1", "RX9", "Ph1", ""⟩)
      = (.error "prescription not found", worldP1 [rxStored "Active" "2024-04-01"]) ∧
    ∃ e, UpdatePrescription wireCodec ctx1 (worldP1 [rxStored "Active" "2024-04-01"]) "P2"
        (Wire.prescription (rx "RX1" "Aspirin" "cold"))
      = (.error e, worldP1 [rxStored "Active" "2024-04-01"]) ∧
      (ctx1.getErr "P2" = none → e = "asset " ++ "P2" ++ " does not exist") :=
  ⟨((prescription_not_found wireCodec ctx1 (worldP1 [rxStored "Active" "2024-04-01"])
      "P1" "RX9").1 (recordP1 [rxStored "Active" "2024-04-01"]) rfl (by decide)).2.2.1,
   ((prescription_not_found wireCodec ctx1 (worldP1 [rxStored "Active" "2024-04-01"])
      "P1" "RX9").1 (recordP1 [rxStored "Active" "2024-04-01"]) rfl (by decide)).1
      (Wire.dispensation ⟨"P1", "RX9", "Ph1", ""⟩) ⟨"P1", "RX9", "Ph1", ""⟩
      rfl rfl rfl (by decide) (by decide) (by decide),
   ((prescription_not_found wireCodec ctx1 (worldP1 [rxStored "Active" "2024-04-01"])
      "P2" "RX1").2 (by decide)).2.2.2 (Wire.prescription (rx "RX1" "Aspirin" "cold"))⟩

/-! ## C14: an update replaces the whole entry -/

/-- C14: when the record holds a prescription with the payload's id, the first
such entry is stored as the decoded payload, field for field (so a field the
payload leaves empty is stored empty), except that `CreatedBy` is the stored
one, `TxID` the current transaction id and `Timestamp` now; the prescriptions
around it are unchanged and the record's `LastUpdated` is now. -/
theorem UpdatePrescription_full_replace (J : Codec Bytes) (ctx : Ctx) (w : World Bytes)
    (patientId : String) (prescriptionJSON : Bytes) (asset : Asset)
    (newPrescription : Prescription) (pre : List Prescription) (p : Prescription)
    (post : List Prescription)
    (hread : ReadAsset J ctx w patientId = .ok asset)
    (hparse : J.unmarshalPrescription prescriptionJSON = .ok newPrescription)
    (hsplit : asset.Prescriptions = pre ++ p :: post)
    (hpre : ∀ q ∈ pre, q.PrescriptionId ≠ newPrescription.PrescriptionId)
    (hp : p.PrescriptionId = newPrescription.PrescriptionId)
    (hput : ctx.putErr patientId = none) :
    (UpdatePrescription J ctx w patientId prescriptionJSON).1 = .ok () ∧
    ReadAsset J ctx (UpdatePrescription J ctx w patientId prescriptionJSON).2 patientId
      = .ok { DoctorId := asset.DoctorId, PatientName := asset.PatientName,
              PatientId := asset.PatientId, DateOfBirth := asset.DateOfBirth,
              LastUpdated := ctx.now.FormatRFC3339,
              Prescriptions := pre ++
                { PrescriptionId := newPrescription.PrescriptionId,
                  MedicationName := newPrescription.MedicationName,
                  Dosage := newPrescription.Dosage,
                  Instructions := newPrescription.Instructions,
                  Diagnosis := newPrescription.Diagnosis,
                  Status := newPrescription.Status,
                  ExpiryDate := newPrescription.ExpiryDate,
                  DispensingPharmacist := newPrescription.DispensingPharmacist,
                  DispensingTimestamp := newPrescription.DispensingTimestamp,
                  CreatedBy := p.CreatedBy,
                  TxID := ctx.txID,
                  Timestamp := ctx.now.FormatRFC3339 } :: post } := by
  have hget : ctx.getErr patientId = none := ((ReadAsset_ok_iff J ctx w _ _).mp hread).1
  rw [UpdatePrescription_at J ctx w patientId prescriptionJSON asset newPrescription pre p post
    hread hparse hsplit hpre hp, PutState_ok ctx w _ _ hput]
  exact ⟨rfl, ReadAsset_putValue_same J ctx w _ _ hget⟩

/-- C14 at a concrete input: a payload that carries only the id and a new
medication name replaces the dispensed prescription `RX1`. -/
theorem UpdatePrescription_full_replace_witness :
    (UpdatePrescription wireCodec ctx1
      (worldP1 [rx "RX0" "Aspirin" "cold", rxStored "Dispensed" "2024-04-01"]) "P1"
      (Wire.prescription ⟨"RX1", "Paracetamol", "", "", "", "", "D9", "", "", "", "", ""⟩)).1
      = .ok () ∧
    ReadAsset wireCodec ctx1 (UpdatePrescription wireCodec ctx1
      (worldP1 [rx "RX0" "Aspirin" "cold", rxStored "Dispensed" "2024-04-01"]) "P1"
      (Wire.prescription ⟨"RX1", "Paracetamol", "", "", "", "", "D9", "", "", "", "", ""⟩)).2
      "P1"
      = .ok ⟨"D1", "Pat One", "P1", "1990-01-01",
          [rx "RX0" "Aspirin" "cold",
            ⟨"RX1", "Paracetamol", "", "", "", "", "D1", "tx1", ctx1.now.FormatRFC3339,
              "", "", ""⟩],
          ctx1.now.FormatRFC3339⟩ :=
  UpdatePrescription_full_replace wireCodec ctx1
    (worldP1 [rx "RX0" "Aspirin" "cold", rxStored "Dispensed" "2024-04-01"]) "P1"
    (Wire.prescription ⟨"RX1", "Paracetamol", "", "", "", "", "D9", "", "", "", "", ""⟩)
    (recordP1 [rx "RX0" "Aspirin" "cold", rxStored "Dispensed" "2024-04-01"])
    ⟨"RX1", "Paracetamol", "", "", "", "", "D9", "", "", "", "", ""⟩
    [rx "RX0" "Aspirin" "cold"] (rxStored "Dispensed" "2024-04-01") []
    rfl rfl rfl (by decide) rfl rfl

/-! ## C20: filtering by status -/

/-- The filter loop appends the matching prescriptions, in order. -/
theorem statusLoop_eq (status : String) (ps filtered : List Prescription) :
    statusLoop status ps filtered
      = filtered ++ ps.filter (fun p => decide (p.Status = status)) := by
  induction ps generalizing filtered with
  | nil => simp [statusLoop]
  | cons p rest ih =>
    by_cases h : p.Status = status
    · simp [statusLoop, h, ih]
    · simp [statusLoop, h, ih]

/-- C20: for an existing record, `GetPrescriptionsByStatus` returns the stored
prescriptions whose `Status` is equal to the given string, unchanged and in
stored order, and the world state it was called on; when no status is
equal to the string, the result is the empty sequence and not an error. -/
theorem GetPrescriptionsByStatus_filter (J : Codec Bytes) (ctx : Ctx) (w : World Bytes)
    (patientId status : String) (asset : Asset)
    (hread : ReadAsset J ctx w patientId = .ok asset) :
    GetPrescriptionsByStatus J ctx w patientId status
      = (.ok (asset.Prescriptions.filter (fun p => decide (p.Status = status))), w) ∧
    ((∀ p ∈ asset.Prescriptions, p.Status ≠ status) →
      GetPrescriptionsByStatus J ctx w patientId status = (.ok [], w)) := by
  have heq : GetPrescriptionsByStatus J ctx w patientId status
      = (.ok (asset.Prescriptions.filter (fun p => decide (p.Status = status))), w) := by
    simp only [GetPrescriptionsByStatus, hread, statusLoop_eq, List.nil_append]
  refine ⟨heq, fun hnone => ?_⟩
  rw [heq]
  have hfil : asset.Prescriptions.filter (fun p => decide (p.Status = status)) = [] := by
    rw [List.filter_eq_nil_iff]
    intro p hp
    simpa using hnone p hp
  rw [hfil]

/-- C20 at concrete inputs: the status `Active` selects the two active
prescriptions of three, in order; the string `active` selects none. -/
theorem GetPrescriptionsByStatus_filter_witness :
    GetPrescriptionsByStatus wireCodec ctx1
        (worldP1 [rxStored "Active" "2024-04-01", rxStored "Dispensed" "2024-04-02",
          rxStored "Active" "2024-04-03"]) "P1" "Active"
      = (.ok [rxStored "Active" "2024-04-01", rxStored "Active" "2024-04-03"],
          worldP1 [rxStored "Active" "2024-04-01", rxStored "Dispensed" "2024-04-02",
            rxStored "Active" "2024-04-03"]) ∧
    GetPrescriptionsByStatus wireCodec ctx1
        (worldP1 [rxStored "Active" "2024-04-01", rxStored "Dispensed" "2024-04-02",
          rxStored "Active" "2024-04-03"]) "P1" "active"
      = (.ok [],
          worldP1 [rxStored "Active" "2024-04-01", rxStored "Dispensed" "2024-04-02",
            rxStored "Active" "2024-04-03"]) :=
  ⟨(GetPrescriptionsByStatus_filter wireCodec ctx1
      (worldP1 [rxStored "Active" "2024-04-01", rxStored "Dispensed" "2024-04-02",
        rxStored "Active" "2024-04-03"]) "P1" "Active"
      (recordP1 [rxStored "Active" "2024-04-01", rxStored "Dispensed" "2024-04-02",
        rxStored "Active" "2024-04-03"]) rfl).1,
   (GetPrescriptionsByStatus_filter wireCodec ctx1
      (worldP1 [rxStored "Active" "2024-04-01", rxStored "Dispensed" "2024-04-02",
        rxStored "Active" "2024-04-03"]) "P1" "active"
      (recordP1 [rxStored "Active" "2024-04-01", rxStored "Dispensed" "2024-04-02",
        rxStored "Active" "2024-04-03"]) rfl).2 (by decide)⟩

/-! ## C15, C16: medication interactions -/

/-- No list of the interaction table names a medication twice. -/
theorem knownInteractions_nodup (newMedication : String) (interactsWith : List String)
    (h : knownInteractions.lookup newMedication = some interactsWith) :
    interactsWith.Nodup := by
  simp only [knownInteractions, List.lookup] at h
  split at h
  · obtain rfl := Option.some.inj h
    decide
  · split at h
    · obtain rfl := Option.some.inj h
      decide
    · split at h
      · obtain rfl := Option.some.inj h
        decide
      · exact absurd h (by simp)

/-- The inner loop adds one warning when the medication of the prescription is
in the list, and nothing otherwise. -/
theorem interactorLoop_eq (newMedication : String) (p : Prescription)
    (interactsWith interactions : List String) (hnodup : interactsWith.Nodup) :
    interactorLoop newMedication p interactsWith interactions
      = interactions ++ (if p.MedicationName ∈ interactsWith
          then [interactionWarning newMedication p.MedicationName p.Diagnosis] else []) := by
  induction interactsWith generalizing interactions with
  | nil => simp [interactorLoop]
  | cons x rest ih =>
    have hx : x ∉ rest := (List.nodup_cons.mp hnodup).1
    have hrest : rest.Nodup := (List.nodup_cons.mp hnodup).2
    by_cases h : p.MedicationName = x
    · have hnot : p.MedicationName ∉ rest := h ▸ hx
      simp [interactorLoop, h, ih _ hrest, h ▸ hnot]
    · simp [interactorLoop, h, ih _ hrest]

/-- The outer loop adds, in order, one warning for each active prescription
whose medication is in the list. -/
theorem interactionLoop_eq (newMedication : String) (interactsWith : List String)
    (ps : List Prescription) (interactions : List String) (hnodup : interactsWith.Nodup) :
    interactionLoop newMedication interactsWith ps interactions
      = interactions ++ (ps.filter (fun p =>
          decide (p.Status = "Active" ∧ p.MedicationName ∈ interactsWith))).map
          (fun p => interactionWarning newMedication p.MedicationName p.Diagnosis) := by
  induction ps generalizing interactions with
  | nil => simp [interactionLoop]
  | cons p rest ih =>
    by_cases h1 : p.Status = "Active"
    · by_cases h2 : p.MedicationName ∈ interactsWith
      · simp [interactionLoop, h1, h2, ih, interactorLoop_eq _ _ _ _ hnodup]
      · simp [interactionLoop, h1, h2, ih, interactorLoop_eq _ _ _ _ hnodup]
    · simp [interactionLoop, h1, ih]

/-- C15 at the failing input: `CreateAsset` for patient `P1`, doctor `D1`, one
prescription with diagnosis "flu" and medication "Ibuprofen" stores it
`Active`; then `CheckMedicationInteractions` for `P1` and "Aspirin" returns no
warning, because the table lists Aspirin under Ibuprofen but not Ibuprofen
under Aspirin. The opposite query, "Ibuprofen" against an active Aspirin
prescription, does return the warning. -/
theorem interaction_scenario_no_warning :
    (CreateAsset wireCodec ctx1 []
      (Wire.asset ⟨"D1", "Pat One", "P1", "", [rx "RX1" "Ibuprofen" "flu"], ""⟩)).1 = .ok () ∧
    (storedAsset wireCodec
      (CreateAsset wireCodec ctx1 []
        (Wire.asset ⟨"D1", "Pat One", "P1", "", [rx "RX1" "Ibuprofen" "flu"], ""⟩)).2 "P1").map
      (fun a => a.Prescriptions.map (fun p => (p.MedicationName, p.Diagnosis, p.Status)))
      = some [("Ibuprofen", "flu", "Active")] ∧
    (CheckMedicationInteractions wireCodec ctx1
      (CreateAsset wireCodec ctx1 []
        (Wire.asset ⟨"D1", "Pat One", "P1", "", [rx "RX1" "Ibuprofen" "flu"], ""⟩)).2
      "P1" "Aspirin").1 = .ok [] ∧
    knownInteractions.lookup "Aspirin" = some ["Warfarin", "Heparin"] ∧
    knownInteractions.lookup "Ibuprofen" = some ["Aspirin", "Warfarin"] ∧
    (CheckMedicationInteractions wireCodec ctx1
      (CreateAsset wireCodec ctx1 []
        (Wire.asset ⟨"D1", "Pat One", "P1", "", [rx "RX1" "Aspirin" "flu"], ""⟩)).2
      "P1" "Ibuprofen").1
      = .ok ["Warning: Ibuprofen interacts with active medication Aspirin (prescribed for flu)"] :=
  ⟨rfl, by decide, rfl, by decide, by decide, rfl⟩

/-- C16: for an existing record, `CheckMedicationInteractions` returns, in
record order, one warning "Warning: <candidate> interacts with active
medication <name> (prescribed for <diagnosis>)" for each prescription that is
`Active` and whose medication name is in the table's list for the candidate,
and nothing else; so it returns no warning when the candidate is not a key of
the table, when no active prescription has a medication of the list, and for
the prescriptions that are not `Active`. It returns the world state it was
called on. -/
theorem CheckMedicationInteractions_warnings (J : Codec Bytes) (ctx : Ctx) (w : World Bytes)
    (patientId newMedication : String) (asset : Asset)
    (hread : ReadAsset J ctx w patientId = .ok asset) :
    CheckMedicationInteractions J ctx w patientId newMedication
      = (.ok ((asset.Prescriptions.filter (fun p =>
            decide (p.Status = "Active"
              ∧ p.MedicationName ∈ (knownInteractions.lookup newMedication).getD []))).map
          (fun p => "Warning: " ++ newMedication ++ " interacts with active medication "
            ++ p.MedicationName ++ " (prescribed for " ++ p.Diagnosis ++ ")")), w) ∧
    (knownInteractions.lookup newMedication = none →
      CheckMedicationInteractions J ctx w patientId newMedication = (.ok [], w)) ∧
    ((∀ p ∈ asset.Prescriptions, ¬ (p.Status = "Active"
        ∧ p.MedicationName ∈ (knownInteractions.lookup newMedication).getD [])) →
      CheckMedicationInteractions J ctx w patientId newMedication = (.ok [], w)) ∧
    ((∀ p ∈ asset.Prescriptions,
        p.Status = "Dispensed" ∨ p.Status = "Revoked" ∨ p.Status = "Expired") →
      CheckMedicationInteractions J ctx w patientId newMedication = (.ok [], w)) := by
  have heq : CheckMedicationInteractions J ctx w patientId newMedication
      = (.ok ((asset.Prescriptions.filter (fun p =>
            decide (p.Status = "Active"
              ∧ p.MedicationName ∈ (knownInteractions.lookup newMedication).getD []))).map
          (fun p => "Warning: " ++ newMedication ++ " interacts with active medication "
            ++ p.MedicationName ++ " (prescribed for " ++ p.Diagnosis ++ ")")), w) := by
    rw [CheckMedicationInteractions, hread]
    cases hl : knownInteractions.lookup newMedication with
    | none => simp
    | some interactsWith =>
      simp only [interactionLoop_eq _ _ _ _ (knownInteractions_nodup _ _ hl), List.nil_append,
        Option.getD_some, interactionWarning]
  have hnil : (∀ p ∈ asset.Prescriptions, ¬ (p.Status = "Active"
        ∧ p.MedicationName ∈ (knownInteractions.lookup newMedication).getD [])) →
      CheckMedicationInteractions J ctx w patientId newMedication = (.ok [], w) := by
    intro hnone
    rw [heq]
    have hfil : asset.Prescriptions.filter (fun p =>
        decide (p.Status = "Active"
          ∧ p.MedicationName ∈ (knownInteractions.lookup newMedication).getD [])) = [] := by
      rw [List.filter_eq_nil_iff]
      intro p hp
      simpa using hnone p hp
    rw [hfil]
    rfl
  refine ⟨heq, fun hkey => ?_, hnil, fun hterm => ?_⟩
  · apply hnil
    intro p _
    simp [hkey]
  · apply hnil
    intro p hp h
    rcases hterm p hp with h' | h' | h' <;> rw [h'] at h <;> exact absurd h.1 (by decide)

/-- C16 at concrete inputs: for the candidate "Ibuprofen", an active Warfarin
and an active Aspirin prescription give two warnings, in record order, and the
dispensed Aspirin prescription between them gives none. -/
theorem CheckMedicationInteractions_warnings_witness :
    CheckMedicationInteractions wireCodec ctx1
        (worldP1 [{ rx "RX1" "Warfarin" "clot" with Status := "Active" },
          { rx "RX2" "Aspirin" "pain" with Status := "Dispensed" },
          { rx "RX3" "Aspirin" "fever" with Status := "Active" }]) "P1" "Ibuprofen"
      = (.ok ["Warning: Ibuprofen interacts with active medication Warfarin (prescribed for clot)",
          "Warning: Ibuprofen interacts with active medication Aspirin (prescribed for fever)"],
        worldP1 [{ rx "RX1" "Warfarin" "clot" with Status := "Active" },
          { rx "RX2" "Aspirin" "pain" with Status := "Dispensed" },
          { rx "RX3" "Aspirin" "fever" with Status := "Active" }]) :=
  (CheckMedicationInteractions_warnings wireCodec ctx1
    (worldP1 [{ rx "RX1" "Warfarin" "clot" with Status := "Active" },
      { rx "RX2" "Aspirin" "pain" with Status := "Dispensed" },
      { rx "RX3" "Aspirin" "fever" with Status := "Active" }]) "P1" "Ibuprofen"
    (recordP1 [{ rx "RX1" "Warfarin" "clot" with Status := "Active" },
      { rx "RX2" "Aspirin" "pain" with Status := "Dispensed" },
      { rx "RX3" "Aspirin" "fever" with Status := "Active" }]) rfl).1

/-! ## Full scans -/

/-- A scan with empty bounds reads the whole key space. -/
theorem GetStateByRange_all (ctx : Ctx) (w : World Bytes) :
    GetStateByRange ctx w "" ""
      = match ctx.rangeErr with
        | some e => .error e
        | none => .ok (fullScan ctx w) := by
  unfold GetStateByRange fullScan
  cases ctx.rangeErr with
  | some e => rfl
  | none => simp

/-- The prescriptions a scan reads, entry by entry. -/
theorem scannedPrescriptions_cons (J : Codec Bytes) (ctx : Ctx) (kv : String × Bytes)
    (w : World Bytes) :
    scannedPrescriptions J ctx (kv :: w)
      = (match ctx.nextErr kv.1 with
          | some _ => []
          | none =>
            match J.unmarshalAsset kv.2 with
            | .ok asset => asset.Prescriptions
            | .error _ => []) ++ scannedPrescriptions J ctx w := by
  unfold scannedPrescriptions scannedAssets
  cases hn : ctx.nextErr kv.1 with
  | some e => simp [List.filterMap_cons, hn]
  | none =>
    cases hu : J.unmarshalAsset kv.2 with
    | ok asset => simp [List.filterMap_cons, hu, hn]
    | error e => simp [List.filterMap_cons, hu, hn]

/-- The entries of a full scan, entry by entry. -/
theorem fullScan_cons (ctx : Ctx) (kv : String × Bytes) (w : World Bytes) :
    fullScan ctx (kv :: w)
      = (match ctx.nextErr kv.1 with
          | some e => .error e
          | none => .ok kv) :: fullScan ctx w := rfl

/-- The scan loop of the analytics counts the prescriptions the scan reads,
one after the other. -/
theorem analyticsLoop_fullScan (J : Codec Bytes) (ctx : Ctx) (w : World Bytes)
    (analytics : Analytics) :
    analyticsLoop J (fullScan ctx w) analytics
      = (scannedPrescriptions J ctx w).foldl countPrescription analytics := by
  induction w generalizing analytics with
  | nil => rfl
  | cons kv rest ih =>
    rw [fullScan_cons, scannedPrescriptions_cons]
    cases hn : ctx.nextErr kv.1 with
    | some e => simp only [analyticsLoop, ih, List.nil_append]
    | none =>
      cases hu : J.unmarshalAsset kv.2 with
      | error e => simp only [analyticsLoop, hu, ih, List.nil_append]
      | ok asset => simp only [analyticsLoop, hu, ih, List.foldl_append]

/-- What counting one prescription does to each field of the analytics. -/
theorem countPrescription_fields (analytics : Analytics) (p : Prescription) :
    (countPrescription analytics p).totalPrescriptions = analytics.totalPrescriptions + 1 ∧
    (countPrescription analytics p).activeCount
      = analytics.activeCount + (if p.Status = "Active" then 1 else 0) ∧
    (countPrescription analytics p).dispensedCount
      = analytics.dispensedCount + (if p.Status = "Dispensed" then 1 else 0) ∧
    (countPrescription analytics p).expiryCount
      = analytics.expiryCount + (if p.Status = "Expired" then 1 else 0) ∧
    (countPrescription analytics p).medicationFrequency
      = freqIncr analytics.medicationFrequency p.MedicationName ∧
    (countPrescription analytics p).diagnosisFrequency
      = freqIncr analytics.diagnosisFrequency p.Diagnosis ∧
    (countPrescription analytics p).averageDispenseTime = analytics.averageDispenseTime := by
  unfold countPrescription
  by_cases h1 : p.Status = "Active"
  · simp [h1]
  · by_cases h2 : p.Status = "Dispensed"
    · simp [h2]
    · by_cases h3 : p.Status = "Expired"
      · simp [h3]
      · simp [h1, h2, h3]

/-- The counters after counting a list of prescriptions. -/
theorem foldl_countPrescription_counts (ps : List Prescription) (analytics : Analytics) :
    (ps.foldl countPrescription analytics).totalPrescriptions
      = analytics.totalPrescriptions + ps.length ∧
    (ps.foldl countPrescription analytics).activeCount
      = analytics.activeCount + ps.countP (fun p => decide (p.Status = "Active")) ∧
    (ps.foldl countPrescription analytics).dispensedCount
      = analytics.dispensedCount + ps.countP (fun p => decide (p.Status = "Dispensed")) ∧
    (ps.foldl countPrescription analytics).expiryCount
      = analytics.expiryCount + ps.countP (fun p => decide (p.Status = "Expired")) ∧
    (ps.foldl countPrescription analytics).averageDispenseTime
      = analytics.averageDispenseTime := by
  induction ps generalizing analytics with
  | nil => simp
  | cons p rest ih =>
    obtain ⟨h1, h2, h3, h4, _, _, h7⟩ := countPrescription_fields analytics p
    obtain ⟨i1, i2, i3, i4, i5⟩ := ih (countPrescription analytics p)
    simp only [List.foldl_cons, List.length_cons, List.countP_cons, decide_eq_true_eq]
    rw [i1, i2, i3, i4, i5, h1, h2, h3, h4, h7]
    refine ⟨by omega, by omega, by omega, by omega, rfl⟩

/-- Every prescription is active, dispensed, expired or of another status. -/
theorem length_eq_status_counts (ps : List Prescription) :
    ps.length = ps.countP (fun p => decide (p.Status = "Active"))
      + ps.countP (fun p => decide (p.Status = "Dispensed"))
      + ps.countP (fun p => decide (p.Status = "Expired"))
      + ps.countP (fun p => decide (p.Status ≠ "Active" ∧ p.Status ≠ "Dispensed"
          ∧ p.Status ≠ "Expired")) := by
  induction ps with
  | nil => simp
  | cons p rest ih =>
    simp only [List.length_cons, List.countP_cons, decide_eq_true_eq, ih]
    by_cases h1 : p.Status = "Active"
    · simp [h1]
      omega
    · by_cases h2 : p.Status = "Dispensed"
      · simp [h2]
        omega
      · by_cases h3 : p.Status = "Expired"
        · simp [h3]
          omega
        · simp [h1, h2, h3]
          omega

/-- `GetPrescriptionAnalytics` when the scan can be opened. -/
theorem GetPrescriptionAnalytics_eq (J : Codec Bytes) (ctx : Ctx) (w : World Bytes)
    (startDate endDate : String) (hrange : ctx.rangeErr = none) :
    GetPrescriptionAnalytics J ctx w startDate endDate
      = (.ok ((scannedPrescriptions J ctx w).foldl countPrescription ⟨0, 0, 0, 0, [], [], 0⟩),
          w) := by
  simp only [GetPrescriptionAnalytics, GetStateByRange_all, hrange, analyticsLoop_fullScan]

/-! ## C17: the counters of the analytics -/

/-- C17: when the scan can be opened, `GetPrescriptionAnalytics` returns, for
any `startDate` and `endDate`, the same result, in which `totalPrescriptions`
is the number of prescriptions of the records the scan reads and `activeCount`,
`dispensedCount`, `expiryCount` are the numbers of those with status `Active`,
`Dispensed`, `Expired`; a prescription of any other status, such as `Revoked`,
counts toward the total only. It returns the world state it was called on. -/
theorem GetPrescriptionAnalytics_counts (J : Codec Bytes) (ctx : Ctx) (w : World Bytes)
    (startDate endDate : String) (hrange : ctx.rangeErr = none) :
    ∃ r, GetPrescriptionAnalytics J ctx w startDate endDate = (.ok r, w) ∧
      r.totalPrescriptions = (scannedPrescriptions J ctx w).length ∧
      r.activeCount
        = (scannedPrescriptions J ctx w).countP (fun p => decide (p.Status = "Active")) ∧
      r.dispensedCount
        = (scannedPrescriptions J ctx w).countP (fun p => decide (p.Status = "Dispensed")) ∧
      r.expiryCount
        = (scannedPrescriptions J ctx w).countP (fun p => decide (p.Status = "Expired")) ∧
      r.totalPrescriptions = r.activeCount + r.dispensedCount + r.expiryCount
        + (scannedPrescriptions J ctx w).countP (fun p =>
            decide (p.Status ≠ "Active" ∧ p.Status ≠ "Dispensed" ∧ p.Status ≠ "Expired")) ∧
      ∀ otherStart otherEnd,
        GetPrescriptionAnalytics J ctx w otherStart otherEnd = (.ok r, w) := by
  obtain ⟨h1, h2, h3, h4, _⟩ :=
    foldl_countPrescription_counts (scannedPrescriptions J ctx w) ⟨0, 0, 0, 0, [], [], 0⟩
  refine ⟨_, GetPrescriptionAnalytics_eq J ctx w startDate endDate hrange, ?_, ?_, ?_, ?_, ?_,
    fun s e => GetPrescriptionAnalytics_eq J ctx w s e hrange⟩
  · rw [h1]; simp
  · rw [h2]; simp
  · rw [h3]; simp
  · rw [h4]; simp
  · rw [h1, h2, h3, h4]
    simp only [Nat.zero_add]
    exact length_eq_status_counts _

/-- C17 at the input of the spec: record `A` with two active prescriptions and
a dispensed one, record `B` with an expired one, give total 4, active 2,
dispensed 1, expired 1. -/
theorem GetPrescriptionAnalytics_counts_witness :
    ∃ r, GetPrescriptionAnalytics wireCodec ctx1 worldAB "2024-01-01" "2024-12-31"
        = (.ok r, worldAB) ∧
      r.totalPrescriptions = 4 ∧ r.activeCount = 2 ∧ r.dispensedCount = 1 ∧
      r.expiryCount = 1 := by
  obtain ⟨r, h, h1, h2, h3, h4, _, _⟩ :=
    GetPrescriptionAnalytics_counts wireCodec ctx1 worldAB "2024-01-01" "2024-12-31" rfl
  exact ⟨r, h, h1.trans (by decide), h2.trans (by decide), h3.trans (by decide),
    h4.trans (by decide)⟩

/-! ## C18: the frequency tables of the analytics -/

/-- Adding one to the count of a key adds one to what the map gives for that
key and leaves the other keys alone. -/
theorem freqGet_freqIncr (m : List (String × Nat)) (key k : String) :
    freqGet (freqIncr m key) k = freqGet m k + (if k = key then 1 else 0) := by
  induction m with
  | nil =>
    by_cases h : k = key
    · simp [freqGet, freqIncr, List.lookup, h]
    · have hb : (k == key) = false := by simpa using h
      simp [freqGet, freqIncr, List.lookup, h, hb]
  | cons e rest ih =>
    obtain ⟨k0, c⟩ := e
    unfold freqGet at ih ⊢
    by_cases h0 : k0 = key
    · subst h0
      by_cases h : k = k0
      · simp [freqIncr, List.lookup, h]
      · have hb : (k == k0) = false := by simpa using h
        simp [freqIncr, List.lookup, h, hb]
    · by_cases h : k = k0
      · subst h
        have hne : ¬ k = key := h0
        simp [freqIncr, List.lookup, h0, hne]
      · have hb : (k == k0) = false := by simpa using h
        simp only [freqIncr, h0, if_false, List.lookup, hb]
        exact ih

/-- Adding one to the count of a key keeps every count positive. -/
theorem freqIncr_pos (m : List (String × Nat)) (key : String)
    (hpos : ∀ e ∈ m, 0 < e.2) : ∀ e ∈ freqIncr m key, 0 < e.2 := by
  induction m with
  | nil =>
    intro e he
    simp only [freqIncr, List.mem_singleton] at he
    subst he
    exact Nat.one_pos
  | cons e0 rest ih =>
    obtain ⟨k0, c⟩ := e0
    intro e he
    by_cases h0 : k0 = key
    · simp only [freqIncr, h0, if_true, List.mem_cons] at he
      rcases he with he | he
      · subst he
        exact Nat.succ_pos _
      · exact hpos e (List.mem_cons_of_mem _ he)
    · simp only [freqIncr, h0, if_false, List.mem_cons] at he
      rcases he with he | he
      · subst he
        exact hpos _ (List.mem_cons_self _ _)
      · exact ih (fun e' he' => hpos e' (List.mem_cons_of_mem _ he')) e he

/-- Adding one to the count of a key adds one to the sum of the counts. -/
theorem freqIncr_sum (m : List (String × Nat)) (key : String) :
    ((freqIncr m key).map Prod.snd).sum = (m.map Prod.snd).sum + 1 := by
  induction m with
  | nil => simp [freqIncr]
  | cons e0 rest ih =>
    obtain ⟨k0, c⟩ := e0
    by_cases h0 : k0 = key
    · simp [freqIncr, h0]
      omega
    · simp [freqIncr, h0, ih]
      omega

/-- Adding one to the count of a key keeps the keys distinct. -/
theorem freqIncr_keys (m : List (String × Nat)) (key : String)
    (hnodup : (m.map Prod.fst).Nodup) : ((freqIncr m key).map Prod.fst).Nodup := by
  have hkeys : ∀ m : List (String × Nat), ∀ k, k ∈ (freqIncr m key).map Prod.fst →
      k ∈ m.map Prod.fst ∨ k = key := by
    intro m
    induction m with
    | nil => intro k hk; right; simpa [freqIncr] using hk
    | cons e0 rest ih =>
      obtain ⟨k0, c⟩ := e0
      intro k hk
      by_cases h0 : k0 = key
      · left; simpa [freqIncr, h0] using hk
      · simp only [freqIncr, h0, if_false, List.map_cons, List.mem_cons] at hk
        rcases hk with hk | hk
        · left; simp [hk]
        · rcases ih k hk with h | h
          · left; simp [h]
          · right; exact h
  induction m with
  | nil => simp [freqIncr]
  | cons e0 rest ih =>
    obtain ⟨k0, c⟩ := e0
    have hk0 : k0 ∉ rest.map Prod.fst := (List.nodup_cons.mp hnodup).1
    have hrest : (rest.map Prod.fst).Nodup := (List.nodup_cons.mp hnodup).2
    by_cases h0 : k0 = key
    · simpa [freqIncr, h0] using hnodup
    · simp only [freqIncr, h0, if_false, List.map_cons, List.nodup_cons]
      refine ⟨fun hmem => ?_, ih hrest⟩
      rcases hkeys rest k0 hmem with h | h
      · exact hk0 h
      · exact h0 h

/-- A count that a map gives for a key is the count of one of its entries. -/
theorem lookup_mem (m : List (String × Nat)) (key : String) (c : Nat)
    (h : m.lookup key = some c) : (key, c) ∈ m := by
  induction m with
  | nil => simp [List.lookup] at h
  | cons e0 rest ih =>
    obtain ⟨k0, c0⟩ := e0
    by_cases h0 : key = k0
    · subst h0
      simp only [List.lookup, beq_self_eq_true, Option.some.injEq] at h
      subst h
      exact List.mem_cons_self _ _
    · have hb : (key == k0) = false := by simpa using h0
      simp only [List.lookup, hb] at h
      exact List.mem_cons_of_mem _ (ih h)

/-- The frequency tables after counting a list of prescriptions. -/
theorem foldl_countPrescription_freq (ps : List Prescription) (analytics : Analytics) :
    (∀ k, freqGet (ps.foldl countPrescription analytics).medicationFrequency k
      = freqGet analytics.medicationFrequency k
        + ps.countP (fun p => decide (p.MedicationName = k))) ∧
    (∀ k, freqGet (ps.foldl countPrescription analytics).diagnosisFrequency k
      = freqGet analytics.diagnosisFrequency k
        + ps.countP (fun p => decide (p.Diagnosis = k))) ∧
    ((∀ e ∈ analytics.medicationFrequency, 0 < e.2) →
      ∀ e ∈ (ps.foldl countPrescription analytics).medicationFrequency, 0 < e.2) ∧
    ((∀ e ∈ analytics.diagnosisFrequency, 0 < e.2) →
      ∀ e ∈ (ps.foldl countPrescription analytics).diagnosisFrequency, 0 < e.2) ∧
    (((ps.foldl countPrescription analytics).medicationFrequency.map Prod.snd).sum
      = (analytics.medicationFrequency.map Prod.snd).sum + ps.length) ∧
    (((ps.foldl countPrescription analytics).diagnosisFrequency.map Prod.snd).sum
      = (analytics.diagnosisFrequency.map Prod.snd).sum + ps.length) ∧
    ((analytics.medicationFrequency.map Prod.fst).Nodup →
      ((ps.foldl countPrescription analytics).medicationFrequency.map Prod.fst).Nodup) ∧
    ((analytics.diagnosisFrequency.map Prod.fst).Nodup →
      ((ps.foldl countPrescription analytics).diagnosisFrequency.map Prod.fst).Nodup) := by
  induction ps generalizing analytics with
  | nil => simp
  | cons p rest ih =>
    obtain ⟨_, _, _, _, hm, hd, _⟩ := countPrescription_fields analytics p
    obtain ⟨i1, i2, i3, i4, i5, i6, i7, i8⟩ := ih (countPrescription analytics p)
    simp only [List.foldl_cons, List.length_cons, List.countP_cons, decide_eq_true_eq]
    refine ⟨fun k => ?_, fun k => ?_, fun hpos => ?_, fun hpos => ?_, ?_, ?_,
      fun hnodup => ?_, fun hnodup => ?_⟩
    · rw [i1 k, hm, freqGet_freqIncr]
      by_cases h : p.MedicationName = k
      · simp [h]; omega
      · have h' : ¬ k = p.MedicationName := fun e => h e.symm
        simp [h, h']
    · rw [i2 k, hd, freqGet_freqIncr]
      by_cases h : p.Diagnosis = k
      · simp [h]; omega
      · have h' : ¬ k = p.Diagnosis := fun e => h e.symm
        simp [h, h']
    · exact i3 (hm ▸ freqIncr_pos _ _ hpos)
    · exact i4 (hd ▸ freqIncr_pos _ _ hpos)
    · rw [i5, hm, freqIncr_sum]; omega
    · rw [i6, hd, freqIncr_sum]; omega
    · exact i7 (hm ▸ freqIncr_keys _ _ hnodup)
    · exact i8 (hd ▸ freqIncr_keys _ _ hnodup)

/-- C18: when the scan can be opened, the analytics hold two frequency tables
in which the count of a medication name, resp. of a diagnosis, is the number of
prescriptions of the records the scan reads that carry it; no key has the count
zero, no key occurs twice, and the counts of each table add up to
`totalPrescriptions`. -/
theorem GetPrescriptionAnalytics_frequencies (J : Codec Bytes) (ctx : Ctx) (w : World Bytes)
    (startDate endDate : String) (hrange : ctx.rangeErr = none) :
    ∃ r, GetPrescriptionAnalytics J ctx w startDate endDate = (.ok r, w) ∧
      (∀ m, freqGet r.medicationFrequency m
        = (scannedPrescriptions J ctx w).countP (fun p => decide (p.MedicationName = m))) ∧
      (∀ d, freqGet r.diagnosisFrequency d
        = (scannedPrescriptions J ctx w).countP (fun p => decide (p.Diagnosis = d))) ∧
      (∀ m c, r.medicationFrequency.lookup m = some c → 0 < c) ∧
      (∀ d c, r.diagnosisFrequency.lookup d = some c → 0 < c) ∧
      (r.medicationFrequency.map Prod.fst).Nodup ∧
      (r.diagnosisFrequency.map Prod.fst).Nodup ∧
      (r.medicationFrequency.map Prod.snd).sum = r.totalPrescriptions ∧
      (r.diagnosisFrequency.map Prod.snd).sum = r.totalPrescriptions := by
  obtain ⟨f1, f2, f3, f4, f5, f6, f7, f8⟩ :=
    foldl_countPrescription_freq (scannedPrescriptions J ctx w) ⟨0, 0, 0, 0, [], [], 0⟩
  obtain ⟨h1, _⟩ :=
    foldl_countPrescription_counts (scannedPrescriptions J ctx w) ⟨0, 0, 0, 0, [], [], 0⟩
  refine ⟨_, GetPrescriptionAnalytics_eq J ctx w startDate endDate hrange, ?_, ?_, ?_, ?_,
    f7 (by simp), f8 (by simp), ?_, ?_⟩
  · intro m
    rw [f1 m]
    simp [freqGet, List.lookup]
  · intro d
    rw [f2 d]
    simp [freqGet, List.lookup]
  · intro m c hc
    exact f3 (by simp) (m, c) (lookup_mem _ _ _ hc)
  · intro d c hc
    exact f4 (by simp) (d, c) (lookup_mem _ _ _ hc)
  · rw [f5, h1]; simp
  · rw [f6, h1]; simp

/-- C18 at a concrete input: in `worldAB` the medication Aspirin is prescribed
twice, Heparin never, the diagnosis "pain" is given twice, and the four counts
of the medication table add up to the total. -/
theorem GetPrescriptionAnalytics_frequencies_witness :
    ∃ r, GetPrescriptionAnalytics wireCodec ctx1 worldAB "" "" = (.ok r, worldAB) ∧
      freqGet r.medicationFrequency "Aspirin" = 2 ∧
      freqGet r.medicationFrequency "Heparin" = 0 ∧
      freqGet r.diagnosisFrequency "pain" = 2 ∧
      (r.medicationFrequency.map Prod.snd).sum = r.totalPrescriptions := by
  obtain ⟨r, h, h1, h2, _, _, _, _, h7, _⟩ :=
    GetPrescriptionAnalytics_frequencies wireCodec ctx1 worldAB "" "" rfl
  exact ⟨r, h, (h1 "Aspirin").trans (by decide), (h1 "Heparin").trans (by decide),
    (h2 "pain").trans (by decide), h7⟩

/-! ## C19: scans skip what does not decode -/

/-- Dropping the malformed keys, entry by entry. -/
theorem dropMalformed_cons (J : Codec Bytes) (kv : String × Bytes) (w : World Bytes) :
    dropMalformed J (kv :: w)
      = match J.unmarshalAsset kv.2 with
        | .ok _ => kv :: dropMalformed J w
        | .error _ => dropMalformed J w := by
  unfold dropMalformed
  cases hu : J.unmarshalAsset kv.2 with
  | ok a => simp [List.filter_cons, hu, Except.isOk, Except.toBool]
  | error e => simp [List.filter_cons, hu, Except.isOk, Except.toBool]

/-- The scan loop of the analytics does not see the malformed keys. -/
theorem analyticsLoop_dropMalformed (J : Codec Bytes) (ctx : Ctx) (w : World Bytes)
    (analytics : Analytics) :
    analyticsLoop J (fullScan ctx (dropMalformed J w)) analytics
      = analyticsLoop J (fullScan ctx w) analytics := by
  induction w generalizing analytics with
  | nil => rfl
  | cons kv rest ih =>
    rw [dropMalformed_cons, fullScan_cons]
    cases hu : J.unmarshalAsset kv.2 with
    | error e =>
      cases hn : ctx.nextErr kv.1 with
      | some e' => simp only [analyticsLoop, ih]
      | none => simp only [analyticsLoop, hu, ih]
    | ok asset =>
      simp only [fullScan_cons]
      cases hn : ctx.nextErr kv.1 with
      | some e' => simp only [analyticsLoop, ih]
      | none => simp only [analyticsLoop, hu, ih]

/-- The scan loop of the dispense history does not see the malformed keys. -/
theorem dispenseHistoryLoop_dropMalformed (J : Codec Bytes) (ctx : Ctx) (w : World Bytes)
    (pharmacistId : String) (dispensed : List DispensedPrescription) :
    dispenseHistoryLoop J pharmacistId (fullScan ctx (dropMalformed J w)) dispensed
      = dispenseHistoryLoop J pharmacistId (fullScan ctx w) dispensed := by
  induction w generalizing dispensed with
  | nil => rfl
  | cons kv rest ih =>
    rw [dropMalformed_cons, fullScan_cons]
    cases hu : J.unmarshalAsset kv.2 with
    | error e =>
      cases hn : ctx.nextErr kv.1 with
      | some e' => simp only [dispenseHistoryLoop, ih]
      | none => simp only [dispenseHistoryLoop, hu, ih]
    | ok asset =>
      simp only [fullScan_cons]
      cases hn : ctx.nextErr kv.1 with
      | some e' => simp only [dispenseHistoryLoop, ih]
      | none => simp only [dispenseHistoryLoop, hu, ih]

/-- The scan loop of the per-doctor view does not see the malformed keys, when
`Next()` does not fail on them. -/
theorem doctorLoop_dropMalformed (J : Codec Bytes) (ctx : Ctx) (w : World Bytes)
    (doctorId : String) (results : List DoctorPrescription)
    (hnext : ∀ kv ∈ w, (J.unmarshalAsset kv.2).isOk = false → ctx.nextErr kv.1 = none) :
    doctorLoop J ctx doctorId (fullScan ctx (dropMalformed J w)) results
      = doctorLoop J ctx doctorId (fullScan ctx w) results := by
  induction w generalizing results with
  | nil => rfl
  | cons kv rest ih =>
    have hrest : ∀ kv' ∈ rest, (J.unmarshalAsset kv'.2).isOk = false → ctx.nextErr kv'.1 = none :=
      fun kv' h => hnext kv' (List.mem_cons_of_mem _ h)
    rw [dropMalformed_cons, fullScan_cons]
    cases hu : J.unmarshalAsset kv.2 with
    | error e =>
      have hn : ctx.nextErr kv.1 = none :=
        hnext kv (List.mem_cons_self _ _) (by simp [hu, Except.isOk, Except.toBool])
      simp only [hn, doctorLoop, hu, ih _ hrest]
    | ok asset =>
      simp only [fullScan_cons]
      cases hn : ctx.nextErr kv.1 with
      | some e' => simp only [doctorLoop]
      | none => simp only [doctorLoop, hu, ih _ hrest]

/-- C19: on the world state without the keys whose bytes do not decode to a
record, `GetPrescriptionAnalytics` and `GetDispenseHistory` return the same
result as on the world state itself, and so does `GetPrescriptionsByDoctor`
when the iterator's `Next()` does not fail on such a key. -/
theorem scans_skip_malformed (J : Codec Bytes) (ctx : Ctx) (w : World Bytes) :
    (∀ startDate endDate,
      (GetPrescriptionAnalytics J ctx (dropMalformed J w) startDate endDate).1
        = (GetPrescriptionAnalytics J ctx w startDate endDate).1) ∧
    (∀ pharmacistId,
      (GetDispenseHistory J ctx (dropMalformed J w) pharmacistId).1
        = (GetDispenseHistory J ctx w pharmacistId).1) ∧
    ((∀ kv ∈ w, (J.unmarshalAsset kv.2).isOk = false → ctx.nextErr kv.1 = none) →
      ∀ doctorId,
        (GetPrescriptionsByDoctor J ctx (dropMalformed J w) doctorId).1
          = (GetPrescriptionsByDoctor J ctx w doctorId).1) := by
  refine ⟨fun startDate endDate => ?_, fun pharmacistId => ?_, fun hnext doctorId => ?_⟩
  · simp only [GetPrescriptionAnalytics, GetStateByRange_all]
    cases ctx.rangeErr with
    | some e => rfl
    | none => simp only [analyticsLoop_dropMalformed]
  · simp only [GetDispenseHistory, GetStateByRange_all]
    cases ctx.rangeErr with
    | some e => rfl
    | none => simp only [dispenseHistoryLoop_dropMalformed]
  · simp only [GetPrescriptionsByDoctor, GetStateByRange_all]
    cases ctx.rangeErr with
    | some e => rfl
    | none =>
      simp only [doctorLoop_dropMalformed J ctx w doctorId [] hnext]
      cases doctorLoop J ctx doctorId (fullScan ctx w) [] with
      | error e => rfl
      | ok results => by_cases h : results.length = 0 <;> simp [h]

/-- C19 at a concrete input: `worldABmalformed` without its malformed key is
`worldAB`, and the three scans return on it what they return on `worldAB`. -/
theorem scans_skip_malformed_witness :
    dropMalformed wireCodec worldABmalformed = worldAB ∧
    (GetPrescriptionAnalytics wireCodec ctx1 (dropMalformed wireCodec worldABmalformed)
        "" "").1
      = (GetPrescriptionAnalytics wireCodec ctx1 worldABmalformed "" "").1 ∧
    (GetDispenseHistory wireCodec ctx1 (dropMalformed wireCodec worldABmalformed) "").1
      = (GetDispenseHistory wireCodec ctx1 worldABmalformed "").1 ∧
    (GetPrescriptionsByDoctor wireCodec ctx1 (dropMalformed wireCodec worldABmalformed) "D1").1
      = (GetPrescriptionsByDoctor wireCodec ctx1 worldABmalformed "D1").1 :=
  ⟨by decide,
   (scans_skip_malformed wireCodec ctx1 worldABmalformed).1 "" "",
   (scans_skip_malformed wireCodec ctx1 worldABmalformed).2.1 "",
   (scans_skip_malformed wireCodec ctx1 worldABmalformed).2.2 (fun _ _ _ => rfl) "D1"⟩

/-! ## C21, C22: the caller's role -/

/-- C21: `GetUserRole` returns the role `r` if and only if the MSP id and the
`role` attribute can be read, the attribute is present with value `r`, and the
pair is (`Org1MSP`, `doctor`) or (`Org2MSP`, `pharmacist`); in every other
case, an unknown organization, a role that does not fit the organization or an
absent attribute among them, it fails. -/
theorem GetUserRole_iff (identity : ClientIdentity) :
    (∀ r, GetUserRole identity = .ok r ↔
      ∃ mspID, identity.GetMSPID = .ok mspID
        ∧ identity.GetAttributeValue "role" = .ok (some r)
        ∧ ((mspID = "Org1MSP" ∧ r = "doctor") ∨ (mspID = "Org2MSP" ∧ r = "pharmacist"))) ∧
    ((¬ ∃ mspID r, identity.GetMSPID = .ok mspID
        ∧ identity.GetAttributeValue "role" = .ok (some r)
        ∧ ((mspID = "Org1MSP" ∧ r = "doctor") ∨ (mspID = "Org2MSP" ∧ r = "pharmacist"))) →
      ∃ e, GetUserRole identity = .error e) := by
  have hiff : ∀ r, GetUserRole identity = .ok r ↔
      ∃ mspID, identity.GetMSPID = .ok mspID
        ∧ identity.GetAttributeValue "role" = .ok (some r)
        ∧ ((mspID = "Org1MSP" ∧ r = "doctor") ∨ (mspID = "Org2MSP" ∧ r = "pharmacist")) := by
    intro r
    unfold GetUserRole
    cases hm : identity.GetMSPID with
    | error e => simp
    | ok mspID =>
      cases ha : identity.GetAttributeValue "role" with
      | error e => simp
      | ok found =>
        cases found with
        | none => simp
        | some role =>
          by_cases h1 : mspID = "Org1MSP"
          · subst h1
            by_cases hr : role = "doctor"
            · subst hr
              simp
              exact fun h => h.symm
            · simp [hr]
              intro h1 h2
              exact hr (h1 ▸ h2)
          · by_cases h2 : mspID = "Org2MSP"
            · subst h2
              by_cases hr : role = "pharmacist"
              · subst hr
                simp
                exact fun h => h.symm
              · simp [hr]
                intro h1 h2
                exact hr (h1 ▸ h2)
            · simp [h1, h2]
  refine ⟨hiff, fun hnot => ?_⟩
  cases hres : GetUserRole identity with
  | error e => exact ⟨e, rfl⟩
  | ok r =>
    obtain ⟨mspID, h1, h2, h3⟩ := (hiff r).mp hres
    exact absurd ⟨mspID, r, h1, h2, h3⟩ hnot

/-- C21 at concrete callers: the doctor of `Org1MSP` gets the role `doctor`, and
a caller of `Org1MSP` whose role attribute is `pharmacist` gets an error. -/
theorem GetUserRole_iff_witness :
    GetUserRole doctorD1 = .ok "doctor" ∧
    ∃ e, GetUserRole ⟨.ok "Org1MSP", .ok "Ph1", fun _ => .ok (some "pharmacist")⟩ = .error e :=
  ⟨((GetUserRole_iff doctorD1).1 "doctor").mpr ⟨"Org1MSP", rfl, rfl, Or.inl ⟨rfl, rfl⟩⟩,
   (GetUserRole_iff ⟨.ok "Org1MSP", .ok "Ph1", fun _ => .ok (some "pharmacist")⟩).2 (by
     rintro ⟨mspID, r, hm, hr, h⟩
     have hm1 : mspID = "Org1MSP" := (Except.ok.inj hm).symm
     have hr1 : r = "pharmacist" := (Option.some.inj (Except.ok.inj hr)).symm
     subst hm1 hr1
     simp at h)⟩

/-- The filter loop of the doctor view appends the caller's prescriptions, in order. -/
theorem callerLoop_eq (callerId : String) (ps filtered : List Prescription) :
    callerLoop callerId ps filtered
      = filtered ++ ps.filter (fun p => decide (p.CreatedBy = callerId)) := by
  induction ps generalizing filtered with
  | nil => simp [callerLoop]
  | cons p rest ih =>
    by_cases h : p.CreatedBy = callerId
    · simp [callerLoop, h, ih]
    · simp [callerLoop, h, ih]

/-- C22: `GetPrescriptionsByPatient` returns the world state it was called on.
It fails for every caller whose role does not resolve to `doctor`. For a caller
whose role resolves to `doctor`, with identity string `callerId`, and an
existing record it returns the record with only `Prescriptions` changed, to the
stored prescriptions whose `CreatedBy` is `callerId`, in stored order. -/
theorem GetPrescriptionsByPatient_view (J : Codec Bytes) (ctx : Ctx)
    (identity : ClientIdentity) (w : World Bytes) (patientId : String) :
    (GetPrescriptionsByPatient J ctx identity w patientId).2 = w ∧
    (GetUserRole identity ≠ .ok "doctor" →
      ∃ e, GetPrescriptionsByPatient J ctx identity w patientId = (.error e, w)) ∧
    (∀ callerId asset, GetUserRole identity = .ok "doctor" → identity.GetID = .ok callerId →
      ReadAsset J ctx w patientId = .ok asset →
      GetPrescriptionsByPatient J ctx identity w patientId
        = (.ok { DoctorId := asset.DoctorId, PatientName := asset.PatientName,
                 PatientId := asset.PatientId, DateOfBirth := asset.DateOfBirth,
                 LastUpdated := asset.LastUpdated,
                 Prescriptions :=
                   asset.Prescriptions.filter (fun p => decide (p.CreatedBy = callerId)) },
            w)) := by
  refine ⟨?_, ?_, ?_⟩
  · unfold GetPrescriptionsByPatient
    cases identity.GetID with
    | error e => rfl
    | ok callerId =>
      cases GetUserRole identity with
      | error e => rfl
      | ok role =>
        by_cases hr : role = "doctor"
        · simp only [hr, ne_eq, not_true_eq_false, if_false]
          cases ReadAsset J ctx w patientId <;> rfl
        · simp only [ne_eq, hr, not_false_eq_true, if_true]
  · intro hrole
    unfold GetPrescriptionsByPatient
    cases identity.GetID with
    | error e => exact ⟨_, rfl⟩
    | ok callerId =>
      cases hu : GetUserRole identity with
      | error e => exact ⟨_, rfl⟩
      | ok role =>
        have hr : role ≠ "doctor" := fun h => hrole (by rw [hu, h])
        exact ⟨_, by simp only [ne_eq, hr, not_false_eq_true, if_true]; rfl⟩
  · intro callerId asset hrole hid hread
    simp only [GetPrescriptionsByPatient, hid, hrole, hread, callerLoop_eq, List.nil_append,
      ne_eq, not_true_eq_false, if_false]

/-- C22 at concrete inputs: the pharmacist `Ph1` of `Org2MSP` is refused, and
the doctor `D1` gets the two prescriptions of `P1` that `D1` created, without
the one doctor `D2` created. -/
theorem GetPrescriptionsByPatient_view_witness :
    (∃ e, GetPrescriptionsByPatient wireCodec ctx1 pharmacistPh1
        (worldP1 [rxStored "Active" "2024-04-01",
          { rx "RX2" "Aspirin" "cold" with CreatedBy := "D2" },
          rxStored "Dispensed" "2024-05-01"]) "P1"
      = (.error e, worldP1 [rxStored "Active" "2024-04-01",
          { rx "RX2" "Aspirin" "cold" with CreatedBy := "D2" },
          rxStored "Dispensed" "2024-05-01"])) ∧
    GetPrescriptionsByPatient wireCodec ctx1 doctorD1
        (worldP1 [rxStored "Active" "2024-04-01",
          { rx "RX2" "Aspirin" "cold" with CreatedBy := "D2" },
          rxStored "Dispensed" "2024-05-01"]) "P1"
      = (.ok (recordP1 [rxStored "Active" "2024-04-01", rxStored "Dispensed" "2024-05-01"]),
          worldP1 [rxStored "Active" "2024-04-01",
            { rx "RX2" "Aspirin" "cold" with CreatedBy := "D2" },
            rxStored "Dispensed" "2024-05-01"]) :=
  ⟨(GetPrescriptionsByPatient_view wireCodec ctx1 pharmacistPh1
      (worldP1 [rxStored "Active" "2024-04-01",
        { rx "RX2" "Aspirin" "cold" with CreatedBy := "D2" },
        rxStored "Dispensed" "2024-05-01"]) "P1").2.1 (by simp [GetUserRole, pharmacistPh1]),
   (GetPrescriptionsByPatient_view wireCodec ctx1 doctorD1
      (worldP1 [rxStored "Active" "2024-04-01",
        { rx "RX2" "Aspirin" "cold" with CreatedBy := "D2" },
        rxStored "Dispensed" "2024-05-01"]) "P1").2.2 "D1"
      (recordP1 [rxStored "Active" "2024-04-01",
        { rx "RX2" "Aspirin" "cold" with CreatedBy := "D2" },
        rxStored "Dispensed" "2024-05-01"]) rfl rfl rfl⟩

/-! ## The per-doctor and per-pharmacist scans -/

/-- The records a scan reads, entry by entry. -/
theorem scannedAssets_cons (J : Codec Bytes) (ctx : Ctx) (kv : String × Bytes)
    (w : World Bytes) :
    scannedAssets J ctx (kv :: w)
      = (match ctx.nextErr kv.1 with
          | some _ => []
          | none =>
            match J.unmarshalAsset kv.2 with
            | .ok asset => [asset]
            | .error _ => []) ++ scannedAssets J ctx w := by
  unfold scannedAssets
  cases hn : ctx.nextErr kv.1 with
  | some e => simp [List.filterMap_cons, hn]
  | none =>
    cases hu : J.unmarshalAsset kv.2 with
    | ok asset => simp [List.filterMap_cons, hu, hn]
    | error e => simp [List.filterMap_cons, hu, hn]

/-- A record is read by a scan exactly when it is the decoding of an entry
whose `Next()` does not fail. -/
theorem mem_scannedAssets (J : Codec Bytes) (ctx : Ctx) (w : World Bytes) (asset : Asset) :
    asset ∈ scannedAssets J ctx w ↔
      ∃ kv ∈ w, ctx.nextErr kv.1 = none ∧ J.unmarshalAsset kv.2 = .ok asset := by
  induction w with
  | nil => simp [scannedAssets]
  | cons kv rest ih =>
    rw [scannedAssets_cons, List.mem_append, ih]
    cases hn : ctx.nextErr kv.1 with
    | some e => simp [hn]
    | none =>
      cases hu : J.unmarshalAsset kv.2 with
      | ok a =>
        constructor
        · rintro (h | ⟨kv', hkv', h1, h2⟩)
          · have hasset : asset = a := by simpa using h
            exact ⟨kv, List.mem_cons_self _ _, hn, hasset ▸ hu⟩
          · exact ⟨kv', List.mem_cons_of_mem _ hkv', h1, h2⟩
        · rintro ⟨kv', hkv', h1, h2⟩
          rcases List.mem_cons.mp hkv' with h | h
          · subst h
            left
            rw [hu] at h2
            simpa using (Except.ok.inj h2).symm
          · right
            exact ⟨kv', h, h1, h2⟩
      | error e => simp [hn, hu]

/-- The loop over one record appends an entry for each prescription the doctor
created that has an id. -/
theorem doctorRecordLoop_eq (ctx : Ctx) (doctorId : String) (asset : Asset)
    (ps : List Prescription) (results : List DoctorPrescription) :
    doctorRecordLoop ctx doctorId asset ps results
      = results ++ (ps.filter (fun p =>
          decide (p.CreatedBy = doctorId ∧ p.PrescriptionId ≠ ""))).map
          (doctorPrescriptionData ctx asset) := by
  induction ps generalizing results with
  | nil => simp [doctorRecordLoop]
  | cons p rest ih =>
    by_cases h1 : p.CreatedBy = doctorId
    · by_cases h2 : p.PrescriptionId = ""
      · simp [doctorRecordLoop, h1, h2, ih]
      · simp [doctorRecordLoop, h1, h2, ih]
    · simp [doctorRecordLoop, h1, ih]

/-- The scan loop of the per-doctor view, when no `Next()` fails. -/
theorem doctorLoop_fullScan (J : Codec Bytes) (ctx : Ctx) (w : World Bytes)
    (doctorId : String) (results : List DoctorPrescription)
    (hnext : ∀ kv ∈ w, ctx.nextErr kv.1 = none) :
    doctorLoop J ctx doctorId (fullScan ctx w) results
      = .ok (results ++ doctorEntries J ctx w doctorId) := by
  induction w generalizing results with
  | nil => simp [fullScan, doctorLoop, doctorEntries, scannedAssets]
  | cons kv rest ih =>
    have hn : ctx.nextErr kv.1 = none := hnext kv (List.mem_cons_self _ _)
    have hrest : ∀ kv' ∈ rest, ctx.nextErr kv'.1 = none :=
      fun kv' h => hnext kv' (List.mem_cons_of_mem _ h)
    rw [fullScan_cons]
    unfold doctorEntries at ih ⊢
    rw [scannedAssets_cons]
    cases hu : J.unmarshalAsset kv.2 with
    | error e => simp only [hn, doctorLoop, hu, ih _ hrest, List.nil_append]
    | ok asset =>
      simp only [hn, doctorLoop, hu, ih _ hrest, doctorRecordLoop_eq, List.flatMap_append,
        List.flatMap_cons, List.flatMap_nil, List.append_nil, List.append_assoc]

/-- The loop over one record appends an entry for each prescription the
pharmacist dispensed. -/
theorem dispenseRecordLoop_eq (pharmacistId : String) (asset : Asset)
    (ps : List Prescription) (dispensed : List DispensedPrescription) :
    dispenseRecordLoop pharmacistId asset ps dispensed
      = dispensed ++ (ps.filter (fun p =>
          decide (p.DispensingPharmacist = pharmacistId))).map
          (dispensedPrescriptionData asset) := by
  induction ps generalizing dispensed with
  | nil => simp [dispenseRecordLoop]
  | cons p rest ih =>
    by_cases h : p.DispensingPharmacist = pharmacistId
    · simp [dispenseRecordLoop, h, ih]
    · simp [dispenseRecordLoop, h, ih]

/-- The scan loop of the dispense history. -/
theorem dispenseHistoryLoop_fullScan (J : Codec Bytes) (ctx : Ctx) (w : World Bytes)
    (pharmacistId : String) (dispensed : List DispensedPrescription) :
    dispenseHistoryLoop J pharmacistId (fullScan ctx w) dispensed
      = dispensed ++ dispenseEntries J ctx w pharmacistId := by
  induction w generalizing dispensed with
  | nil => simp [fullScan, dispenseHistoryLoop, dispenseEntries, scannedAssets]
  | cons kv rest ih =>
    rw [fullScan_cons]
    unfold dispenseEntries at ih ⊢
    rw [scannedAssets_cons]
    cases hn : ctx.nextErr kv.1 with
    | some e => simp only [dispenseHistoryLoop, ih, List.nil_append]
    | none =>
      cases hu : J.unmarshalAsset kv.2 with
      | error e => simp only [dispenseHistoryLoop, hu, ih, List.nil_append]
      | ok asset =>
        simp only [dispenseHistoryLoop, hu, ih, dispenseRecordLoop_eq, List.flatMap_append,
          List.flatMap_cons, List.flatMap_nil, List.append_nil, List.append_assoc]

/-- `GetPrescriptionsByDoctor` when the scan can be opened and no `Next()` fails. -/
theorem GetPrescriptionsByDoctor_eq (J : Codec Bytes) (ctx : Ctx) (w : World Bytes)
    (doctorId : String) (hrange : ctx.rangeErr = none)
    (hnext : ∀ kv ∈ w, ctx.nextErr kv.1 = none) :
    GetPrescriptionsByDoctor J ctx w doctorId
      = if (doctorEntries J ctx w doctorId).length = 0 then
          (.error ("no prescriptions found for doctor " ++ doctorId), w)
        else (.ok (doctorEntries J ctx w doctorId), w) := by
  simp only [GetPrescriptionsByDoctor, GetStateByRange_all, hrange,
    doctorLoop_fullScan J ctx w doctorId [] hnext, List.nil_append]

/-- `GetDispenseHistory` when the scan can be opened. -/
theorem GetDispenseHistory_eq (J : Codec Bytes) (ctx : Ctx) (w : World Bytes)
    (pharmacistId : String) (hrange : ctx.rangeErr = none) :
    GetDispenseHistory J ctx w pharmacistId
      = (.ok (dispenseEntries J ctx w pharmacistId), w) := by
  simp only [GetDispenseHistory, GetStateByRange_all, hrange, dispenseHistoryLoop_fullScan,
    List.nil_append]

/-- There are as many entries for a doctor as scanned prescriptions the doctor
created that have an id. -/
theorem doctorEntries_length (J : Codec Bytes) (ctx : Ctx) (w : World Bytes)
    (doctorId : String) :
    (doctorEntries J ctx w doctorId).length
      = (scannedPrescriptions J ctx w).countP (fun p =>
          decide (p.CreatedBy = doctorId ∧ p.PrescriptionId ≠ "")) := by
  unfold doctorEntries scannedPrescriptions
  induction scannedAssets J ctx w with
  | nil => simp
  | cons a rest ih =>
    simp only [List.flatMap_cons, List.length_append, List.length_map, List.countP_append, ih]
    simp only [List.countP_eq_length_filter]

/-! ## C23, C24: the per-doctor view -/

/-- C23 fails for a prescription without an id: the record of `P1` holds two
prescriptions created by `D1`, one of them with an empty `PrescriptionId`, and
`GetPrescriptionsByDoctor` returns one entry, for `RX1`; when the only
prescription of `D1` has no id, the call fails. -/
theorem GetPrescriptionsByDoctor_skips_empty_id :
    (scannedPrescriptions wireCodec ctx1 worldNoId).countP
        (fun p => decide (p.CreatedBy = "D1")) = 2 ∧
    ((GetPrescriptionsByDoctor wireCodec ctx1 worldNoId "D1").1).map
        (fun entries => entries.map (fun e => e.PrescriptionId)) = .ok ["RX1"] ∧
    (GetPrescriptionsByDoctor wireCodec ctx1
        (worldP1 [{ rxStored "Active" "2024-05-01" with PrescriptionId := "" }]) "D1").1
      = .error "no prescriptions found for doctor D1" :=
  ⟨by decide, rfl, rfl⟩

/-- C23, amended: when the scan can be opened, no `Next()` fails and at least
one scanned prescription with a non-empty `PrescriptionId` has `CreatedBy` equal
to the doctor id, `GetPrescriptionsByDoctor` succeeds and returns, over the
scanned records in scan order and in stored order within a record, one entry
for each prescription created by the doctor that has a non-empty
`PrescriptionId`, and nothing else. -/
theorem GetPrescriptionsByDoctor_entries (J : Codec Bytes) (ctx : Ctx) (w : World Bytes)
    (doctorId : String) (hrange : ctx.rangeErr = none)
    (hnext : ∀ kv ∈ w, ctx.nextErr kv.1 = none)
    (hsome : ∃ p ∈ scannedPrescriptions J ctx w,
      p.CreatedBy = doctorId ∧ p.PrescriptionId ≠ "") :
    GetPrescriptionsByDoctor J ctx w doctorId
      = (.ok ((scannedAssets J ctx w).flatMap (fun asset =>
          (asset.Prescriptions.filter (fun p =>
            decide (p.CreatedBy = doctorId ∧ p.PrescriptionId ≠ ""))).map
            (doctorPrescriptionData ctx asset))), w) ∧
    ((scannedAssets J ctx w).flatMap (fun asset =>
        (asset.Prescriptions.filter (fun p =>
          decide (p.CreatedBy = doctorId ∧ p.PrescriptionId ≠ ""))).map
          (doctorPrescriptionData ctx asset))).length
      = (scannedPrescriptions J ctx w).countP (fun p =>
          decide (p.CreatedBy = doctorId ∧ p.PrescriptionId ≠ "")) := by
  have hlen := doctorEntries_length J ctx w doctorId
  have hpos : 0 < (doctorEntries J ctx w doctorId).length := by
    rw [hlen]
    obtain ⟨p, hp, h1, h2⟩ := hsome
    exact List.countP_pos_iff.mpr ⟨p, hp, by simp [h1, h2]⟩
  refine ⟨?_, hlen⟩
  rw [GetPrescriptionsByDoctor_eq J ctx w doctorId hrange hnext,
    if_neg (Nat.pos_iff_ne_zero.mp hpos)]
  rfl

/-- C23, amended, at a concrete input: doctor `D1` in `worldAB`. -/
theorem GetPrescriptionsByDoctor_entries_witness :
    ((GetPrescriptionsByDoctor wireCodec ctx1 worldAB "D1").1).map
        (fun entries => entries.map (fun e => (e.PatientId, e.PrescriptionId)))
      = .ok [("A", "RX1"), ("A", "RX2"), ("A", "RX3"), ("B", "RX4")] := by
  rw [(GetPrescriptionsByDoctor_entries wireCodec ctx1 worldAB "D1" rfl (fun _ _ => rfl)
    ⟨rxIn "RX1" "Aspirin" "pain" "Active", by decide, rfl, by decide⟩).1]
  rfl

/-- C24: when the scan can be opened and no `Next()` fails,
`GetPrescriptionsByDoctor` fails with "no prescriptions found for doctor ..."
if and only if there is no entry to return, and returns the entries otherwise;
`GetDispenseHistory`, when the scan can be opened, succeeds whatever the number
of its entries and returns an empty sequence when there is none. -/
theorem empty_result_asymmetry (J : Codec Bytes) (ctx : Ctx) (w : World Bytes)
    (doctorId pharmacistId : String) (hrange : ctx.rangeErr = none)
    (hnext : ∀ kv ∈ w, ctx.nextErr kv.1 = none) :
    (GetPrescriptionsByDoctor J ctx w doctorId
        = (.error ("no prescriptions found for doctor " ++ doctorId), w)
      ↔ doctorEntries J ctx w doctorId = []) ∧
    (doctorEntries J ctx w doctorId ≠ [] →
      GetPrescriptionsByDoctor J ctx w doctorId = (.ok (doctorEntries J ctx w doctorId), w)) ∧
    GetDispenseHistory J ctx w pharmacistId = (.ok (dispenseEntries J ctx w pharmacistId), w) ∧
    (dispenseEntries J ctx w pharmacistId = [] →
      GetDispenseHistory J ctx w pharmacistId = (.ok [], w)) := by
  have hd := GetPrescriptionsByDoctor_eq J ctx w doctorId hrange hnext
  have hh := GetDispenseHistory_eq J ctx w pharmacistId hrange
  refine ⟨⟨fun h => ?_, fun h => ?_⟩, fun h => ?_, hh, fun h => by rw [hh, h]⟩
  · by_contra hne
    have hlen : (doctorEntries J ctx w doctorId).length ≠ 0 :=
      fun h0 => hne (List.length_eq_zero.mp h0)
    rw [hd, if_neg hlen] at h
    exact absurd (congrArg Prod.fst h) (by simp)
  · rw [hd, h]
    rfl
  · have hlen : (doctorEntries J ctx w doctorId).length ≠ 0 :=
      fun h0 => h (List.length_eq_zero.mp h0)
    rw [hd, if_neg hlen]

/-- C24 at a concrete input: nobody in `worldAB` is doctor `D7` or pharmacist
`Ph7`; the per-doctor view fails and the dispense history is empty. -/
theorem empty_result_asymmetry_witness :
    GetPrescriptionsByDoctor wireCodec ctx1 worldAB "D7"
      = (.error ("no prescriptions found for doctor " ++ "D7"), worldAB) ∧
    GetDispenseHistory wireCodec ctx1 worldAB "Ph7" = (.ok [], worldAB) :=
  ⟨(empty_result_asymmetry wireCodec ctx1 worldAB "D7" "Ph7" rfl (fun _ _ => rfl)).1.mpr
      (by decide),
   (empty_result_asymmetry wireCodec ctx1 worldAB "D7" "Ph7" rfl (fun _ _ => rfl)).2.2.2
      (by decide)⟩

/-! ## C25: the dispense history -/

/-- What is stored under a key is among the entries of the world state. -/
theorem mem_putValue (w : World Bytes) (k : String) (v : Bytes) : (k, v) ∈ putValue w k v := by
  induction w with
  | nil => simp [putValue]
  | cons e rest ih =>
    obtain ⟨k', v'⟩ := e
    unfold putValue
    by_cases h1 : k' = k
    · simp [h1]
    · by_cases h2 : k < k'
      · simp [h1, h2]
      · simp only [h1, h2, if_false]
        exact List.mem_cons_of_mem _ ih

/-- C25 fails on entries taken by patient id and prescription id: two payloads
for `P1` are created, each with a prescription `RX1`, the second naming `Ph2`
as `dispensingPharmacist`; then `Ph1` dispenses `RX1`. Every call succeeds, the
stored record holds `RX1` dispensed by `Ph1` and `RX1` active with `Ph2`, and
the history of `Ph2` has an entry with patient id `P1` and prescription id
`RX1`. -/
theorem GetDispenseHistory_other_pharmacist_entry :
    (CreateAsset wireCodec ctx1 []
      (Wire.asset ⟨"D1", "Pat One", "P1", "", [rx "RX1" "Aspirin" "pain"], ""⟩)).1 = .ok () ∧
    (CreateAsset wireCodec ctx1
      (CreateAsset wireCodec ctx1 []
        (Wire.asset ⟨"D1", "Pat One", "P1", "", [rx "RX1" "Aspirin" "pain"], ""⟩)).2
      (Wire.asset ⟨"D1", "Pat One", "P1", "",
        [{ rx "RX1" "Aspirin" "pain" with DispensingPharmacist := "Ph2" }], ""⟩)).1 = .ok () ∧
    (DispensePrescription wireCodec ctx1
      (CreateAsset wireCodec ctx1
        (CreateAsset wireCodec ctx1 []
          (Wire.asset ⟨"D1", "Pat One", "P1", "", [rx "RX1" "Aspirin" "pain"], ""⟩)).2
        (Wire.asset ⟨"D1", "Pat One", "P1", "",
          [{ rx "RX1" "Aspirin" "pain" with DispensingPharmacist := "Ph2" }], ""⟩)).2
      (Wire.dispensation ⟨"P1", "RX1", "Ph1", ""⟩)).1 = .ok () ∧
    (storedAsset wireCodec
      (DispensePrescription wireCodec ctx1
        (CreateAsset wireCodec ctx1
          (CreateAsset wireCodec ctx1 []
            (Wire.asset ⟨"D1", "Pat One", "P1", "", [rx "RX1" "Aspirin" "pain"], ""⟩)).2
          (Wire.asset ⟨"D1", "Pat One", "P1", "",
            [{ rx "RX1" "Aspirin" "pain" with DispensingPharmacist := "Ph2" }], ""⟩)).2
        (Wire.dispensation ⟨"P1", "RX1", "Ph1", ""⟩)).2 "P1").map
      (fun a => a.Prescriptions.map
        (fun p => (p.PrescriptionId, p.Status, p.DispensingPharmacist)))
      = some [("RX1", "Dispensed", "Ph1"), ("RX1", "Active", "Ph2")] ∧
    ((GetDispenseHistory wireCodec ctx1
      (DispensePrescription wireCodec ctx1
        (CreateAsset wireCodec ctx1
          (CreateAsset wireCodec ctx1 []
            (Wire.asset ⟨"D1", "Pat One", "P1", "", [rx "RX1" "Aspirin" "pain"], ""⟩)).2
          (Wire.asset ⟨"D1", "Pat One", "P1", "",
            [{ rx "RX1" "Aspirin" "pain" with DispensingPharmacist := "Ph2" }], ""⟩)).2
        (Wire.dispensation ⟨"P1", "RX1", "Ph1", ""⟩)).2 "Ph2").1).map
      (fun entries => entries.map (fun e => (e.PatientId, e.PrescriptionId, e.Status)))
      = .ok [("P1", "RX1", "Active")] :=
  ⟨rfl, rfl, rfl, by decide, rfl⟩

/-- Storing under a key twice leaves what was stored last. -/
theorem putValue_putValue (w : World Bytes) (k : String) (v1 v2 : Bytes) :
    putValue (putValue w k v1) k v2 = putValue w k v2 := by
  induction w with
  | nil => simp [putValue]
  | cons e rest ih =>
    obtain ⟨k', v'⟩ := e
    by_cases h1 : k' = k
    · simp [putValue, h1]
    · by_cases h2 : k < k'
      · simp [putValue, h1, h2]
      · simp [putValue, h1, h2, ih]

/-- What a scan collects record by record does not depend on which of two
records is stored under a key when both give the same. -/
theorem scannedAssets_putValue_flatMap {β : Type} (J : Codec Bytes) (ctx : Ctx)
    (w : World Bytes) (k : String) (a1 a2 : Asset) (g : Asset → List β) (hg : g a1 = g a2) :
    (scannedAssets J ctx (putValue w k (J.marshalAsset a1))).flatMap g
      = (scannedAssets J ctx (putValue w k (J.marshalAsset a2))).flatMap g := by
  have hhead : ∀ (rest : World Bytes),
      (scannedAssets J ctx ((k, J.marshalAsset a1) :: rest)).flatMap g
        = (scannedAssets J ctx ((k, J.marshalAsset a2) :: rest)).flatMap g := by
    intro rest
    rw [scannedAssets_cons, scannedAssets_cons]
    cases hn : ctx.nextErr k with
    | some e => simp [hn]
    | none => simp [hn, J.unmarshal_marshal, hg]
  induction w with
  | nil => exact hhead []
  | cons e rest ih =>
    obtain ⟨k', v'⟩ := e
    by_cases h1 : k' = k
    · simp only [putValue, h1, if_true]
      exact hhead rest
    · by_cases h2 : k < k'
      · simp only [putValue, h1, h2, if_true, if_false]
        exact hhead ((k', v') :: rest)
      · simp only [putValue, h1, h2, if_false]
        rw [scannedAssets_cons, scannedAssets_cons, List.flatMap_append, List.flatMap_append, ih]

/-- C25, amended: when the scan can be opened, `GetDispenseHistory` returns
exactly the entries of the scanned prescriptions whose `DispensingPharmacist` is
the given pharmacist id. In particular, after a successful
`DispensePrescription` for patient `d.PatientId` by pharmacist `d.PharmacistId`,
the stored record holds the dispensed prescription `p`, between `pre` and
`post`; the history of `d.PharmacistId` contains its entry, with the record's
`PatientId` and the prescription id; and the history of every other pharmacist
id is what it is on the world state with `p` removed from the record, so `p`
gives no entry to it. That history has no entry with the patient id and the
prescription id of `p` when no scanned prescription with these two ids names
the other pharmacist. -/
theorem GetDispenseHistory_entries (J : Codec Bytes) (ctx : Ctx)
    (hrange : ctx.rangeErr = none) :
    (∀ (w : World Bytes) (pharmacistId : String),
      ∃ entries, GetDispenseHistory J ctx w pharmacistId = (.ok entries, w) ∧
        ∀ entry, entry ∈ entries ↔
          ∃ asset ∈ scannedAssets J ctx w, ∃ p ∈ asset.Prescriptions,
            p.DispensingPharmacist = pharmacistId
              ∧ entry = dispensedPrescriptionData asset p) ∧
    (∀ (dctx : Ctx) (w0 : World Bytes) (dispensationJSON : Bytes) (d : Dispensation),
      J.unmarshalDispensation dispensationJSON = .ok d →
      (DispensePrescription J dctx w0 dispensationJSON).1 = .ok () →
      ctx.nextErr d.PatientId = none →
      ∃ (asset : Asset) (pre : List Prescription) (p : Prescription)
          (post : List Prescription),
        storedAsset J (DispensePrescription J dctx w0 dispensationJSON).2 d.PatientId
          = some asset ∧
        asset.Prescriptions = pre ++ p :: post ∧
        (∀ q ∈ pre, q.PrescriptionId ≠ d.PrescriptionId) ∧
        p.PrescriptionId = d.PrescriptionId ∧
        p.Status = "Dispensed" ∧ p.DispensingPharmacist = d.PharmacistId ∧
        (∃ entries,
          GetDispenseHistory J ctx (DispensePrescription J dctx w0 dispensationJSON).2
              d.PharmacistId
            = (.ok entries, (DispensePrescription J dctx w0 dispensationJSON).2) ∧
          dispensedPrescriptionData asset p ∈ entries ∧
          (dispensedPrescriptionData asset p).PatientId = asset.PatientId ∧
          (dispensedPrescriptionData asset p).PrescriptionId = d.PrescriptionId) ∧
        ∀ other, other ≠ d.PharmacistId →
          ∃ entries,
            GetDispenseHistory J ctx (DispensePrescription J dctx w0 dispensationJSON).2 other
              = (.ok entries, (DispensePrescription J dctx w0 dispensationJSON).2) ∧
            GetDispenseHistory J ctx
                (putValue (DispensePrescription J dctx w0 dispensationJSON).2 d.PatientId
                  (J.marshalAsset { asset with Prescriptions := pre ++ post })) other
              = (.ok entries,
                  putValue (DispensePrescription J dctx w0 dispensationJSON).2 d.PatientId
                    (J.marshalAsset { asset with Prescriptions := pre ++ post })) ∧
            ((∀ a ∈ scannedAssets J ctx (DispensePrescription J dctx w0 dispensationJSON).2,
                ∀ q ∈ a.Prescriptions, q.DispensingPharmacist = other →
                  ¬ (a.PatientId = asset.PatientId ∧ q.PrescriptionId = d.PrescriptionId)) →
              ∀ entry ∈ entries,
                ¬ (entry.PatientId = asset.PatientId
                    ∧ entry.PrescriptionId = d.PrescriptionId))) := by
  have hgen : ∀ (w : World Bytes) (pharmacistId : String) (entry : DispensedPrescription),
      entry ∈ dispenseEntries J ctx w pharmacistId ↔
        ∃ asset ∈ scannedAssets J ctx w, ∃ p ∈ asset.Prescriptions,
          p.DispensingPharmacist = pharmacistId
            ∧ entry = dispensedPrescriptionData asset p := by
    intro w pharmacistId entry
    simp only [dispenseEntries, List.mem_flatMap, List.mem_map, List.mem_filter,
      decide_eq_true_eq]
    constructor
    · rintro ⟨asset, ha, p, ⟨hp, hph⟩, rfl⟩
      exact ⟨asset, ha, p, hp, hph, rfl⟩
    · rintro ⟨asset, ha, p, hp, hph, rfl⟩
      exact ⟨asset, ha, p, ⟨hp, hph⟩, rfl⟩
  refine ⟨fun w pharmacistId =>
    ⟨_, GetDispenseHistory_eq J ctx w pharmacistId hrange, hgen w pharmacistId⟩, ?_⟩
  intro dctx w0 dispensationJSON d hparse hok hnext
  rcases DispensePrescription_outcome J dctx w0 dispensationJSON with
    ⟨e, he⟩ | ⟨d', asset0, pre, p0, post, hd', _, _, hpre, hp0, _, heq⟩
  · rw [he] at hok
    exact absurd hok (by simp)
  · have hdd : d' = d := Except.ok.inj (hd'.symm.trans hparse)
    subst hdd
    rw [heq]
    have hscan : ({ asset0 with
        Prescriptions := pre ++ dispensedPrescription dctx d'.PharmacistId p0 :: post,
        LastUpdated := dctx.now.FormatRFC3339 } : Asset)
        ∈ scannedAssets J ctx (putValue w0 d'.PatientId (J.marshalAsset
          { asset0 with
            Prescriptions := pre ++ dispensedPrescription dctx d'.PharmacistId p0 :: post,
            LastUpdated := dctx.now.FormatRFC3339 })) :=
      (mem_scannedAssets J ctx _ _).mpr
        ⟨_, mem_putValue w0 _ _, hnext, J.unmarshal_marshal _⟩
    have hpmem : dispensedPrescription dctx d'.PharmacistId p0
        ∈ pre ++ dispensedPrescription dctx d'.PharmacistId p0 :: post := by simp
    refine ⟨_, pre, dispensedPrescription dctx d'.PharmacistId p0, post,
      storedAsset_putValue_same J w0 _ _, rfl, hpre, hp0, rfl, rfl,
      ⟨_, GetDispenseHistory_eq J ctx _ d'.PharmacistId hrange,
        (hgen _ _ _).mpr ⟨_, hscan, _, hpmem, rfl, rfl⟩, rfl, hp0⟩, ?_⟩
    intro other hother
    refine ⟨_, GetDispenseHistory_eq J ctx _ other hrange, ?_, ?_⟩
    · rw [GetDispenseHistory_eq J ctx _ other hrange, putValue_putValue]
      congr 2
      unfold dispenseEntries
      apply scannedAssets_putValue_flatMap
      have hne : ¬ (dispensedPrescription dctx d'.PharmacistId p0).DispensingPharmacist
          = other := fun h => hother h.symm
      simp only [List.filter_append, List.filter_cons, hne, decide_False, Bool.false_eq_true,
        if_false, List.map_append]
      rfl
    · intro hnone entry hentry hpair
      obtain ⟨a, ha, q, hq, hph, rfl⟩ := (hgen _ _ _).mp hentry
      exact hnone a ha q hq hph hpair

/-- C25, amended, at a concrete input: after `Ph1` dispensed `RX1` of `P1`,
the history of `Ph1` has the entry of the dispensed prescription, with the
patient id of the stored record and the prescription id `RX1`, and the history
of `Ph2` is the one of the world state without that prescription: empty. -/
theorem GetDispenseHistory_entries_witness :
    (∃ (asset : Asset) (pre : List Prescription) (p : Prescription)
        (post : List Prescription),
      storedAsset wireCodec
        (DispensePrescription wireCodec ctx1 (worldP1 [rxStored "Active" "2024-04-01"])
          (Wire.dispensation ⟨"P1", "RX1", "Ph1", ""⟩)).2 "P1" = some asset ∧
      asset.Prescriptions = pre ++ p :: post ∧
      (∃ entries,
        GetDispenseHistory wireCodec ctx1
            (DispensePrescription wireCodec ctx1 (worldP1 [rxStored "Active" "2024-04-01"])
              (Wire.dispensation ⟨"P1", "RX1", "Ph1", ""⟩)).2 "Ph1"
          = (.ok entries,
              (DispensePrescription wireCodec ctx1 (worldP1 [rxStored "Active" "2024-04-01"])
                (Wire.dispensation ⟨"P1", "RX1", "Ph1", ""⟩)).2) ∧
        dispensedPrescriptionData asset p ∈ entries ∧
        (dispensedPrescriptionData asset p).PatientId = asset.PatientId ∧
        (dispensedPrescriptionData asset p).PrescriptionId = "RX1") ∧
      ∃ entries,
        GetDispenseHistory wireCodec ctx1
            (DispensePrescription wireCodec ctx1 (worldP1 [rxStored "Active" "2024-04-01"])
              (Wire.dispensation ⟨"P1", "RX1", "Ph1", ""⟩)).2 "Ph2"
          = (.ok entries,
              (DispensePrescription wireCodec ctx1 (worldP1 [rxStored "Active" "2024-04-01"])
                (Wire.dispensation ⟨"P1", "RX1", "Ph1", ""⟩)).2) ∧
        GetDispenseHistory wireCodec ctx1
            (putValue
              (DispensePrescription wireCodec ctx1 (worldP1 [rxStored "Active" "2024-04-01"])
                (Wire.dispensation ⟨"P1", "RX1", "Ph1", ""⟩)).2 "P1"
              (wireCodec.marshalAsset { asset with Prescriptions := pre ++ post })) "Ph2"
          = (.ok entries,
              putValue
                (DispensePrescription wireCodec ctx1
                  (worldP1 [rxStored "Active" "2024-04-01"])
                  (Wire.dispensation ⟨"P1", "RX1", "Ph1", ""⟩)).2 "P1"
                (wireCodec.marshalAsset { asset with Prescriptions := pre ++ post }))) ∧
    (GetDispenseHistory wireCodec ctx1
      (DispensePrescription wireCodec ctx1 (worldP1 [rxStored "Active" "2024-04-01"])
        (Wire.dispensation ⟨"P1", "RX1", "Ph1", ""⟩)).2 "Ph2").1 = .ok [] := by
  obtain ⟨asset, pre, p, post, h1, h2, _, _, _, _, h7, h8⟩ :=
    (GetDispenseHistory_entries wireCodec ctx1 rfl).2 ctx1
      (worldP1 [rxStored "Active" "2024-04-01"])
      (Wire.dispensation ⟨"P1", "RX1", "Ph1", ""⟩) ⟨"P1", "RX1", "Ph1", ""⟩ rfl rfl rfl
  obtain ⟨entries, h9, h10, _⟩ := h8 "Ph2" (by decide)
  exact ⟨⟨asset, pre, p, post, h1, h2, h7, entries, h9, h10⟩, rfl⟩

/-! ## C26: batch creation -/

/-- A failing `CreateAsset` returns the world state it was called on. -/
theorem CreateAsset_error_unchanged (J : Codec Bytes) (ctx : Ctx) (w : World Bytes)
    (assetJSON : Bytes) (e : String) (herr : (CreateAsset J ctx w assetJSON).1 = .error e) :
    CreateAsset J ctx w assetJSON = (.error e, w) := by
  rcases CreateAsset_outcome J ctx w assetJSON with
    ⟨e', he⟩ | ⟨_, _, _, _, _, _, _, heq⟩ | ⟨_, _, _, _, _, _, _, heq⟩
  · rw [he] at herr ⊢
    have : e' = e := Except.error.inj herr
    rw [this]
  · rw [heq] at herr
    exact absurd herr (by simp)
  · rw [heq] at herr
    exact absurd herr (by simp)

/-- The loop of the batch when every element succeeds. -/
theorem batchLoop_ok (J : Codec Bytes) (ctx : Ctx) (assets : List Asset) (w : World Bytes)
    (hall : ∀ (k : Nat) (asset : Asset), assets[k]? = some asset →
      (CreateAsset J ctx (applyAll J ctx (assets.take k) w) (J.marshalAsset asset)).1
        = .ok ()) :
    batchLoop J ctx assets w = (.ok (), applyAll J ctx assets w) := by
  induction assets generalizing w with
  | nil => rfl
  | cons a rest ih =>
    have h0 : (CreateAsset J ctx w (J.marshalAsset a)).1 = .ok () := hall 0 a (by simp)
    have hpair : CreateAsset J ctx w (J.marshalAsset a)
        = (.ok (), (CreateAsset J ctx w (J.marshalAsset a)).2) := Prod.ext h0 rfl
    have hrest := ih (CreateAsset J ctx w (J.marshalAsset a)).2
      (fun k asset hk => hall (k + 1) asset (by simpa using hk))
    rw [batchLoop, hpair]
    exact hrest

/-- The loop of the batch when element `k` is the first that fails. -/
theorem batchLoop_error (J : Codec Bytes) (ctx : Ctx) (assets : List Asset) (w : World Bytes)
    (k : Nat) (asset : Asset) (e : String) (hk : assets[k]? = some asset)
    (hbefore : ∀ (j : Nat) (aj : Asset), j < k → assets[j]? = some aj →
      (CreateAsset J ctx (applyAll J ctx (assets.take j) w) (J.marshalAsset aj)).1 = .ok ())
    (hfail : (CreateAsset J ctx (applyAll J ctx (assets.take k) w) (J.marshalAsset asset)).1
      = .error e) :
    batchLoop J ctx assets w = (.error e, applyAll J ctx (assets.take k) w) := by
  induction assets generalizing w k with
  | nil => simp at hk
  | cons a rest ih =>
    cases k with
    | zero =>
      have ha : a = asset := by simpa using hk
      subst ha
      have hpair := CreateAsset_error_unchanged J ctx w (J.marshalAsset a) e hfail
      rw [batchLoop, hpair]
      rfl
    | succ k' =>
      have h0 : (CreateAsset J ctx w (J.marshalAsset a)).1 = .ok () :=
        hbefore 0 a (Nat.succ_pos _) (by simp)
      have hpair : CreateAsset J ctx w (J.marshalAsset a)
          = (.ok (), (CreateAsset J ctx w (J.marshalAsset a)).2) := Prod.ext h0 rfl
      have hrest := ih (CreateAsset J ctx w (J.marshalAsset a)).2 k' (by simpa using hk)
        (fun j aj hj hjk => hbefore (j + 1) aj (Nat.succ_lt_succ hj) (by simpa using hjk))
        hfail
      rw [batchLoop, hpair]
      exact hrest

/-- C26: `BatchCreatePrescriptions` applies `CreateAsset` to the decoded
records in order, each on the world state the previous ones left. When every
element succeeds, the call succeeds and leaves the world state of the
sequential applications. When element `k` is the first that fails, the call
returns the error of that element and leaves the world state reached after the
elements before `k`: these are not undone and the later ones are not applied. -/
theorem BatchCreatePrescriptions_sequential (J : Codec Bytes) (ctx : Ctx) (w : World Bytes)
    (assetsJSON : Bytes) (assets : List Asset)
    (hparse : J.unmarshalAssets assetsJSON = .ok assets) :
    ((∀ (k : Nat) (asset : Asset), assets[k]? = some asset →
        (CreateAsset J ctx (applyAll J ctx (assets.take k) w) (J.marshalAsset asset)).1
          = .ok ()) →
      BatchCreatePrescriptions J ctx w assetsJSON = (.ok (), applyAll J ctx assets w)) ∧
    (∀ (k : Nat) (asset : Asset) (e : String), assets[k]? = some asset →
      (∀ (j : Nat) (aj : Asset), j < k → assets[j]? = some aj →
        (CreateAsset J ctx (applyAll J ctx (assets.take j) w) (J.marshalAsset aj)).1
          = .ok ()) →
      (CreateAsset J ctx (applyAll J ctx (assets.take k) w) (J.marshalAsset asset)).1
        = .error e →
      BatchCreatePrescriptions J ctx w assetsJSON
        = (.error e, applyAll J ctx (assets.take k) w)) := by
  constructor
  · intro hall
    rw [BatchCreatePrescriptions, hparse]
    exact batchLoop_ok J ctx assets w hall
  · intro k asset e hk hbefore hfail
    rw [BatchCreatePrescriptions, hparse]
    exact batchLoop_error J ctx assets w k asset e hk hbefore hfail

/-- C26 at a concrete input: of three records for the patient `P1` the second
has a prescription without diagnosis; the batch returns its error and leaves
the world state the first record produced. -/
theorem BatchCreatePrescriptions_sequential_witness :
    BatchCreatePrescriptions wireCodec ctx1 []
        (Wire.assets [batchRecord "P1" "cold", batchRecord "P1" "", batchRecord "P1" "flu"])
      = (.error "diagnosis is required for all prescriptions",
          applyAll wireCodec ctx1
            ([batchRecord "P1" "cold", batchRecord "P1" "", batchRecord "P1" "flu"].take 1)
            []) ∧
    (storedAsset wireCodec
      (applyAll wireCodec ctx1
        ([batchRecord "P1" "cold", batchRecord "P1" "", batchRecord "P1" "flu"].take 1) [])
      "P1").map (fun a => a.Prescriptions.map (fun p => p.Diagnosis)) = some ["cold"] :=
  ⟨(BatchCreatePrescriptions_sequential wireCodec ctx1 []
      (Wire.assets [batchRecord "P1" "cold", batchRecord "P1" "", batchRecord "P1" "flu"])
      [batchRecord "P1" "cold", batchRecord "P1" "", batchRecord "P1" "flu"] rfl).2
      1 (batchRecord "P1" "") "diagnosis is required for all prescriptions" rfl
      (fun j aj hj hjk => by
        have hj0 : j = 0 := by omega
        subst hj0
        have haj : batchRecord "P1" "cold" = aj := by simpa using hjk
        subst haj
        rfl)
      rfl,
   by decide⟩

/-! ## C27: a load error in `CreateAsset` -/

/-- C27 at the failing inputs. First, `GetState` fails on `P1`, whose stored
record holds `RX1`: `ReadAsset` reports the failure, yet `CreateAsset` for `P1`
succeeds and the stored record afterwards holds the incoming `RX2` only.
Second, the bytes stored under `P1` do not decode: `ReadAsset` reports that,
yet `CreateAsset` succeeds and overwrites them with the incoming record. -/
theorem CreateAsset_swallows_load_error :
    ReadAsset wireCodec ctxGetFails (worldP1 [rxStored "Active" "2024-04-01"]) "P1"
      = .error "failed to read from world state: connection reset" ∧
    (CreateAsset wireCodec ctxGetFails (worldP1 [rxStored "Active" "2024-04-01"])
      (Wire.asset ⟨"D2", "", "P1", "", [rx "RX2" "Aspirin" "cold"], ""⟩)).1 = .ok () ∧
    (storedAsset wireCodec
      (CreateAsset wireCodec ctxGetFails (worldP1 [rxStored "Active" "2024-04-01"])
        (Wire.asset ⟨"D2", "", "P1", "", [rx "RX2" "Aspirin" "cold"], ""⟩)).2 "P1").map
      (fun a => a.Prescriptions.map (fun p => p.PrescriptionId)) = some ["RX2"] ∧
    ReadAsset wireCodec ctx1 [("P1", Wire.malformed "not json")] "P1"
      = .error "json: cannot unmarshal into Go value of type chaincode.Asset" ∧
    (CreateAsset wireCodec ctx1 [("P1", Wire.malformed "not json")]
      (Wire.asset ⟨"D2", "", "P1", "", [rx "RX2" "Aspirin" "cold"], ""⟩)).1 = .ok () ∧
    (storedAsset wireCodec
      (CreateAsset wireCodec ctx1 [("P1", Wire.malformed "not json")]
        (Wire.asset ⟨"D2", "", "P1", "", [rx "RX2" "Aspirin" "cold"], ""⟩)).2 "P1").map
      (fun a => a.Prescriptions.map (fun p => p.PrescriptionId)) = some ["RX2"] :=
  ⟨rfl, rfl, by decide, rfl, rfl, by decide⟩

/-! ## C30: the expiry check on a prescription that is not active -/

/-- C30 at the failing inputs: at 2024-03-10T12:00:00Z, after the expiry date
2024-03-01 of `RX1`, `CheckPrescriptionExpiry` succeeds and stores the
prescription as `Expired`, both when it was `Dispensed` and when it was
`Revoked`. -/
theorem CheckPrescriptionExpiry_expires_terminal :
    (CheckPrescriptionExpiry wireCodec ctx1 (worldP1 [rxStored "Dispensed" "2024-03-01"])
      "P1" "RX1").1 = .ok () ∧
    (storedAsset wireCodec
      (CheckPrescriptionExpiry wireCodec ctx1 (worldP1 [rxStored "Dispensed" "2024-03-01"])
        "P1" "RX1").2 "P1").map (fun a => a.Prescriptions.map (fun p => p.Status))
      = some ["Expired"] ∧
    (CheckPrescriptionExpiry wireCodec ctx1 (worldP1 [rxStored "Revoked" "2024-03-01"])
      "P1" "RX1").1 = .ok () ∧
    (storedAsset wireCodec
      (CheckPrescriptionExpiry wireCodec ctx1 (worldP1 [rxStored "Revoked" "2024-03-01"])
        "P1" "RX1").2 "P1").map (fun a => a.Prescriptions.map (fun p => p.Status))
      = some ["Expired"] :=
  ⟨rfl, by decide, rfl, by decide⟩

/-! ## C28: the expiry date `CreateAsset` stores -/

/-- The year of era and the day of year `civilFromDays` computes from a day of
era are in range. -/
theorem civil_step1 (doe : Int) (h0 : 0 ≤ doe) (h1 : doe < 146097) :
    0 ≤ (doe - doe / 1460 + doe / 36524 - doe / 146096) / 365 ∧
    (doe - doe / 1460 + doe / 36524 - doe / 146096) / 365 ≤ 399 ∧
    0 ≤ doe - (365 * ((doe - doe / 1460 + doe / 36524 - doe / 146096) / 365)
      + (doe - doe / 1460 + doe / 36524 - doe / 146096) / 365 / 4
      - (doe - doe / 1460 + doe / 36524 - doe / 146096) / 365 / 100) ∧
    doe - (365 * ((doe - doe / 1460 + doe / 36524 - doe / 146096) / 365)
      + (doe - doe / 1460 + doe / 36524 - doe / 146096) / 365 / 4
      - (doe - doe / 1460 + doe / 36524 - doe / 146096) / 365 / 100) ≤ 365 := by
  generalize hf : doe / 36524 = f
  generalize hg : doe / 146096 = g
  generalize he : doe / 1460 = e
  generalize hb : (doe - e + f - g) / 365 = b
  generalize hc : b / 4 = c
  generalize hd : b / 100 = d
  have hf' : f = 0 ∨ f = 1 ∨ f = 2 ∨ f = 3 ∨ f = 4 := by omega
  have hg' : g = 0 ∨ g = 1 := by omega
  have hd' : d = 0 ∨ d = 1 ∨ d = 2 ∨ d = 3 ∨ d = 4 := by omega
  rcases hf' with rfl | rfl | rfl | rfl | rfl <;> rcases hg' with rfl | rfl <;>
    rcases hd' with rfl | rfl | rfl | rfl | rfl <;> omega

/-- The day number of a date from March on, by era and year of era. -/
theorem daysFromCivil_late (era yoe m d : Int) (h0 : 0 ≤ yoe) (h1 : yoe ≤ 399) (hm : 2 < m) :
    daysFromCivil (yoe + era * 400) m d
      = era * 146097 + (yoe * 365 + yoe / 4 - yoe / 100 + ((153 * (m - 3) + 2) / 5 + d - 1))
        - 719468 := by
  have e1 : (yoe + era * 400) / 400 = era := by omega
  have hm2 : ¬ m ≤ 2 := by omega
  simp only [daysFromCivil, if_neg hm2, if_pos hm, e1, add_sub_cancel_right]

/-- The day number of a date in January or February, by era and year of era. -/
theorem daysFromCivil_early (era yoe m d : Int) (h0 : 0 ≤ yoe) (h1 : yoe ≤ 399) (hm : m ≤ 2) :
    daysFromCivil (yoe + era * 400 + 1) m d
      = era * 146097 + (yoe * 365 + yoe / 4 - yoe / 100 + ((153 * (m + 9) + 2) / 5 + d - 1))
        - 719468 := by
  have e1 : (yoe + era * 400) / 400 = era := by omega
  have hm2 : ¬ m > 2 := by omega
  simp only [daysFromCivil, if_pos hm, if_neg hm2, e1, add_sub_cancel_right]

/-- The same day of the month after the date of day `D`, as `mkDate` normalises
it, is 28 to 31 days after `D`; the date is given by the steps of
`civilFromDays`. -/
theorem addMonth_flat (D era doe yoe doy mp d m y : Int)
    (hera : era = (D + 719468) / 146097) (hdoe : doe = D + 719468 - era * 146097)
    (hyoe : yoe = (doe - doe / 1460 + doe / 36524 - doe / 146096) / 365)
    (hdoy : doy = doe - (365 * yoe + yoe / 4 - yoe / 100))
    (hmp : mp = (5 * doy + 2) / 153) (hd : d = doy - (153 * mp + 2) / 5 + 1)
    (hm : m = if mp < 10 then mp + 3 else mp - 9)
    (hy : y = if m ≤ 2 then yoe + era * 400 + 1 else yoe + era * 400) :
    D + 28 ≤ daysFromCivil (y + m / 12) (m % 12 + 1) 1 + (d - 1) ∧
    daysFromCivil (y + m / 12) (m % 12 + 1) 1 + (d - 1) ≤ D + 31 := by
  have hdoe0 : 0 ≤ doe := by omega
  have hdoe1 : doe < 146097 := by omega
  obtain ⟨b1, b2, b3, b4⟩ := civil_step1 doe hdoe0 hdoe1
  rw [← hyoe] at b1 b2 b3 b4
  rw [← hdoy] at b3 b4
  clear hyoe
  have hmp' : mp = 0 ∨ mp = 1 ∨ mp = 2 ∨ mp = 3 ∨ mp = 4 ∨ mp = 5 ∨ mp = 6 ∨ mp = 7 ∨ mp = 8
      ∨ mp = 9 ∨ mp = 10 ∨ mp = 11 := by omega
  rcases hmp' with h | h | h | h | h | h | h | h | h | h | h | h
  iterate 9
    subst h; norm_num at hm; subst hm; norm_num at hy; subst hy
    norm_num
    rw [daysFromCivil_late era yoe _ 1 b1 b2 (by norm_num)]
    omega
  · subst h; norm_num at hm; subst hm; norm_num at hy; subst hy
    norm_num
    rw [daysFromCivil_early era yoe _ 1 b1 b2 (by norm_num)]
    omega
  · subst h; norm_num at hm; subst hm; norm_num at hy; subst hy
    norm_num
    rw [daysFromCivil_early era yoe _ 1 b1 b2 (by norm_num)]
    omega
  · subst h; norm_num at hm; subst hm; norm_num at hy; subst hy
    norm_num
    by_cases h399 : yoe = 399
    · subst h399
      have e : (399 : Int) + era * 400 + 1 = 0 + (era + 1) * 400 := by ring
      rw [e, daysFromCivil_late (era + 1) 0 _ 1 (by norm_num) (by norm_num) (by norm_num)]
      omega
    · have e : yoe + era * 400 + 1 = (yoe + 1) + era * 400 := by ring
      rw [e, daysFromCivil_late era (yoe + 1) _ 1 (by omega) (by omega) (by norm_num)]
      have hc : yoe / 100 = 0 ∨ yoe / 100 = 1 ∨ yoe / 100 = 2 ∨ yoe / 100 = 3 := by omega
      have hg : (yoe + 1) / 100 = 0 ∨ (yoe + 1) / 100 = 1 ∨ (yoe + 1) / 100 = 2
          ∨ (yoe + 1) / 100 = 3 := by omega
      rcases hc with hc | hc | hc | hc <;> rcases hg with hg | hg | hg | hg <;>
        first
        | omega
        | (have h99 : yoe = 99 := by omega
           subst h99; omega)
        | (have h199 : yoe = 199 := by omega
           subst h199; omega)
        | (have h299 : yoe = 299 := by omega
           subst h299; omega)

/-- The same day of the following month is 28 to 31 days after day `D`. -/
theorem addMonth_civil (D : Int) :
    D + 28 ≤ daysFromCivil ((civilFromDays D).1 + (civilFromDays D).2.1 / 12)
        ((civilFromDays D).2.1 % 12 + 1) 1 + ((civilFromDays D).2.2 - 1) ∧
    daysFromCivil ((civilFromDays D).1 + (civilFromDays D).2.1 / 12)
        ((civilFromDays D).2.1 % 12 + 1) 1 + ((civilFromDays D).2.2 - 1) ≤ D + 31 :=
  addMonth_flat D _ _ _ _ _ _ _ _ rfl rfl rfl rfl rfl rfl rfl rfl

/-- The wall clock of the instant `mkDate` gives differs from the wall clock
asked for by two zone offsets of the location. -/
theorem mkDate_localSec (year month day secOfDay nsec : Int) (loc : Location)
    (hns : 0 ≤ nsec ∧ nsec < 1000000000) :
    ∃ sec1 sec2 : Int,
      (mkDate year month day secOfDay nsec loc).localSec
        = (daysFromCivil (year + (month - 1) / 12) ((month - 1) % 12 + 1) 1 + (day - 1)) * 86400
          + secOfDay - (loc.lookup sec1).1 + (loc.lookup sec2).1 := by
  generalize hW : (daysFromCivil (year + (month - 1) / 12) ((month - 1) % 12 + 1) 1
    + (day - 1)) * 86400 + secOfDay = W
  have hoff : ∀ off : Int, (⟨(W - off) * 1000000000 + nsec, loc⟩ : Time).localSec
      = W - off + (loc.lookup (W - off)).1 := by
    intro off
    have h : ((W - off) * 1000000000 + nsec) / 1000000000 = W - off := by omega
    simp only [Time.localSec, Time.offset, h]
  simp only [mkDate, hW]
  split_ifs
  · exact ⟨W - (loc.lookup W).1, _, hoff _⟩
  · exact ⟨W, _, hoff _⟩
  · exact ⟨W, _, hoff _⟩

/-- In a location whose zone offsets are at most a day, the calendar day one
month after `t` is no earlier than the calendar day of `t`. -/
theorem AddDate_month_day (t : Time)
    (hzone : ∀ sec, -86400 ≤ (t.loc.lookup sec).1 ∧ (t.loc.lookup sec).1 ≤ 86400) :
    t.localSec / 86400 ≤ (t.AddDate 0 1 0).localSec / 86400 := by
  have hb := (addMonth_civil (t.localSec / 86400)).1
  obtain ⟨sec1, sec2, h⟩ := mkDate_localSec ((civilFromDays (t.localSec / 86400)).1 + 0)
    ((civilFromDays (t.localSec / 86400)).2.1 + 1) ((civilFromDays (t.localSec / 86400)).2.2 + 0)
    (t.localSec % 86400) (t.unixNano % 1000000000) t.loc (by omega)
  have h1 := hzone sec1
  have h2 := hzone sec2
  have he : (t.AddDate 0 1 0).localSec
      = (daysFromCivil ((civilFromDays (t.localSec / 86400)).1
            + (civilFromDays (t.localSec / 86400)).2.1 / 12)
          ((civilFromDays (t.localSec / 86400)).2.1 % 12 + 1) 1
          + ((civilFromDays (t.localSec / 86400)).2.2 - 1)) * 86400
        + t.localSec % 86400 - (t.loc.lookup sec1).1 + (t.loc.lookup sec2).1 := by
    simp only [add_zero, add_sub_cancel_right] at h
    simpa [Time.AddDate, Time.Date] using h
  rw [he]
  generalize daysFromCivil _ _ _ + _ = X at hb ⊢
  omega

/-- C28 refuted at a concrete input: a payload that is valid for `CreateAsset`
(patient and doctor given, diagnosis given) and carries the expiry date
`2000-01-01` is created on 2024-03-10 in an empty world state; the record read
back holds the prescription with expiry date `2000-01-01`, which is earlier than the creation
date. -/
theorem CreateAsset_keeps_past_expiry :
    (CreateAsset wireCodec ctx1 [] (Wire.asset (payloadP2 "2000-01-01"))).1 = .ok () ∧
    (ReadAsset wireCodec ctx1
        (CreateAsset wireCodec ctx1 [] (Wire.asset (payloadP2 "2000-01-01"))).2
        "P2").toOption.map (fun a => a.Prescriptions.map (fun p => p.ExpiryDate))
      = some ["2000-01-01"] ∧
    ctx1.now.FormatDate = "2024-03-10" ∧
    (∃ expiry created, parseDate "2000-01-01" = some expiry ∧
      parseDate ctx1.now.FormatDate = some created ∧ created.After expiry = true) := by
  refine ⟨rfl, by decide, by decide, ?_⟩
  exact ⟨_, _, rfl, rfl, by decide⟩

/-- C28 as amended: after a successful `CreateAsset`, reading the record back
returns it ending with the incoming prescriptions. An expiry date the payload
supplies is stored as given, with no comparison with the creation date. An
empty one is replaced by the date of the instant one month after now, whose
calendar day is no earlier than the calendar day of creation, in a location
whose zone offsets are at most a day. -/
theorem CreateAsset_default_expiry (J : Codec Bytes) (ctx reader : Ctx) (w : World Bytes)
    (assetJSON : Bytes) (newAsset : Asset)
    (hparse : J.unmarshalAsset assetJSON = .ok newAsset)
    (hok : (CreateAsset J ctx w assetJSON).1 = .ok ())
    (hget : reader.getErr newAsset.PatientId = none)
    (hzone : ∀ sec, -86400 ≤ (ctx.now.loc.lookup sec).1 ∧ (ctx.now.loc.lookup sec).1 ≤ 86400) :
    ∃ after n,
      ReadAsset J reader (CreateAsset J ctx w assetJSON).2 newAsset.PatientId = .ok after ∧
      after.Prescriptions.length = n + newAsset.Prescriptions.length ∧
      ∀ (j : Nat) (p : Prescription), newAsset.Prescriptions[j]? = some p →
        ∃ s : Prescription, after.Prescriptions[n + j]? = some s ∧
          (p.ExpiryDate ≠ "" → s.ExpiryDate = p.ExpiryDate) ∧
          (p.ExpiryDate = "" →
            s.ExpiryDate = (ctx.now.AddDate 0 1 0).FormatDate ∧
            ctx.now.localSec / 86400 ≤ (ctx.now.AddDate 0 1 0).localSec / 86400) := by
  have hday := AddDate_month_day ctx.now hzone
  have hstamp : ∀ (doctorId : String) (p : Prescription),
      (p.ExpiryDate ≠ "" → (stampPrescription ctx doctorId p).ExpiryDate = p.ExpiryDate) ∧
      (p.ExpiryDate = "" →
        (stampPrescription ctx doctorId p).ExpiryDate = (ctx.now.AddDate 0 1 0).FormatDate ∧
        ctx.now.localSec / 86400 ≤ (ctx.now.AddDate 0 1 0).localSec / 86400) := by
    intro doctorId p
    have h := (stampPrescription_fields ctx doctorId p).2.2.2.2.1
    constructor
    · intro hne
      rw [h, if_neg hne]
    · intro he
      rw [h, if_pos he]
      exact ⟨rfl, hday⟩
  rcases CreateAsset_outcome J ctx w assetJSON with
    ⟨e, he⟩ | ⟨na, existingAsset, hna, _, _, _, _, heq⟩ | ⟨na, e, hna, _, _, _, _, heq⟩
  · rw [he] at hok
    exact absurd hok (by simp)
  · have hnew : na = newAsset := Except.ok.inj (hna.symm.trans hparse)
    subst hnew
    rw [heq]
    refine ⟨mergedAsset ctx existingAsset na, existingAsset.Prescriptions.length,
      ReadAsset_putValue_same J reader w _ _ hget, by simp [mergedAsset], ?_⟩
    intro j p hj
    exact ⟨stampPrescription ctx na.DoctorId p,
      getElem?_append_map _ _ _ j p hj, hstamp na.DoctorId p⟩
  · have hnew : na = newAsset := Except.ok.inj (hna.symm.trans hparse)
    subst hnew
    rw [heq]
    refine ⟨createdAsset ctx na, 0, ReadAsset_putValue_same J reader w _ _ hget,
      by simp [createdAsset], ?_⟩
    intro j p hj
    refine ⟨stampPrescription ctx na.DoctorId p, ?_, hstamp na.DoctorId p⟩
    simp [createdAsset, hj]

/-- C28 as amended at a concrete input: on a peer in `America/Havana` a payload
without an expiry date, created at 2023-02-12T00:30:00-05:00, is read back with
the expiry date 2023-03-11: one month later clocks skip from midnight to one
o'clock, and `time.Date` resolves 00:30 on 2023-03-12 to 23:30 the day before. -/
theorem CreateAsset_default_expiry_witness :
    (∃ after n,
      ReadAsset wireCodec ctx1
          (CreateAsset wireCodec ctxHavana (worldP1 []) (Wire.asset (payloadP2 ""))).2
          (payloadP2 "").PatientId = .ok after ∧
      after.Prescriptions.length = n + (payloadP2 "").Prescriptions.length ∧
      ∀ (j : Nat) (p : Prescription), (payloadP2 "").Prescriptions[j]? = some p →
        ∃ s : Prescription, after.Prescriptions[n + j]? = some s ∧
          (p.ExpiryDate ≠ "" → s.ExpiryDate = p.ExpiryDate) ∧
          (p.ExpiryDate = "" →
            s.ExpiryDate = (ctxHavana.now.AddDate 0 1 0).FormatDate ∧
            ctxHavana.now.localSec / 86400
              ≤ (ctxHavana.now.AddDate 0 1 0).localSec / 86400)) ∧
    ctxHavana.now.FormatDate = "2023-02-12" ∧
    (ctxHavana.now.AddDate 0 1 0).FormatDate = "2023-03-11" :=
  ⟨CreateAsset_default_expiry wireCodec ctxHavana ctx1 (worldP1 [])
    (Wire.asset (payloadP2 "")) (payloadP2 "") rfl rfl rfl
    (fun sec => by
      simp only [ctxHavana, havana]
      split_ifs <;> decide),
   by decide, by decide⟩

/-! ## C29: the JSON encoding of a record -/

/-- Decoding the encoding of a prescription into a zero value gives the
prescription. -/
theorem unmarshal_marshalPrescription (path : String) (p : Prescription) :
    unmarshalPrescriptionInto path zeroPrescription (marshalPrescriptionJson p) = .ok p := by
  cases p with
  | mk a1 a2 a3 a4 a5 a6 a7 a8 a9 a10 a11 a12 =>
    by_cases h10 : a10 = "" <;> by_cases h11 : a11 = "" <;> by_cases h12 : a12 = "" <;>
      simp [unmarshalPrescriptionInto, marshalPrescriptionJson, stringMember,
        unmarshalPrescriptionMembers, findField, prescriptionFieldNames, setPrescriptionField,
        zeroPrescription, h10, h11, h12]

/-- Decoding the encodings of a list of prescriptions into an empty slice gives
the list. -/
theorem unmarshal_marshalPrescriptions (path : String) (ps : List Prescription) :
    unmarshalPrescriptionArray path [] (ps.map marshalPrescriptionJson) = .ok ps := by
  induction ps with
  | nil => rfl
  | cons p rest ih =>
    simp only [List.map_cons, unmarshalPrescriptionArray, List.head?_nil, Option.getD_none,
      List.tail_nil, unmarshal_marshalPrescription, ih]

/-- C29: decoding the JSON encoding of a record gives the record back, every
field equal, for every record; the encoding has the key `DateOfBirth` exactly
when that field is not empty, and holds under `Prescriptions` the encodings of
the prescriptions in order, each with the keys `ExpiryDate`,
`dispensingPharmacist` and `dispensingTimestamp` exactly when the field is not
empty. -/
theorem json_round_trip (r : Asset) :
    unmarshalAssetJson (marshalAssetJson r) = .ok r ∧
    ("DateOfBirth" ∈ (marshalAssetJson r).keys ↔ r.DateOfBirth ≠ "") ∧
    (marshalAssetJson r).member "Prescriptions"
      = some (.arr (r.Prescriptions.map marshalPrescriptionJson)) ∧
    ∀ p : Prescription,
      ("ExpiryDate" ∈ (marshalPrescriptionJson p).keys ↔ p.ExpiryDate ≠ "") ∧
      ("dispensingPharmacist" ∈ (marshalPrescriptionJson p).keys
        ↔ p.DispensingPharmacist ≠ "") ∧
      ("dispensingTimestamp" ∈ (marshalPrescriptionJson p).keys
        ↔ p.DispensingTimestamp ≠ "") := by
  refine ⟨?_, ?_, ?_, ?_⟩
  · cases r with
    | mk b1 b2 b3 b4 b5 b6 =>
      by_cases h4 : b4 = "" <;>
        simp [unmarshalAssetJson, marshalAssetJson, stringMember, unmarshalAssetMembers,
          findField, assetFieldNames, setAssetField, zeroAsset, h4,
          unmarshal_marshalPrescriptions]
  · by_cases h4 : r.DateOfBirth = "" <;>
      simp [marshalAssetJson, stringMember, Json.keys, h4]
  · by_cases h4 : r.DateOfBirth = "" <;>
      simp [marshalAssetJson, stringMember, Json.member, h4]
  · intro p
    by_cases h10 : p.ExpiryDate = "" <;> by_cases h11 : p.DispensingPharmacist = "" <;>
      by_cases h12 : p.DispensingTimestamp = "" <;>
      simp [marshalPrescriptionJson, stringMember, Json.keys, h10, h11, h12]

/-! ## C31: several prescriptions with one id -/

/-- C31: in a record whose first prescription with the id `prescriptionId` is
`p`, with `pre` before it and `post` after it, each of `UpdatePrescription`,
`DispensePrescription`, `RevokePrescriptionJSON` and `CheckPrescriptionExpiry`
for that id fails or succeeds by `p` alone, and what it stores is the record
with `p` replaced and `pre` and `post` as they were, whatever `post` holds,
prescriptions with the same id included. -/
theorem first_occurrence_only (J : Codec Bytes) (ctx : Ctx) (w : World Bytes)
    (patientId prescriptionId : String) (asset : Asset)
    (pre : List Prescription) (p : Prescription) (post : List Prescription)
    (hread : ReadAsset J ctx w patientId = .ok asset)
    (hsplit : asset.Prescriptions = pre ++ p :: post)
    (hpre : ∀ q ∈ pre, q.PrescriptionId ≠ prescriptionId)
    (hp : p.PrescriptionId = prescriptionId) :
    (∀ (prescriptionJSON : Bytes) (newPrescription : Prescription),
      J.unmarshalPrescription prescriptionJSON = .ok newPrescription →
      newPrescription.PrescriptionId = prescriptionId →
      UpdatePrescription J ctx w patientId prescriptionJSON =
        PutState ctx w patientId (J.marshalAsset { asset with
          Prescriptions := pre ++ updatedPrescription ctx newPrescription p :: post,
          LastUpdated := ctx.now.FormatRFC3339 })) ∧
    (∀ (dispensationJSON : Bytes) (d : Dispensation),
      J.unmarshalDispensation dispensationJSON = .ok d →
      d.PatientId = patientId → d.PrescriptionId = prescriptionId →
      patientId ≠ "" → prescriptionId ≠ "" → d.PharmacistId ≠ "" →
      DispensePrescription J ctx w dispensationJSON =
        if p.Status = "Revoked" then (.error "cannot dispense a revoked prescription", w)
        else if p.Status ≠ "Active" then (.error "can only dispense active prescriptions", w)
        else PutState ctx w patientId (J.marshalAsset { asset with
          Prescriptions := pre ++ dispensedPrescription ctx d.PharmacistId p :: post,
          LastUpdated := ctx.now.FormatRFC3339 })) ∧
    (∀ (revocationJSON : Bytes) (r : Revocation),
      J.unmarshalRevocation revocationJSON = .ok r →
      r.PatientId = patientId → r.PrescriptionId = prescriptionId →
      patientId ≠ "" → prescriptionId ≠ "" → r.DoctorId ≠ "" →
      RevokePrescriptionJSON J ctx w revocationJSON =
        if p.CreatedBy ≠ r.DoctorId then
          (.error "only the prescribing doctor can revoke this prescription", w)
        else if p.Status ≠ "Active" then (.error "can only revoke active prescriptions", w)
        else PutState ctx w patientId (J.marshalAsset { asset with
          Prescriptions := pre ++ revokedPrescription ctx p :: post,
          LastUpdated := ctx.now.FormatRFC3339 })) ∧
    CheckPrescriptionExpiry J ctx w patientId prescriptionId =
      (match parseDate p.ExpiryDate with
      | none => (.error "invalid expiry date format", w)
      | some expiryDate =>
        if ctx.now.After expiryDate then
          PutState ctx w patientId (J.marshalAsset { asset with
            Prescriptions := pre ++ expiredPrescription ctx p :: post })
        else (.ok (), w)) := by
  refine ⟨?_, ?_, ?_, ?_⟩
  · intro prescriptionJSON np hparse hid
    subst hid
    exact UpdatePrescription_at J ctx w patientId prescriptionJSON asset np pre p post
      hread hparse hsplit hpre hp
  · intro dispensationJSON d hparse hpat hid hpat0 hid0 hph
    subst hpat hid
    exact DispensePrescription_at J ctx w dispensationJSON d asset pre p post hparse hpat0 hid0
      hph hread hsplit hpre hp
  · intro revocationJSON r hparse hpat hid hpat0 hid0 hdoc
    subst hpat hid
    exact RevokePrescriptionJSON_at J ctx w revocationJSON r asset pre p post hparse hpat0 hid0
      hdoc hread hsplit hpre hp
  · exact CheckPrescriptionExpiry_at J ctx w patientId prescriptionId asset pre p post hread
      hsplit hpre hp

/-- C31 at concrete inputs. The record of `P1` holds `RX1` twice, first revoked
and then active: dispensing `RX1` fails on the revoked one. The record holds
`RX1` twice, both active: dispensing `RX1` succeeds and the stored record has
the first dispensed and the second still active. -/
theorem first_occurrence_only_witness :
    DispensePrescription wireCodec ctx1
        (worldP1 [rxStored "Revoked" "2024-04-01", rxStored "Active" "2024-04-01"])
        (Wire.dispensation ⟨"P1", "RX1", "Ph1", ""⟩)
      = (.error "cannot dispense a revoked prescription",
          worldP1 [rxStored "Revoked" "2024-04-01", rxStored "Active" "2024-04-01"]) ∧
    DispensePrescription wireCodec ctx1
        (worldP1 [rxStored "Active" "2024-04-01", rxStored "Active" "2024-04-01"])
        (Wire.dispensation ⟨"P1", "RX1", "Ph1", ""⟩)
      = (.ok (), [("P1", Wire.asset
          { recordP1 [dispensedPrescription ctx1 "Ph1" (rxStored "Active" "2024-04-01"),
              rxStored "Active" "2024-04-01"] with
            LastUpdated := ctx1.now.FormatRFC3339 })]) :=
  ⟨(first_occurrence_only wireCodec ctx1
      (worldP1 [rxStored "Revoked" "2024-04-01", rxStored "Active" "2024-04-01"]) "P1" "RX1"
      (recordP1 [rxStored "Revoked" "2024-04-01", rxStored "Active" "2024-04-01"])
      [] (rxStored "Revoked" "2024-04-01") [rxStored "Active" "2024-04-01"] rfl rfl
      (fun _ h => absurd h (List.not_mem_nil _)) rfl).2.1
      (Wire.dispensation ⟨"P1", "RX1", "Ph1", ""⟩) ⟨"P1", "RX1", "Ph1", ""⟩ rfl rfl rfl
      (by decide) (by decide) (by decide),
   (first_occurrence_only wireCodec ctx1
      (worldP1 [rxStored "Active" "2024-04-01", rxStored "Active" "2024-04-01"]) "P1" "RX1"
      (recordP1 [rxStored "Active" "2024-04-01", rxStored "Active" "2024-04-01"])
      [] (rxStored "Active" "2024-04-01") [rxStored "Active" "2024-04-01"] rfl rfl
      (fun _ h => absurd h (List.not_mem_nil _)) rfl).2.1
      (Wire.dispensation ⟨"P1", "RX1", "Ph1", ""⟩) ⟨"P1", "RX1", "Ph1", ""⟩ rfl rfl rfl
      (by decide) (by decide) (by decide)⟩

/-! ## C32: the sequence of prescriptions only grows -/

/-- Replacing an entry by one with the same id keeps the sequence of ids. -/
theorem ids_replace (pre : List Prescription) (p p' : Prescription) (post : List Prescription)
    (h : p'.PrescriptionId = p.PrescriptionId) :
    (pre ++ p' :: post).map (fun q => q.PrescriptionId)
      = (pre ++ p :: post).map (fun q => q.PrescriptionId) := by
  simp [h]

/-- C32: every successful mutating transaction leaves, in every record that
could be read before it, the previous sequence of prescription ids as a prefix
of the new one. A successful `UpdatePrescription`, `DispensePrescription`,
`RevokePrescriptionJSON` or `CheckPrescriptionExpiry` leaves the number of
prescriptions and the sequence of their ids as they were; a successful
`CreateAsset` leaves the previous prescriptions themselves as a prefix. -/
theorem prescriptions_append_only (J : Codec Bytes) (ctx : Ctx) (w : World Bytes)
    (m : Mutation Bytes) (key : String) (a : Asset)
    (hread : ReadAsset J ctx w key = .ok a)
    (hok : (runMutation J ctx w m).1 = .ok ()) :
    ∃ a', ReadAsset J ctx (runMutation J ctx w m).2 key = .ok a' ∧
      a.Prescriptions.map (fun q => q.PrescriptionId)
        <+: a'.Prescriptions.map (fun q => q.PrescriptionId) ∧
      ((∀ assetJSON, m ≠ Mutation.CreateAsset assetJSON) →
        a'.Prescriptions.length = a.Prescriptions.length ∧
        a'.Prescriptions.map (fun q => q.PrescriptionId)
          = a.Prescriptions.map (fun q => q.PrescriptionId)) ∧
      ((∃ assetJSON, m = Mutation.CreateAsset assetJSON) →
        a.Prescriptions <+: a'.Prescriptions) := by
  have hsame : ∀ (a' : Asset),
      a'.Prescriptions.map (fun q => q.PrescriptionId)
        = a.Prescriptions.map (fun q => q.PrescriptionId) →
      a.Prescriptions.map (fun q => q.PrescriptionId)
          <+: a'.Prescriptions.map (fun q => q.PrescriptionId) ∧
        a'.Prescriptions.length = a.Prescriptions.length ∧
        a'.Prescriptions.map (fun q => q.PrescriptionId)
          = a.Prescriptions.map (fun q => q.PrescriptionId) := by
    intro a' h
    refine ⟨by rw [h], ?_, h⟩
    have := congrArg List.length h
    simpa using this
  have hrepl : ∀ (asset : Asset) (pre : List Prescription) (p p' : Prescription)
      (post : List Prescription) (hdr : Asset), asset = a →
      asset.Prescriptions = pre ++ p :: post → p'.PrescriptionId = p.PrescriptionId →
      hdr.Prescriptions = pre ++ p' :: post →
      a.Prescriptions.map (fun q => q.PrescriptionId)
          <+: hdr.Prescriptions.map (fun q => q.PrescriptionId) ∧
        hdr.Prescriptions.length = a.Prescriptions.length ∧
        hdr.Prescriptions.map (fun q => q.PrescriptionId)
          = a.Prescriptions.map (fun q => q.PrescriptionId) := by
    intro asset pre p p' post hdr ha hsplit hid hh
    subst ha
    apply hsame
    rw [hh, hsplit]
    exact ids_replace pre p p' post hid
  cases m with
  | CreateAsset assetJSON =>
    simp only [runMutation] at hok ⊢
    rcases CreateAsset_outcome J ctx w assetJSON with
      ⟨e, he⟩ | ⟨na, ex, _, _, _, _, hrd, heq⟩ | ⟨na, e, _, _, _, _, hrd, heq⟩
    · rw [he] at hok
      exact absurd hok (by simp)
    · rw [heq]
      by_cases hk : key = na.PatientId
      · subst hk
        have hex : ex = a := Except.ok.inj (hrd.symm.trans hread)
        have hget : ctx.getErr na.PatientId = none :=
          ((ReadAsset_ok_iff J ctx w _ _).mp hread).1
        refine ⟨mergedAsset ctx ex na, ReadAsset_putValue_same J ctx w _ _ hget, ?_, ?_, ?_⟩
        · simp [mergedAsset, hex]
        · intro h
          exact absurd rfl (h assetJSON)
        · intro _
          simp [mergedAsset, hex]
      · refine ⟨a, by rw [ReadAsset_putValue_other J ctx w _ key _ hk]; exact hread,
          List.prefix_refl _, fun _ => ⟨rfl, rfl⟩, fun _ => List.prefix_refl _⟩
    · rw [heq]
      by_cases hk : key = na.PatientId
      · subst hk
        rw [hread] at hrd
        exact absurd hrd (by simp)
      · refine ⟨a, by rw [ReadAsset_putValue_other J ctx w _ key _ hk]; exact hread,
          List.prefix_refl _, fun _ => ⟨rfl, rfl⟩, fun _ => List.prefix_refl _⟩
  | UpdatePrescription patientId prescriptionJSON =>
    simp only [runMutation] at hok ⊢
    rcases UpdatePrescription_outcome J ctx w patientId prescriptionJSON with
      ⟨e, he⟩ | ⟨asset, np, pre, p, post, hrd, _, hsplit, _, hp, heq⟩
    · rw [he] at hok
      exact absurd hok (by simp)
    · rw [heq]
      by_cases hk : key = patientId
      · subst hk
        have hget : ctx.getErr key = none := ((ReadAsset_ok_iff J ctx w _ _).mp hread).1
        obtain ⟨h1, h2, h3⟩ := hrepl asset pre p (updatedPrescription ctx np p) post
          { asset with
            Prescriptions := pre ++ updatedPrescription ctx np p :: post,
            LastUpdated := ctx.now.FormatRFC3339 }
          (Except.ok.inj (hrd.symm.trans hread)) hsplit hp.symm rfl
        exact ⟨_, ReadAsset_putValue_same J ctx w _ _ hget, h1, fun _ => ⟨h2, h3⟩,
          fun h => by obtain ⟨x, hx⟩ := h; cases hx⟩
      · refine ⟨a, by rw [ReadAsset_putValue_other J ctx w _ key _ hk]; exact hread,
          List.prefix_refl _, fun _ => ⟨rfl, rfl⟩, fun _ => List.prefix_refl _⟩
  | DispensePrescription dispensationJSON =>
    simp only [runMutation] at hok ⊢
    rcases DispensePrescription_outcome J ctx w dispensationJSON with
      ⟨e, he⟩ | ⟨d, asset, pre, p, post, _, hrd, hsplit, _, _, _, heq⟩
    · rw [he] at hok
      exact absurd hok (by simp)
    · rw [heq]
      by_cases hk : key = d.PatientId
      · subst hk
        have hget : ctx.getErr d.PatientId = none :=
          ((ReadAsset_ok_iff J ctx w _ _).mp hread).1
        obtain ⟨h1, h2, h3⟩ := hrepl asset pre p (dispensedPrescription ctx d.PharmacistId p)
          post
          { asset with
            Prescriptions := pre ++ dispensedPrescription ctx d.PharmacistId p :: post,
            LastUpdated := ctx.now.FormatRFC3339 }
          (Except.ok.inj (hrd.symm.trans hread)) hsplit rfl rfl
        exact ⟨_, ReadAsset_putValue_same J ctx w _ _ hget, h1, fun _ => ⟨h2, h3⟩,
          fun h => by obtain ⟨x, hx⟩ := h; cases hx⟩
      · refine ⟨a, by rw [ReadAsset_putValue_other J ctx w _ key _ hk]; exact hread,
          List.prefix_refl _, fun _ => ⟨rfl, rfl⟩, fun _ => List.prefix_refl _⟩
  | RevokePrescriptionJSON revocationJSON =>
    simp only [runMutation] at hok ⊢
    rcases RevokePrescriptionJSON_outcome J ctx w revocationJSON with
      ⟨e, he⟩ | ⟨r, asset, pre, p, post, _, hrd, hsplit, _, _, _, _, heq⟩
    · rw [he] at hok
      exact absurd hok (by simp)
    · rw [heq]
      by_cases hk : key = r.PatientId
      · subst hk
        have hget : ctx.getErr r.PatientId = none :=
          ((ReadAsset_ok_iff J ctx w _ _).mp hread).1
        obtain ⟨h1, h2, h3⟩ := hrepl asset pre p (revokedPrescription ctx p) post
          { asset with
            Prescriptions := pre ++ revokedPrescription ctx p :: post,
            LastUpdated := ctx.now.FormatRFC3339 }
          (Except.ok.inj (hrd.symm.trans hread)) hsplit rfl rfl
        exact ⟨_, ReadAsset_putValue_same J ctx w _ _ hget, h1, fun _ => ⟨h2, h3⟩,
          fun h => by obtain ⟨x, hx⟩ := h; cases hx⟩
      · refine ⟨a, by rw [ReadAsset_putValue_other J ctx w _ key _ hk]; exact hread,
          List.prefix_refl _, fun _ => ⟨rfl, rfl⟩, fun _ => List.prefix_refl _⟩
  | CheckPrescriptionExpiry patientId prescriptionId =>
    simp only [runMutation] at hok ⊢
    rcases CheckPrescriptionExpiry_outcome J ctx w patientId prescriptionId with
      hw | ⟨asset, pre, p, post, e, hrd, hsplit, _, _, _, _, heq⟩
    · rw [hw]
      exact ⟨a, hread, List.prefix_refl _, fun _ => ⟨rfl, rfl⟩, fun _ => List.prefix_refl _⟩
    · rw [heq]
      by_cases hk : key = patientId
      · subst hk
        have hget : ctx.getErr key = none := ((ReadAsset_ok_iff J ctx w _ _).mp hread).1
        obtain ⟨h1, h2, h3⟩ := hrepl asset pre p (expiredPrescription ctx p) post
          { asset with Prescriptions := pre ++ expiredPrescription ctx p :: post }
          (Except.ok.inj (hrd.symm.trans hread)) hsplit rfl rfl
        exact ⟨_, ReadAsset_putValue_same J ctx w _ _ hget, h1, fun _ => ⟨h2, h3⟩,
          fun h => by obtain ⟨x, hx⟩ := h; cases hx⟩
      · refine ⟨a, by rw [ReadAsset_putValue_other J ctx w _ key _ hk]; exact hread,
          List.prefix_refl _, fun _ => ⟨rfl, rfl⟩, fun _ => List.prefix_refl _⟩

/-- C32 at a concrete input: a merge of `RX2` into the record of `P1`, which
holds `RX1`. -/
theorem prescriptions_append_only_witness :
    ∃ a', ReadAsset wireCodec ctx1
        (runMutation wireCodec ctx1 (worldP1 [rxStored "Active" "2024-04-01"])
          (Mutation.CreateAsset
            (Wire.asset ⟨"D2", "", "P1", "", [rx "RX2" "Aspirin" "cold"], ""⟩))).2 "P1"
        = .ok a' ∧
      (recordP1 [rxStored "Active" "2024-04-01"]).Prescriptions.map (fun q => q.PrescriptionId)
        <+: a'.Prescriptions.map (fun q => q.PrescriptionId) ∧
      ((∀ assetJSON, Mutation.CreateAsset
            (Wire.asset ⟨"D2", "", "P1", "", [rx "RX2" "Aspirin" "cold"], ""⟩)
          ≠ Mutation.CreateAsset assetJSON) →
        a'.Prescriptions.length
          = (recordP1 [rxStored "Active" "2024-04-01"]).Prescriptions.length ∧
        a'.Prescriptions.map (fun q => q.PrescriptionId)
          = (recordP1 [rxStored "Active" "2024-04-01"]).Prescriptions.map
              (fun q => q.PrescriptionId)) ∧
      ((∃ assetJSON, Mutation.CreateAsset
            (Wire.asset ⟨"D2", "", "P1", "", [rx "RX2" "Aspirin" "cold"], ""⟩)
          = Mutation.CreateAsset assetJSON) →
        (recordP1 [rxStored "Active" "2024-04-01"]).Prescriptions <+: a'.Prescriptions) :=
  prescriptions_append_only wireCodec ctx1 (worldP1 [rxStored "Active" "2024-04-01"])
    (Mutation.CreateAsset (Wire.asset ⟨"D2", "", "P1", "", [rx "RX2" "Aspirin" "cold"], ""⟩))
    "P1" (recordP1 [rxStored "Active" "2024-04-01"]) rfl rfl

/-! ## C33: no dispensing after a dispensing or a revocation -/

/-- A `DispensePrescription` that succeeds was given a patient id and a
prescription id. -/
theorem DispensePrescription_ok_ids (J : Codec Bytes) (ctx : Ctx) (w : World Bytes)
    (dispensationJSON : Bytes) (d : Dispensation)
    (hparse : J.unmarshalDispensation dispensationJSON = .ok d)
    (hok : (DispensePrescription J ctx w dispensationJSON).1 = .ok ()) :
    d.PatientId ≠ "" ∧ d.PrescriptionId ≠ "" := by
  constructor <;>
  · intro h
    simp [DispensePrescription, hparse, h] at hok

/-- A `RevokePrescriptionJSON` that succeeds was given a patient id and a
prescription id. -/
theorem RevokePrescriptionJSON_ok_ids (J : Codec Bytes) (ctx : Ctx) (w : World Bytes)
    (revocationJSON : Bytes) (r : Revocation)
    (hparse : J.unmarshalRevocation revocationJSON = .ok r)
    (hok : (RevokePrescriptionJSON J ctx w revocationJSON).1 = .ok ()) :
    r.PatientId ≠ "" ∧ r.PrescriptionId ≠ "" := by
  constructor <;>
  · intro h
    simp [RevokePrescriptionJSON, hparse, h] at hok

/-- C33: a `DispensePrescription` that names a pharmacist and can read the
record, run on the world state a successful `DispensePrescription` for the same
patient id and prescription id left, fails with "can only dispense active
prescriptions" and leaves that world state as it is; run after a successful
`RevokePrescriptionJSON` for the same pair it fails with "cannot dispense a
revoked prescription". The record may hold the id several times. -/
theorem no_dispense_after_terminal (J : Codec Bytes) (ctx ctx2 : Ctx) (w : World Bytes)
    (dispensationJSON : Bytes) (d : Dispensation)
    (hparse : J.unmarshalDispensation dispensationJSON = .ok d)
    (hph : d.PharmacistId ≠ "")
    (hget : ctx2.getErr d.PatientId = none) :
    (∀ (firstJSON : Bytes) (first : Dispensation),
      J.unmarshalDispensation firstJSON = .ok first →
      first.PatientId = d.PatientId → first.PrescriptionId = d.PrescriptionId →
      (DispensePrescription J ctx w firstJSON).1 = .ok () →
      DispensePrescription J ctx2 (DispensePrescription J ctx w firstJSON).2 dispensationJSON
        = (.error "can only dispense active prescriptions",
            (DispensePrescription J ctx w firstJSON).2)) ∧
    (∀ (revocationJSON : Bytes) (r : Revocation),
      J.unmarshalRevocation revocationJSON = .ok r →
      r.PatientId = d.PatientId → r.PrescriptionId = d.PrescriptionId →
      (RevokePrescriptionJSON J ctx w revocationJSON).1 = .ok () →
      DispensePrescription J ctx2 (RevokePrescriptionJSON J ctx w revocationJSON).2
          dispensationJSON
        = (.error "cannot dispense a revoked prescription",
            (RevokePrescriptionJSON J ctx w revocationJSON).2)) := by
  constructor
  · intro firstJSON first hfirst hpat hid hok
    obtain ⟨hpat0, hid0⟩ := DispensePrescription_ok_ids J ctx w firstJSON first hfirst hok
    rcases DispensePrescription_outcome J ctx w firstJSON with
      ⟨e, he⟩ | ⟨d1, asset, pre, p, post, hd1, _, _, hpre, hp, _, heq⟩
    · rw [he] at hok
      exact absurd hok (by simp)
    · have hd : d1 = first := Except.ok.inj (hd1.symm.trans hfirst)
      subst hd
      rw [heq]
      rw [hpat] at hpat0 ⊢
      rw [hid] at hid0 hpre hp
      rw [DispensePrescription_at J ctx2 _ dispensationJSON d _ pre
        (dispensedPrescription ctx d1.PharmacistId p) post hparse hpat0 hid0 hph
        (ReadAsset_putValue_same J ctx2 w _ _ hget) rfl hpre hp]
      simp [dispensedPrescription]
  · intro revocationJSON r hr hpat hid hok
    obtain ⟨hpat0, hid0⟩ := RevokePrescriptionJSON_ok_ids J ctx w revocationJSON r hr hok
    rcases RevokePrescriptionJSON_outcome J ctx w revocationJSON with
      ⟨e, he⟩ | ⟨r1, asset, pre, p, post, hr1, _, _, hpre, hp, _, _, heq⟩
    · rw [he] at hok
      exact absurd hok (by simp)
    · have hd : r1 = r := Except.ok.inj (hr1.symm.trans hr)
      subst hd
      rw [heq]
      rw [hpat] at hpat0 ⊢
      rw [hid] at hid0 hpre hp
      rw [DispensePrescription_at J ctx2 _ dispensationJSON d _ pre
        (revokedPrescription ctx p) post hparse hpat0 hid0 hph
        (ReadAsset_putValue_same J ctx2 w _ _ hget) rfl hpre hp]
      simp [revokedPrescription]

/-- C33 at a concrete input: the record of `P1` holds `RX1` twice, both active;
after `Ph1` dispensed `RX1`, a second dispensing by `Ph2` fails, and after
doctor `D1` revoked `RX1`, a dispensing by `Ph2` fails. -/
theorem no_dispense_after_terminal_witness :
    DispensePrescription wireCodec ctx1
        (DispensePrescription wireCodec ctx1
          (worldP1 [rxStored "Active" "2024-04-01", rxStored "Active" "2024-04-01"])
          (Wire.dispensation ⟨"P1", "RX1", "Ph1", ""⟩)).2
        (Wire.dispensation ⟨"P1", "RX1", "Ph2", ""⟩)
      = (.error "can only dispense active prescriptions",
          (DispensePrescription wireCodec ctx1
            (worldP1 [rxStored "Active" "2024-04-01", rxStored "Active" "2024-04-01"])
            (Wire.dispensation ⟨"P1", "RX1", "Ph1", ""⟩)).2) ∧
    DispensePrescription wireCodec ctx1
        (RevokePrescriptionJSON wireCodec ctx1
          (worldP1 [rxStored "Active" "2024-04-01", rxStored "Active" "2024-04-01"])
          (Wire.revocation ⟨"P1", "RX1", "D1"⟩)).2
        (Wire.dispensation ⟨"P1", "RX1", "Ph2", ""⟩)
      = (.error "cannot dispense a revoked prescription",
          (RevokePrescriptionJSON wireCodec ctx1
            (worldP1 [rxStored "Active" "2024-04-01", rxStored "Active" "2024-04-01"])
            (Wire.revocation ⟨"P1", "RX1", "D1"⟩)).2) :=
  ⟨(no_dispense_after_terminal wireCodec ctx1 ctx1
      (worldP1 [rxStored "Active" "2024-04-01", rxStored "Active" "2024-04-01"])
      (Wire.dispensation ⟨"P1", "RX1", "Ph2", ""⟩) ⟨"P1", "RX1", "Ph2", ""⟩ rfl (by decide)
      rfl).1 (Wire.dispensation ⟨"P1", "RX1", "Ph1", ""⟩) ⟨"P1", "RX1", "Ph1", ""⟩
      rfl rfl rfl rfl,
   (no_dispense_after_terminal wireCodec ctx1 ctx1
      (worldP1 [rxStored "Active" "2024-04-01", rxStored "Active" "2024-04-01"])
      (Wire.dispensation ⟨"P1", "RX1", "Ph2", ""⟩) ⟨"P1", "RX1", "Ph2", ""⟩ rfl (by decide)
      rfl).2 (Wire.revocation ⟨"P1", "RX1", "D1"⟩) ⟨"P1", "RX1", "D1"⟩ rfl rfl rfl rfl⟩

/-! ## C34: what a merge leaves of the stored record -/

/-- C34: when the record of the payload's patient can be read, a successful
`CreateAsset` stores a record with the `DoctorId`, `PatientName`, `PatientId`
and `DateOfBirth` that were stored, whatever the payload carries in them, with
`LastUpdated` now, with the stored prescriptions as they were, and after them
the incoming prescriptions, whose `CreatedBy` is the payload's `DoctorId`. -/
theorem CreateAsset_merge_frame (J : Codec Bytes) (ctx : Ctx) (w : World Bytes)
    (assetJSON : Bytes) (newAsset existingAsset : Asset)
    (hparse : J.unmarshalAsset assetJSON = .ok newAsset)
    (hread : ReadAsset J ctx w newAsset.PatientId = .ok existingAsset)
    (hok : (CreateAsset J ctx w assetJSON).1 = .ok ()) :
    ∃ after, ReadAsset J ctx (CreateAsset J ctx w assetJSON).2 newAsset.PatientId = .ok after ∧
      after.DoctorId = existingAsset.DoctorId ∧
      after.PatientName = existingAsset.PatientName ∧
      after.PatientId = existingAsset.PatientId ∧
      after.DateOfBirth = existingAsset.DateOfBirth ∧
      after.LastUpdated = ctx.now.FormatRFC3339 ∧
      after.Prescriptions.length
        = existingAsset.Prescriptions.length + newAsset.Prescriptions.length ∧
      (∀ (i : Nat) (p : Prescription), existingAsset.Prescriptions[i]? = some p →
        after.Prescriptions[i]? = some p) ∧
      (∀ (j : Nat) (p : Prescription), newAsset.Prescriptions[j]? = some p →
        ∃ s : Prescription,
          after.Prescriptions[existingAsset.Prescriptions.length + j]? = some s ∧
          s.CreatedBy = newAsset.DoctorId) := by
  have hget : ctx.getErr newAsset.PatientId = none :=
    ((ReadAsset_ok_iff J ctx w _ _).mp hread).1
  rcases CreateAsset_outcome J ctx w assetJSON with
    ⟨e, he⟩ | ⟨na, ex, hna, _, _, _, hrd, heq⟩ | ⟨na, e, hna, _, _, _, hrd, heq⟩
  · rw [he] at hok
    exact absurd hok (by simp)
  · have hnew : na = newAsset := Except.ok.inj (hna.symm.trans hparse)
    subst hnew
    have hex : ex = existingAsset := Except.ok.inj (hrd.symm.trans hread)
    subst hex
    rw [heq]
    refine ⟨mergedAsset ctx ex na, ReadAsset_putValue_same J ctx w _ _ hget, rfl, rfl, rfl,
      rfl, rfl, by simp [mergedAsset], ?_, ?_⟩
    · intro i p hp
      have hlt : i < ex.Prescriptions.length := (List.getElem?_eq_some.mp hp).1
      simp only [mergedAsset]
      rw [List.getElem?_append_left hlt]
      exact hp
    · intro j p hj
      exact ⟨stampPrescription ctx na.DoctorId p, getElem?_append_map _ _ _ j p hj,
        (stampPrescription_fields ctx na.DoctorId p).2.2.2.1⟩
  · have hnew : na = newAsset := Except.ok.inj (hna.symm.trans hparse)
    subst hnew
    rw [hread] at hrd
    exact absurd hrd (by simp)

/-- C34 at a concrete input: doctor `D2` sends a payload for `P1` with another
patient name and date of birth; the stored header stays that of the record. -/
theorem CreateAsset_merge_frame_witness :
    ∃ after, ReadAsset wireCodec ctx1
        (CreateAsset wireCodec ctx1 (worldP1 [rxStored "Active" "2024-04-01"])
          (Wire.asset ⟨"D2", "Someone Else", "P1", "2001-02-03",
            [rx "RX2" "Aspirin" "cold"], ""⟩)).2 "P1" = .ok after ∧
      after.DoctorId = "D1" ∧ after.PatientName = "Pat One" ∧ after.PatientId = "P1" ∧
      after.DateOfBirth = "1990-01-01" ∧
      after.LastUpdated = ctx1.now.FormatRFC3339 ∧
      after.Prescriptions.length = 1 + 1 ∧
      (∀ (i : Nat) (p : Prescription), [rxStored "Active" "2024-04-01"][i]? = some p →
        after.Prescriptions[i]? = some p) ∧
      (∀ (j : Nat) (p : Prescription), [rx "RX2" "Aspirin" "cold"][j]? = some p →
        ∃ s : Prescription, after.Prescriptions[1 + j]? = some s ∧ s.CreatedBy = "D2") :=
  CreateAsset_merge_frame wireCodec ctx1 (worldP1 [rxStored "Active" "2024-04-01"])
    (Wire.asset ⟨"D2", "Someone Else", "P1", "2001-02-03", [rx "RX2" "Aspirin" "cold"], ""⟩)
    ⟨"D2", "Someone Else", "P1", "2001-02-03", [rx "RX2" "Aspirin" "cold"], ""⟩
    (recordP1 [rxStored "Active" "2024-04-01"]) rfl rfl rfl

/-! ## C36: the dispense history of the empty pharmacist id -/

/-- C36 fails as a statement about prescriptions that were never dispensed.
First, a prescription created from a payload that carries a
`dispensingPharmacist` is stored active and was never dispensed, yet the history
of the empty pharmacist id has no entry for it. Second, a prescription that was
dispensed by `Ph1` and then updated with a payload without
`dispensingPharmacist` has an entry in the history of the empty pharmacist id. -/
theorem GetDispenseHistory_empty_id_not_undispensed :
    (storedAsset wireCodec
      (CreateAsset wireCodec ctx1 []
        (Wire.asset ⟨"D1", "Pat One", "P1", "",
          [{ rx "RX1" "Aspirin" "pain" with DispensingPharmacist := "Ph1" }], ""⟩)).2
      "P1").map (fun a => a.Prescriptions.map (fun p => (p.Status, p.DispensingPharmacist)))
      = some [("Active", "Ph1")] ∧
    (GetDispenseHistory wireCodec ctx1
      (CreateAsset wireCodec ctx1 []
        (Wire.asset ⟨"D1", "Pat One", "P1", "",
          [{ rx "RX1" "Aspirin" "pain" with DispensingPharmacist := "Ph1" }], ""⟩)).2
      "").1 = .ok [] ∧
    (DispensePrescription wireCodec ctx1 (worldP1 [rxStored "Active" "2024-04-01"])
      (Wire.dispensation ⟨"P1", "RX1", "Ph1", ""⟩)).1 = .ok () ∧
    ((GetDispenseHistory wireCodec ctx1
      (UpdatePrescription wireCodec ctx1
        (DispensePrescription wireCodec ctx1 (worldP1 [rxStored "Active" "2024-04-01"])
          (Wire.dispensation ⟨"P1", "RX1", "Ph1", ""⟩)).2
        "P1" (Wire.prescription { rx "RX1" "Ibuprofen" "flu" with Status := "Dispensed" })).2
      "").1).map (fun entries => entries.map (fun e => (e.PrescriptionId, e.Status)))
      = .ok [("RX1", "Dispensed")] :=
  ⟨by decide, rfl, rfl, rfl⟩

/-- The number of entries for a pharmacist is the number of scanned
prescriptions whose `DispensingPharmacist` is the pharmacist. -/
theorem dispenseEntries_length (J : Codec Bytes) (ctx : Ctx) (w : World Bytes)
    (pharmacistId : String) :
    (dispenseEntries J ctx w pharmacistId).length
      = (scannedPrescriptions J ctx w).countP (fun p =>
          decide (p.DispensingPharmacist = pharmacistId)) := by
  unfold dispenseEntries scannedPrescriptions
  induction scannedAssets J ctx w with
  | nil => simp
  | cons a rest ih =>
    simp only [List.flatMap_cons, List.length_append, List.length_map, List.countP_append, ih]
    simp only [List.countP_eq_length_filter]

/-- C36, amended: when the scan can be opened, `GetDispenseHistory` with the
empty pharmacist id returns, over the scanned records in scan order and in
stored order within a record, one entry for each prescription whose
`DispensingPharmacist` is empty, and nothing else. That field is whatever the
payload carried when `CreateAsset` or `UpdatePrescription` stored the
prescription, and the pharmacist id once `DispensePrescription` wrote it. -/
theorem GetDispenseHistory_empty_id (J : Codec Bytes) (ctx : Ctx) (w : World Bytes)
    (hrange : ctx.rangeErr = none) :
    GetDispenseHistory J ctx w ""
      = (.ok ((scannedAssets J ctx w).flatMap (fun asset =>
          (asset.Prescriptions.filter (fun p => decide (p.DispensingPharmacist = ""))).map
            (dispensedPrescriptionData asset))), w) ∧
    ((scannedAssets J ctx w).flatMap (fun asset =>
        (asset.Prescriptions.filter (fun p => decide (p.DispensingPharmacist = ""))).map
          (dispensedPrescriptionData asset))).length
      = (scannedPrescriptions J ctx w).countP (fun p =>
          decide (p.DispensingPharmacist = "")) ∧
    (∀ (c : Ctx) (doctorId : String) (p : Prescription),
      (stampPrescription c doctorId p).DispensingPharmacist = p.DispensingPharmacist) ∧
    (∀ (c : Ctx) (newPrescription p : Prescription),
      (updatedPrescription c newPrescription p).DispensingPharmacist
        = newPrescription.DispensingPharmacist) ∧
    (∀ (c : Ctx) (pharmacistId : String) (p : Prescription),
      (dispensedPrescription c pharmacistId p).DispensingPharmacist = pharmacistId) := by
  refine ⟨GetDispenseHistory_eq J ctx w "" hrange, dispenseEntries_length J ctx w "", ?_,
    fun _ _ _ => rfl, fun _ _ _ => rfl⟩
  intro c doctorId p
  unfold stampPrescription
  by_cases h : p.ExpiryDate = "" <;> simp [h]

/-- C36, amended, at a concrete input: no prescription of `worldAB` names a
pharmacist, so the history of the empty pharmacist id lists all four. -/
theorem GetDispenseHistory_empty_id_witness :
    ((GetDispenseHistory wireCodec ctx1 worldAB "").1).map
        (fun entries => entries.map (fun e => (e.PatientId, e.PrescriptionId)))
      = .ok [("A", "RX1"), ("A", "RX2"), ("A", "RX3"), ("B", "RX4")] := by
  rw [(GetDispenseHistory_empty_id wireCodec ctx1 worldAB rfl).1]
  rfl

/-! ## C35: `CreateAsset` of the copy under `fabricNetwork/` -/

/-- The metadata loop stamps every prescription of the payload. -/
theorem FabricNetwork_metadataLoop_eq (ctx : Ctx) (doctorId lastUpdated : String)
    (ps : List FabricNetwork.Prescription) :
    FabricNetwork.metadataLoop ctx doctorId lastUpdated ps
      = ps.map (FabricNetwork.stampPrescription ctx doctorId lastUpdated) := by
  induction ps with
  | nil => rfl
  | cons p rest ih => simp [FabricNetwork.metadataLoop, ih]

/-- C35: in the copy under `fabricNetwork/`, `CreateAsset` with a payload that
names a patient and a doctor succeeds when `PutState` does, on every world
state, and the record then stored under the patient id has the payload's
`DoctorId`, `PatientName`, `PatientId` and `DateOfBirth`, `LastUpdated` now, and
as prescriptions exactly the payload's, stamped, as many as the payload has:
nothing of a record stored before is kept, and no field of a prescription is
checked. -/
theorem FabricNetwork_CreateAsset_replaces (J : FabricNetwork.Codec Bytes) (ctx : Ctx)
    (w : World Bytes) (assetJSON : Bytes) (asset : FabricNetwork.Asset)
    (hparse : J.unmarshalAsset assetJSON = .ok asset)
    (hpid : asset.PatientId ≠ "") (hdoc : asset.DoctorId ≠ "")
    (hput : ctx.putErr asset.PatientId = none) :
    (FabricNetwork.CreateAsset J ctx w assetJSON).1 = .ok () ∧
    ∃ after, FabricNetwork.storedAsset J (FabricNetwork.CreateAsset J ctx w assetJSON).2
        asset.PatientId = some after ∧
      after.DoctorId = asset.DoctorId ∧ after.PatientName = asset.PatientName ∧
      after.PatientId = asset.PatientId ∧ after.DateOfBirth = asset.DateOfBirth ∧
      after.LastUpdated = ctx.now.FormatRFC3339 ∧
      after.Prescriptions.length = asset.Prescriptions.length ∧
      ∀ (j : Nat) (p : FabricNetwork.Prescription), asset.Prescriptions[j]? = some p →
        ∃ s : FabricNetwork.Prescription, after.Prescriptions[j]? = some s ∧
          s.Status = "Active" ∧ s.TxID = ctx.txID ∧ s.Timestamp = ctx.now.FormatRFC3339 ∧
          s.CreatedBy = asset.DoctorId ∧
          s.ExpiryDate
            = (if p.ExpiryDate = "" then (ctx.now.AddDate 0 1 0).FormatDate
               else p.ExpiryDate) ∧
          s.PrescriptionId = p.PrescriptionId ∧ s.MedicationName = p.MedicationName ∧
          s.Dosage = p.Dosage ∧ s.Instructions = p.Instructions ∧
          s.DispensingPharmacist = p.DispensingPharmacist ∧
          s.DispensingTimestamp = p.DispensingTimestamp := by
  have hid : ¬ (asset.PatientId = "" ∨ asset.DoctorId = "") := by
    rintro (h | h)
    · exact hpid h
    · exact hdoc h
  have heq : FabricNetwork.CreateAsset J ctx w assetJSON
      = (.ok (), putValue w asset.PatientId (J.marshalAsset { asset with
          LastUpdated := ctx.now.FormatRFC3339,
          Prescriptions := asset.Prescriptions.map
            (FabricNetwork.stampPrescription ctx asset.DoctorId ctx.now.FormatRFC3339) })) := by
    simp only [FabricNetwork.CreateAsset, hparse, if_neg hid, PutState_ok ctx w _ _ hput,
      FabricNetwork_metadataLoop_eq]
  rw [heq]
  have hstored : FabricNetwork.storedAsset J (putValue w asset.PatientId (J.marshalAsset
      { asset with
        LastUpdated := ctx.now.FormatRFC3339,
        Prescriptions := asset.Prescriptions.map
          (FabricNetwork.stampPrescription ctx asset.DoctorId ctx.now.FormatRFC3339) }))
      asset.PatientId
      = some { asset with
        LastUpdated := ctx.now.FormatRFC3339,
        Prescriptions := asset.Prescriptions.map
          (FabricNetwork.stampPrescription ctx asset.DoctorId ctx.now.FormatRFC3339) } := by
    simp [FabricNetwork.storedAsset, getValue_putValue_same, J.unmarshal_marshal]
  refine ⟨rfl, _, hstored, rfl, rfl, rfl, rfl, rfl, by simp, ?_⟩
  · intro j p hj
    refine ⟨FabricNetwork.stampPrescription ctx asset.DoctorId ctx.now.FormatRFC3339 p,
      by simp [hj], ?_⟩
    unfold FabricNetwork.stampPrescription
    by_cases h : p.ExpiryDate = "" <;> simp [h]

/-- C35 at a concrete input: the record of `P1` holds `RX1` and `RX2`; a payload
for `P1` with the one prescription `RX3` leaves a record with `RX3` only. -/
theorem FabricNetwork_CreateAsset_replaces_witness :
    (FabricNetwork.CreateAsset FabricNetwork.wireCodec ctx1
        [("P1", some ⟨"D1", "Pat One", "P1", "",
          [FabricNetwork.rxStored "RX1" "Active", FabricNetwork.rxStored "RX2" "Dispensed"],
          "2024-03-01T09:00:00Z"⟩)]
        (some ⟨"D2", "Pat One", "P1", "", [FabricNetwork.rxStored "RX3" ""], ""⟩)).1
      = .ok () ∧
    (FabricNetwork.storedAsset FabricNetwork.wireCodec
      (FabricNetwork.CreateAsset FabricNetwork.wireCodec ctx1
        [("P1", some ⟨"D1", "Pat One", "P1", "",
          [FabricNetwork.rxStored "RX1" "Active", FabricNetwork.rxStored "RX2" "Dispensed"],
          "2024-03-01T09:00:00Z"⟩)]
        (some ⟨"D2", "Pat One", "P1", "", [FabricNetwork.rxStored "RX3" ""], ""⟩)).2
      "P1").map (fun a => a.Prescriptions.map (fun p => (p.PrescriptionId, p.Status)))
      = some [("RX3", "Active")] :=
  ⟨(FabricNetwork_CreateAsset_replaces FabricNetwork.wireCodec ctx1
      [("P1", some ⟨"D1", "Pat One", "P1", "",
        [FabricNetwork.rxStored "RX1" "Active", FabricNetwork.rxStored "RX2" "Dispensed"],
        "2024-03-01T09:00:00Z"⟩)]
      (some ⟨"D2", "Pat One", "P1", "", [FabricNetwork.rxStored "RX3" ""], ""⟩)
      ⟨"D2", "Pat One", "P1", "", [FabricNetwork.rxStored "RX3" ""], ""⟩
      rfl (by decide) (by decide) rfl).1,
   by decide⟩

end Chaincode
